import Mathlib

/-! # Crypto dashboard: synthetic series, window aggregation and drill-down

A shallow embedding of the data engine of the dashboard:

* `src/data/tokenData.js`      : the five daily generators and the derived statistics,
* `src/components/VolumeChart.js` : the window filter, the weekly aggregation, the hourly
  drill-down (`generateIntradayData`) and the drill-down metrics (`generateVolumeMetrics`),
* `src/components/PriceChart.js`  : the window filter of the price chart,
* `src/components/DonutChart.js`  : the categorical drill-down (`generateSegmentDetail`).

Conventions of the embedding.

* JavaScript numbers are modelled by exact arithmetic: `ℚ`, or an arbitrary linearly ordered
  field `K` where a transcendental function (`Math.sin`) is involved. Rounding of IEEE doubles
  is not modelled.
* Timestamps are integers (epoch milliseconds). The JavaScript remainder `%` truncates towards
  zero, which is `Int.tmod`.
* `Math.random()` is an explicit stream `rand : ℕ → ℚ` of draws, consumed in call order.
* Calendar queries on `Date` objects (`getDay`, `startOfDay`, the start of the week, going back
  `N` calendar days with `setDate`) are explicit parameters, since they depend on the time zone
  of the host.
* `Math.floor` is `Int.floor`; `Math.round x` is `⌊x + 1/2⌋`; `toFixed(2)` rounds the magnitude
  to two decimals, a tie away from zero.
-/

namespace Dashboard

/-! ## Numeric primitives -/

/-- Model of `Math.round`: the nearest integer, halves rounded towards `+∞`. -/
def mathRound (x : ℚ) : ℤ := Int.floor (x + 1 / 2)

/-- Model of `Math.floor`. -/
def mathFloor (x : ℚ) : ℤ := Int.floor x

/-- Milliseconds in one hour (`date-fns` `addHours` adds `amount * 3600000` ms). -/
def msPerHour : ℤ := 3600000

/-- Milliseconds in one day. -/
def msPerDay : ℤ := 86400000

/-! ## VolumeChart.js : `generateIntradayData` -/

/-- One element of `hourlyData`. -/
structure HourPoint (K : Type) where
  timestamp : ℤ
  volume : K
  hour : ℕ

/-- The `hourFactor` of the loop body: `1.5` for `9 ≤ hour ≤ 17`, `0.3` for `1 ≤ hour ≤ 7`,
`0.5` otherwise. -/
def hourFactor {K : Type} [LinearOrderedField K] (hour : ℕ) : K :=
  if 9 ≤ hour ∧ hour ≤ 17 then 3 / 2
  else if 1 ≤ hour ∧ hour ≤ 7 then 3 / 10
  else 1 / 2

/-- The `randomFactor` of the loop body: `(Math.sin(seed + hour * 13) + 1) * 0.5 + 0.5`.
`sin` stands for `Math.sin` restricted to the integers. -/
def randomFactor {K : Type} [LinearOrderedField K] (sin : ℤ → K) (seed : ℤ) (hour : ℕ) : K :=
  (sin (seed + (hour : ℤ) * 13) + 1) * (1 / 2) + 1 / 2

/-- The un-normalised volume of one hour: `totalVolume * hourFactor * randomFactor / 15`. -/
def rawHourVolume {K : Type} [LinearOrderedField K] (sin : ℤ → K) (seed : ℤ) (totalVolume : K)
    (hour : ℕ) : K :=
  totalVolume * hourFactor hour * randomFactor sin seed hour / 15

/-- One iteration of the `for (let hour = 0; hour < 24; hour++)` loop: the state is
`(hourlyData, volumeSum)`. -/
def intradayStep {K : Type} [LinearOrderedField K] (sin : ℤ → K) (dayStart seed : ℤ)
    (totalVolume : K) (st : List (HourPoint K) × K) (hour : ℕ) : List (HourPoint K) × K :=
  let hourTimestamp := dayStart + (hour : ℤ) * msPerHour
  let volume := rawHourVolume sin seed totalVolume hour
  (st.1 ++ [{ timestamp := hourTimestamp, volume := volume, hour := hour }], st.2 + volume)

/-- Model of `generateIntradayData(timestamp, totalVolume)`. `startOfDay` is the `date-fns` function
(local midnight of the day of `timestamp`), `sin` is `Math.sin`. -/
def generateIntradayData {K : Type} [LinearOrderedField K] (sin : ℤ → K) (startOfDay : ℤ → ℤ)
    (timestamp : ℤ) (totalVolume : K) : List (HourPoint K) :=
  let dayStart := startOfDay timestamp
  let seed := timestamp.tmod 10000
  let st := (List.range 24).foldl (intradayStep sin dayStart seed totalVolume) ([], 0)
  let scaleFactor := totalVolume / st.2
  st.1.map fun point => { point with volume := point.volume * scaleFactor }

/-! ## VolumeChart.js : `generateVolumeMetrics` -/

/-- JavaScript division of two finite numbers; `none` stands for a non-finite result
(`Infinity`, `-Infinity` or `NaN`), which is what a zero divisor yields. -/
def jsDiv (a b : ℚ) : Option ℚ := if b = 0 then none else some (a / b)

/-- The fraction `((seed * 9301 + 49297) % 233280) / 233280` of the helper `rand`. -/
def randFraction (seed : ℤ) : ℚ := (((seed * 9301 + 49297).tmod 233280 : ℤ) : ℚ) / 233280

/-- The helper `rand(min, max)` local to `generateVolumeMetrics`:
`min + ((seed * 9301 + 49297) % 233280) / 233280 * (max - min)`. -/
def rand (seed : ℤ) (min max : ℚ) : ℚ := min + randFraction seed * (max - min)

/-- One entry of `topPairs` before the normalisation (the percentage is a fraction). -/
structure RawPair where
  pair : String
  percentage : ℚ
  deriving DecidableEq

/-- One entry of `topPairs` as returned (the percentage went through `Math.round`). -/
structure PairShare where
  pair : String
  percentage : ℤ
  deriving DecidableEq

/-- The literal `topPairs` array, before normalisation. -/
def rawTopPairs (seed : ℤ) : List RawPair :=
  [ { pair := "NBC-ETH", percentage := 50 + rand seed (-10) 10 },
    { pair := "NBC-USDC", percentage := 30 + rand seed (-8) 8 },
    { pair := "NBC-USDT", percentage := 20 + rand seed (-6) 6 } ]

/-- The `reduce` computing `pairSum`. -/
def pairSum (pairs : List RawPair) : ℚ := pairs.foldl (fun sum pair => sum + pair.percentage) 0

/-- The `forEach` replacing each percentage by `Math.round(percentage * 100 / pairSum)`. -/
def normalizePairs (pairs : List RawPair) : List PairShare :=
  pairs.map fun pair =>
    { pair := pair.pair, percentage := mathRound (pair.percentage * 100 / pairSum pairs) }

/-- The object returned by `generateVolumeMetrics`. A field is `none` when the JavaScript value
is not a finite number (a division by zero occurred on the way). -/
structure VolumeMetrics where
  tradeCount : Option ℤ
  avgTradeSize : Option ℚ
  largestTrade : Option ℚ
  uniqueWallets : Option ℤ
  newWallets : Option ℤ
  topPairs : List PairShare

/-- Model of `generateVolumeMetrics(timestamp, volume)`. -/
def generateVolumeMetrics (timestamp : ℤ) (volume : ℚ) : VolumeMetrics :=
  let seed := timestamp.tmod 10000
  let tradeCount : Option ℤ := (jsDiv volume (rand seed 200 500)).map mathFloor
  let avgTradeSize : Option ℚ := tradeCount.bind fun (tc : ℤ) => jsDiv volume (tc : ℚ)
  let largestTrade : Option ℚ := avgTradeSize.map fun (a : ℚ) => a * rand seed 5 15
  let uniqueWallets : Option ℤ :=
    tradeCount.map fun (tc : ℤ) => mathFloor ((tc : ℚ) * rand seed (4 / 10) (7 / 10))
  let newWallets : Option ℤ :=
    uniqueWallets.map fun (uw : ℤ) => mathFloor ((uw : ℚ) * rand seed (5 / 100) (15 / 100))
  { tradeCount := tradeCount.map fun (tc : ℤ) => mathRound (tc : ℚ)
    avgTradeSize := avgTradeSize
    largestTrade := largestTrade
    uniqueWallets := uniqueWallets
    newWallets := newWallets
    topPairs := normalizePairs (rawTopPairs seed) }

/-- The point pushed by the loop body for `hour`. -/
def hourPoint {K : Type} [LinearOrderedField K] (sin : ℤ → K) (dayStart seed : ℤ)
    (totalVolume : K) (hour : ℕ) : HourPoint K :=
  ⟨dayStart + (hour : ℤ) * msPerHour, rawHourVolume sin seed totalVolume hour, hour⟩

/-! ## tokenData.js : the daily generators

Every generator runs `for (let i = days; i >= 0; i--)`, building for each `i` the `Date` of the
day `i` days before today. The parameters common to the generators are

* `dateOf i` : `date.getTime()` of that `Date`,
* `getDay i` : `date.getDay()` of that `Date` (`0` is Sunday, `6` is Saturday),
* `rand k`   : the value of the `k`-th call of `Math.random()` in the invocation (from `0`).
-/

/-- The values taken by the loop variable of `for (let i = days; i >= 0; i--)`, in order:
`days, days - 1, ..., 0`; none when `days < 0`. -/
def loopIndices (days : ℤ) : List ℕ := (List.range (days + 1).toNat).reverse

/-- The test `date.getDay() === 0 || date.getDay() === 6`. -/
def isWeekend (day : ℕ) : Bool := day == 0 || day == 6

/-- A point of the price series. -/
structure PricePoint where
  timestamp : ℤ
  price : ℚ
  deriving DecidableEq

/-- A point of the volume series. -/
structure VolumePoint where
  timestamp : ℤ
  volume : ℚ
  deriving DecidableEq

/-- A point of the liquidity series. -/
structure LiquidityPoint where
  timestamp : ℤ
  liquidity : ℚ
  deriving DecidableEq

/-- A point of the holder series; `none` is the JavaScript value `NaN`. -/
structure HolderPoint where
  timestamp : ℤ
  holders : Option ℤ
  deriving DecidableEq

/-- A point of the transactions series; `none` is the JavaScript value `NaN`. -/
structure TransactionsPoint where
  timestamp : ℤ
  transactions : Option ℤ
  deriving DecidableEq

/-- Loop state of `generatePriceData`: number of draws made, `currentPrice`, `data`. -/
structure PriceState where
  draws : ℕ
  currentPrice : ℚ
  data : List PricePoint

/-- Loop body of `generatePriceData`. -/
def priceStep (dateOf : ℕ → ℤ) (getDay : ℕ → ℕ) (rand : ℕ → ℚ) (volatility : ℚ)
    (st : PriceState) (i : ℕ) : PriceState :=
  let change := (rand st.draws - 48 / 100) * volatility
  let stepped := max (1 / 100) (st.currentPrice * (1 + change))
  let currentPrice := if isWeekend (getDay i) then stepped * (995 / 1000) else stepped
  { draws := st.draws + 1
    currentPrice := currentPrice
    data := st.data ++ [{ timestamp := dateOf i, price := currentPrice }] }

/-- Model of `generatePriceData(days, startPrice, volatility)`. -/
def generatePriceData (dateOf : ℕ → ℤ) (getDay : ℕ → ℕ) (rand : ℕ → ℚ) (days : ℤ)
    (startPrice volatility : ℚ) : List PricePoint :=
  ((loopIndices days).foldl (priceStep dateOf getDay rand volatility)
    { draws := 0, currentPrice := startPrice, data := [] }).data

/-- Model of `generateVolumeData(priceData, baseVolume)`. The callback of `map` makes one draw per point,
so the point of index `index` uses `rand index`. The division by `previousPrice` assumes a
non-zero price (every generated price is at least `0.00995`). -/
def generateVolumeData (rand : ℕ → ℚ) (priceData : List PricePoint) (baseVolume : ℚ) :
    List VolumePoint :=
  priceData.mapIdx fun index point =>
    let previousPrice :=
      if 0 < index then ((priceData.get? (index - 1)).getD point).price else point.price
    let priceChange := |point.price - previousPrice| / previousPrice
    let volumeMultiplier := 1 + priceChange * 10
    let randomFactor := 1 / 2 + rand index
    { timestamp := point.timestamp, volume := baseVolume * volumeMultiplier * randomFactor }

/-- Loop state of `generateLiquidityData`. -/
structure LiquidityState where
  draws : ℕ
  currentLiquidity : ℚ
  data : List LiquidityPoint

/-- Loop body of `generateLiquidityData`: two draws, and a third one when the second is below
`0.03`. -/
def liquidityStep (dateOf : ℕ → ℤ) (rand : ℕ → ℚ) (baseAmount : ℚ)
    (st : LiquidityState) (i : ℕ) : LiquidityState :=
  let change := (rand st.draws - 45 / 100) * (3 / 100)
  let drifted := st.currentLiquidity * (1 + change)
  if rand (st.draws + 1) < 3 / 100 then
    let currentLiquidity := drifted + baseAmount * (2 / 10) * rand (st.draws + 2)
    { draws := st.draws + 3
      currentLiquidity := currentLiquidity
      data := st.data ++ [{ timestamp := dateOf i, liquidity := currentLiquidity }] }
  else
    { draws := st.draws + 2
      currentLiquidity := drifted
      data := st.data ++ [{ timestamp := dateOf i, liquidity := drifted }] }

/-- Model of `generateLiquidityData(days, baseAmount)`. -/
def generateLiquidityData (dateOf : ℕ → ℤ) (rand : ℕ → ℚ) (days : ℤ) (baseAmount : ℚ) :
    List LiquidityPoint :=
  ((loopIndices days).foldl (liquidityStep dateOf rand baseAmount)
    { draws := 0, currentLiquidity := baseAmount, data := [] }).data

/-- Loop state of `generateHolderData`. -/
structure HolderState where
  draws : ℕ
  holders : Option ℤ
  data : List HolderPoint

/-- Model of `Math.floor(count * growthRate)`, where either operand may be `NaN`. -/
def floorMul (count : Option ℤ) (growthRate : Option ℚ) : Option ℤ :=
  match count, growthRate with
  | some c, some g => some (mathFloor ((c : ℚ) * g))
  | _, _ => none

/-- The `growthRate` of `generateHolderData`:
`1 + (0.05 * (days - i) / days) * (Math.random() * 0.5 + 0.5)`; `NaN` when `days = 0`. -/
def holderGrowthRate (days : ℤ) (i : ℕ) (r : ℚ) : Option ℚ :=
  (jsDiv (5 / 100 * ((days : ℚ) - (i : ℚ))) (days : ℚ)).map
    fun (q : ℚ) => 1 + q * (r * (1 / 2) + 1 / 2)

/-- Loop body of `generateHolderData`. -/
def holderStep (dateOf : ℕ → ℤ) (rand : ℕ → ℚ) (days : ℤ) (st : HolderState) (i : ℕ) :
    HolderState :=
  let holders := floorMul st.holders (holderGrowthRate days i (rand st.draws))
  { draws := st.draws + 1
    holders := holders
    data := st.data ++ [{ timestamp := dateOf i, holders := holders }] }

/-- Model of `generateHolderData(days)`. -/
def generateHolderData (dateOf : ℕ → ℤ) (rand : ℕ → ℚ) (days : ℤ) : List HolderPoint :=
  ((loopIndices days).foldl (holderStep dateOf rand days)
    { draws := 0, holders := some 500, data := [] }).data

/-- Loop state of `generateTransactionsData`. -/
structure TransactionsState where
  draws : ℕ
  dailyTx : Option ℤ
  data : List TransactionsPoint

/-- The `growthRate` of `generateTransactionsData`:
`1 + (0.03 * (days - i) / days) * (Math.random() * 0.5 + 0.75)`; `NaN` when `days = 0`. -/
def transactionsGrowthRate (days : ℤ) (i : ℕ) (r : ℚ) : Option ℚ :=
  (jsDiv (3 / 100 * ((days : ℚ) - (i : ℚ))) (days : ℚ)).map
    fun (q : ℚ) => 1 + q * (r * (1 / 2) + 3 / 4)

/-- The weekend dip `dailyTx = Math.floor(dailyTx * 0.85)`. -/
def weekendDip (dailyTx : Option ℤ) : Option ℤ :=
  dailyTx.map fun (d : ℤ) => mathFloor ((d : ℚ) * (85 / 100))

/-- Loop body of `generateTransactionsData`. -/
def transactionsStep (dateOf : ℕ → ℤ) (getDay : ℕ → ℕ) (rand : ℕ → ℚ) (days : ℤ)
    (st : TransactionsState) (i : ℕ) : TransactionsState :=
  let grown := floorMul st.dailyTx (transactionsGrowthRate days i (rand st.draws))
  let dailyTx := if isWeekend (getDay i) then weekendDip grown else grown
  { draws := st.draws + 1
    dailyTx := dailyTx
    data := st.data ++ [{ timestamp := dateOf i, transactions := dailyTx }] }

/-- Model of `generateTransactionsData(days)`. -/
def generateTransactionsData (dateOf : ℕ → ℤ) (getDay : ℕ → ℕ) (rand : ℕ → ℚ) (days : ℤ) :
    List TransactionsPoint :=
  ((loopIndices days).foldl (transactionsStep dateOf getDay rand days)
    { draws := 0, dailyTx := some 80, data := [] }).data

/-- The weekday of the date `i` days before a day whose weekday is `nowDay`, for consecutive
calendar days. -/
def weekdayBefore (nowDay i : ℕ) : ℕ := (nowDay + 6 * i) % 7

/-! ## tokenData.js : derived statistics -/

/-- The array read `array[index]` for an integer index: `none` is `undefined`, the result outside
`0 .. length - 1`. -/
def jsIndex {α : Type} (array : List α) (index : ℤ) : Option α :=
  if index < 0 then none else array.get? index.toNat

/-- Model of `oneDayAgoIndex = priceData.length - 25`. -/
def oneDayAgoIndex (priceData : List PricePoint) : ℤ := (priceData.length : ℤ) - 25

/-- Model of `sevenDayAgoIndex = priceData.length - 8`. -/
def sevenDayAgoIndex (priceData : List PricePoint) : ℤ := (priceData.length : ℤ) - 8

/-- Model of `currentPrice = priceData[priceData.length - 1].price`; `none` when reading `.price` of
`undefined` throws. -/
def currentPrice (priceData : List PricePoint) : Option ℚ :=
  (jsIndex priceData ((priceData.length : ℤ) - 1)).map fun (p : PricePoint) => p.price

/-- Model of `currentVolume = volumeData[volumeData.length - 1].volume`. -/
def currentVolume (volumeData : List VolumePoint) : Option ℚ :=
  (jsIndex volumeData ((volumeData.length : ℤ) - 1)).map fun (p : VolumePoint) => p.volume

/-- Model of `currentLiquidity = liquidityData[liquidityData.length - 1].liquidity`. -/
def currentLiquidity (liquidityData : List LiquidityPoint) : Option ℚ :=
  (jsIndex liquidityData ((liquidityData.length : ℤ) - 1)).map
    fun (p : LiquidityPoint) => p.liquidity

/-- Model of `priceChange = ((currentPrice - priceData[oneDayAgoIndex].price) /
priceData[oneDayAgoIndex].price) * 100`, reported as `price.change24h`; `none` when the read of
`.price` throws. Prices are assumed non-zero. -/
def priceChange (priceData : List PricePoint) : Option ℚ :=
  (currentPrice priceData).bind fun (current : ℚ) =>
    (jsIndex priceData (oneDayAgoIndex priceData)).map fun (base : PricePoint) =>
      (current - base.price) / base.price * 100

/-- Model of `volumeChange`, reported as `markets.dexVolumeChange24h`; the index is computed from the
length of the price series. -/
def volumeChange (priceData : List PricePoint) (volumeData : List VolumePoint) : Option ℚ :=
  (currentVolume volumeData).bind fun (current : ℚ) =>
    (jsIndex volumeData (oneDayAgoIndex priceData)).map fun (base : VolumePoint) =>
      (current - base.volume) / base.volume * 100

/-- Model of `liquidityChange`, reported as `markets.liquidityChange24h`. -/
def liquidityChange (priceData : List PricePoint) (liquidityData : List LiquidityPoint) :
    Option ℚ :=
  (currentLiquidity liquidityData).bind fun (current : ℚ) =>
    (jsIndex liquidityData (oneDayAgoIndex priceData)).map fun (base : LiquidityPoint) =>
      (current - base.liquidity) / base.liquidity * 100

/-- Model of `priceChange7d`, reported as `price.change7d`. -/
def priceChange7d (priceData : List PricePoint) : Option ℚ :=
  (currentPrice priceData).bind fun (current : ℚ) =>
    (jsIndex priceData (sevenDayAgoIndex priceData)).map fun (base : PricePoint) =>
      (current - base.price) / base.price * 100

/-- A daily price series of `26` points with prices `1, 2, ..., 26`. -/
def rampSeries : List PricePoint :=
  (List.range 26).map fun (k : ℕ) => { timestamp := (k : ℤ) * msPerDay, price := (k : ℚ) + 1 }

/-! ## DonutChart.js : `generateSegmentDetail` -/

/-- The UTF-16 code units of a character: one unit in the basic plane, a surrogate pair
otherwise. -/
def utf16Units (c : Char) : List ℕ :=
  if c.toNat < 65536 then [c.toNat]
  else [55296 + (c.toNat - 65536) / 1024, 56320 + (c.toNat - 65536) % 1024]

/-- The values `char.charCodeAt(0)` for the elements of `label.split('')`: the UTF-16 code units
of the label. -/
def charCodes (label : String) : List ℕ := label.toList.flatMap utf16Units

/-- Model of `labelHash`: the `reduce` summing the character codes. -/
def labelHash (label : String) : ℕ := (charCodes label).foldl (fun acc code => acc + code) 0

/-- Model of `seed = (labelHash + percentage) / 100`. -/
def segmentSeed (label : String) (percentage : ℚ) : ℚ := ((labelHash label : ℚ) + percentage) / 100

/-- Model of `parseFloat(x.toFixed(2))`: `toFixed` writes the sign of a negative number
separately and rounds the magnitude to two decimals, a tie going to the larger magnitude. The
arithmetic is exact: the binary rounding of the double `x` is not part of the model. -/
def toFixed2 (x : ℚ) : ℚ :=
  if x < 0 then -((mathRound (-x * 100) : ℚ) / 100) else (mathRound (x * 100) : ℚ) / 100

/-- An entry of `popularPairings`. -/
structure Pairing where
  pair : String
  volume : ℤ
  deriving DecidableEq

/-- An entry of `topAssets`. -/
structure AssetShare where
  asset : String
  percentage : ℤ
  deriving DecidableEq

/-- The object returned for a trade-size segment. -/
structure TradeSizeDetail where
  transactions : ℤ
  avgTradeValue : ℚ
  changeFromLastWeek : ℚ
  topTraders : ℤ
  popularPairings : List Pairing
  deriving DecidableEq

/-- The object returned for a wallet-concentration segment. `avgHolding` is `none` when it is not
a finite number (`numWallets = 0`), `activity` is `none` when the array read is `undefined`. -/
structure WalletDetail where
  numWallets : ℤ
  totalHoldings : ℚ
  avgHolding : Option ℚ
  activity : Option String
  holdingPeriod : String
  topAssets : List AssetShare
  deriving DecidableEq

/-- The result of `generateSegmentDetail`: one of the two object shapes. -/
inductive SegmentDetail where
  | tradeSize (detail : TradeSizeDetail)
  | wallet (detail : WalletDetail)
  deriving DecidableEq

/-- The literal array of activity levels. -/
def activityLevels : List String := ["Very High", "High", "Medium", "Low", "Very Low"]

/-- Model of `generateSegmentDetail(label, percentage, isTradeSize)`. The arithmetic is exact: the
source evaluates the same expressions in binary floating point, where a product such as
`4.02 * 50` can fall just below its exact value `201`, so that a `Math.floor` of the source can
be one less than the floor taken here when the exact argument is an integer. -/
def generateSegmentDetail (label : String) (percentage : ℚ) (isTradeSize : Bool) :
    SegmentDetail :=
  let seed := segmentSeed label percentage
  if isTradeSize then
    SegmentDetail.tradeSize
      { transactions := mathFloor (1000 + seed * 4000)
        avgTradeValue := toFixed2 (50 + seed * 1000)
        changeFromLastWeek := toFixed2 (-15 + seed * 30)
        topTraders := mathFloor (5 + seed * 45)
        popularPairings :=
          [ { pair := "NBC-ETH", volume := mathFloor (40 + seed * 50) },
            { pair := "NBC-USDC", volume := mathFloor (30 + seed * 40) } ] }
  else
    let numWallets := mathFloor (10 + seed * 2000)
    let totalHoldings := toFixed2 (percentage * 10000000)
    SegmentDetail.wallet
      { numWallets := numWallets
        totalHoldings := totalHoldings
        avgHolding := (jsDiv totalHoldings (numWallets : ℚ)).map toFixed2
        activity := jsIndex activityLevels (mathFloor (seed * 5))
        holdingPeriod := toString (mathFloor (10 + seed * 200)) ++ " days"
        topAssets :=
          [ { asset := "Ethereum", percentage := mathFloor (20 + seed * 60) },
            { asset := "Stablecoins", percentage := mathFloor (10 + seed * 40) } ] }

/-- The percentage-valued sub-breakdown of a segment detail: `popularPairings[*].volume` for a
trade-size segment, `topAssets[*].percentage` for a wallet segment. -/
def subShares : SegmentDetail → List ℤ
  | SegmentDetail.tradeSize detail => detail.popularPairings.map fun (p : Pairing) => p.volume
  | SegmentDetail.wallet detail => detail.topAssets.map fun (a : AssetShare) => a.percentage

/-! ## VolumeChart.js and PriceChart.js : the time-window filter -/

/-- Model of `Array.prototype.filter`: visit the elements in order and keep those passing the test. -/
def arrayFilter {α : Type} (test : α → Bool) (array : List α) : List α :=
  array.foldl (fun kept x => if test x then kept ++ [x] else kept) []

/-- The numeric entries of `TIME_PERIODS` in `PriceChart.js`; `none` for a key without a
numeric value (`'ALL'` maps to the string `'all'`, any other key to `undefined`). -/
def priceTimePeriods (timePeriod : String) : Option ℕ :=
  if timePeriod = "24H" then some 1
  else if timePeriod = "7D" then some 7
  else if timePeriod = "30D" then some 30
  else if timePeriod = "90D" then some 90
  else none

/-- The numeric entries of `TIME_PERIODS` in `VolumeChart.js` (there is no `'24H'` key). -/
def volumeTimePeriods (timePeriod : String) : Option ℕ :=
  if timePeriod = "7D" then some 7
  else if timePeriod = "30D" then some 30
  else if timePeriod = "90D" then some 90
  else none

/-- The `cutoffDate` obtained from `new Date()` at time `now` by
`setDate(getDate() - daysToShow)`. The host calendar is the parameter `daysBefore`:
`daysBefore now n` is the time value of the date with the local wall-clock time of `now`,
`n` calendar days earlier in the host time zone. -/
def cutoffDate (daysBefore : ℤ → ℕ → ℤ) (now : ℤ) (daysToShow : ℕ) : ℤ :=
  daysBefore now daysToShow

/-- The calendar of a host whose zone keeps one offset from UTC (no clock change): going back
`n` calendar days at the same wall-clock time is going back `n * 86400000` ms. -/
def fixedOffsetDaysBefore (now : ℤ) (n : ℕ) : ℤ := now - (n : ℤ) * msPerDay

/-- The filter step shared by both charts, for a table `periods` of numeric window lengths and a
projection `timestampOf`. For a key without numeric value the cutoff is an invalid date, every
comparison with it is false and nothing is kept. -/
def filterByPeriod {α : Type} (periods : String → Option ℕ) (timestampOf : α → ℤ)
    (daysBefore : ℤ → ℕ → ℤ) (now : ℤ) (timePeriod : String) (data : List α) : List α :=
  if timePeriod ≠ "ALL" then
    match periods timePeriod with
    | some daysToShow =>
      arrayFilter
        (fun point => decide (cutoffDate daysBefore now daysToShow ≤ timestampOf point)) data
    | none => arrayFilter (fun _ => false) data
  else data

/-- The filter step of `PriceChart`. -/
def filterPriceData (daysBefore : ℤ → ℕ → ℤ) (now : ℤ) (timePeriod : String)
    (priceData : List PricePoint) : List PricePoint :=
  filterByPeriod priceTimePeriods (fun (p : PricePoint) => p.timestamp) daysBefore now
    timePeriod priceData

/-- The filter step of `VolumeChart`. -/
def filterVolumeData (daysBefore : ℤ → ℕ → ℤ) (now : ℤ) (timePeriod : String)
    (volumeData : List VolumePoint) : List VolumePoint :=
  filterByPeriod volumeTimePeriods (fun (p : VolumePoint) => p.timestamp) daysBefore now
    timePeriod volumeData

/-! ## VolumeChart.js : the weekly aggregation -/

/-- A JavaScript `Map` from week keys to buckets, as the list of its entries in insertion
order. -/
abbrev WeekMap := List (ℤ × VolumePoint)

/-- Model of `Map.prototype.has`. -/
def mapHas (m : WeekMap) (key : ℤ) : Bool := m.any fun entry => decide (entry.1 = key)

/-- Model of `Map.prototype.get`; `none` is `undefined`. -/
def mapGet (m : WeekMap) (key : ℤ) : Option VolumePoint :=
  (m.find? fun entry => decide (entry.1 = key)).map fun entry => entry.2

/-- Model of `Map.prototype.set`: an existing key keeps its position and gets the new value, a new key is
appended. -/
def mapSet (m : WeekMap) (key : ℤ) (value : VolumePoint) : WeekMap :=
  if mapHas m key then m.map fun entry => if entry.1 = key then (key, value) else entry
  else m ++ [(key, value)]

/-- Model of `Array.from(map.values())`. -/
def mapValues (m : WeekMap) : List VolumePoint := m.map fun entry => entry.2

/-- The callback of `filteredData.forEach`. `startOfWeek` maps a time stamp to `weekKey`, the
time of the local midnight that starts the Sunday of its week. -/
def aggregationStep (startOfWeek : ℤ → ℤ) (aggregationMap : WeekMap) (point : VolumePoint) :
    WeekMap :=
  let weekKey := startOfWeek point.timestamp
  if mapHas aggregationMap weekKey then
    match mapGet aggregationMap weekKey with
    | some bucket =>
      mapSet aggregationMap weekKey { timestamp := weekKey, volume := bucket.volume + point.volume }
    | none => aggregationMap
  else
    mapSet aggregationMap weekKey { timestamp := weekKey, volume := point.volume }

/-- The weekly aggregation: `forEach` over the filtered data, then `Array.from(map.values())`. -/
def aggregateWeekly (startOfWeek : ℤ → ℤ) (filteredData : List VolumePoint) : List VolumePoint :=
  mapValues (filteredData.foldl (aggregationStep startOfWeek) [])

/-- The `aggregatedData` of `VolumeChart`: weekly buckets for `'ALL'` and `'90D'`, the filtered
points otherwise. -/
def aggregatedData (startOfWeek : ℤ → ℤ) (daysBefore : ℤ → ℕ → ℤ) (now : ℤ)
    (timePeriod : String) (volumeData : List VolumePoint) : List VolumePoint :=
  if timePeriod = "ALL" ∨ timePeriod = "90D" then
    aggregateWeekly startOfWeek (filterVolumeData daysBefore now timePeriod volumeData)
  else filterVolumeData daysBefore now timePeriod volumeData

/-- The week key in a zone at a fixed offset `offset` ms from UTC: with `local = t + offset`,
the day number is `local / 86400000`, its weekday `(day + 4) % 7` (1 January 1970 was a
Thursday), and the key is the UTC time of local midnight `weekday` days earlier. -/
def startOfWeekAt (offset : ℤ) (t : ℤ) : ℤ :=
  let day := (t + offset) / msPerDay
  let weekday := (day + 4) % 7
  (day - weekday) * msPerDay - offset

/-! ### Auxiliary definitions used in the statements about the weekly aggregation -/

/-- The week keys of the points of a series, position by position. -/
def weekKeysOf (startOfWeek : ℤ → ℤ) (data : List VolumePoint) : List ℤ :=
  data.map fun (p : VolumePoint) => startOfWeek p.timestamp

/-- The sum of the volumes of the points of `data` whose week key is `key`. -/
def volumeOfWeek (startOfWeek : ℤ → ℤ) (data : List VolumePoint) (key : ℤ) : ℚ :=
  ((data.filter fun (p : VolumePoint) => decide (startOfWeek p.timestamp = key)).map
    fun (p : VolumePoint) => p.volume).sum

/-- The sum of the volumes of a series. -/
def totalVolume (data : List VolumePoint) : ℚ := (data.map fun (p : VolumePoint) => p.volume).sum

/-- The invariant linking the aggregation map `m` to the points `data` processed so far. -/
structure AggregationInv (startOfWeek : ℤ → ℤ) (data : List VolumePoint) (m : WeekMap) :
    Prop where
  nodup : (m.map Prod.fst).Nodup
  stamp : ∀ e ∈ m, e.2.timestamp = e.1
  keys : ∀ k, k ∈ m.map Prod.fst ↔ k ∈ weekKeysOf startOfWeek data
  volume : ∀ e ∈ m, e.2.volume = volumeOfWeek startOfWeek data e.1
  total : totalVolume (mapValues m) = totalVolume data
  order : (m.map Prod.fst).Pairwise fun a b =>
    (weekKeysOf startOfWeek data).indexOf a < (weekKeysOf startOfWeek data).indexOf b

/-! ### Auxiliary definitions used in the proofs about `generateTransactionsData` -/

/-- One step of an integer upper bound for `dailyTx` at horizon `180`: as long as
`bound * (180 - i) < 4800` the growth step cannot raise a value below the bound, and a weekend
multiplies the bound by `0.85`, rounded down. `none` records that the side condition failed. -/
def txBoundStep (getDay : ℕ → ℕ) (bound : Option ℕ) (i : ℕ) : Option ℕ :=
  match bound with
  | none => none
  | some b =>
    if b * (180 - i) < 4800 then
      some (if isWeekend (getDay i) then b * 85 / 100 else b)
    else none

/-- The upper bound after the loop indices `indices`, starting from `start`. -/
def txBound (getDay : ℕ → ℕ) (indices : List ℕ) (start : ℕ) : Option ℕ :=
  indices.foldl (txBoundStep getDay) (some start)

/-! ## tokenData.js : current values and all-time extremes -/

/-- Model of `currentHolders = holderData[holderData.length - 1].holders`; the outer `none` is the
thrown read of `.holders` of `undefined`, the inner one the value `NaN`. -/
def currentHolders (holderData : List HolderPoint) : Option (Option ℤ) :=
  (jsIndex holderData ((holderData.length : ℤ) - 1)).map fun (p : HolderPoint) => p.holders

/-- Model of `currentTransactions = transactionsData[transactionsData.length - 1].transactions`. -/
def currentTransactions (transactionsData : List TransactionsPoint) : Option (Option ℤ) :=
  (jsIndex transactionsData ((transactionsData.length : ℤ) - 1)).map
    fun (p : TransactionsPoint) => p.transactions

/-- Model of `Math.max(...values)`: the running maximum over the arguments, started at
`-Infinity`, which is `none`. -/
def mathMax (values : List ℚ) : Option ℚ :=
  values.foldl (fun (acc : Option ℚ) (x : ℚ) =>
    match acc with
    | none => some x
    | some a => some (max a x)) none

/-- Model of `Math.min(...values)`: the running minimum over the arguments, started at
`Infinity`, which is `none`. -/
def mathMin (values : List ℚ) : Option ℚ :=
  values.foldl (fun (acc : Option ℚ) (x : ℚ) =>
    match acc with
    | none => some x
    | some a => some (min a x)) none

/-- Model of `price.ath = Math.max(...priceData.map(d => d.price))`. -/
def priceAth (priceData : List PricePoint) : Option ℚ :=
  mathMax (priceData.map fun (d : PricePoint) => d.price)

/-- Model of `price.atl = Math.min(...priceData.map(d => d.price))`. -/
def priceAtl (priceData : List PricePoint) : Option ℚ :=
  mathMin (priceData.map fun (d : PricePoint) => d.price)

/-- Model of `price.athDate`: the time stamp of `priceData.find(d => d.price === ath)`; the ISO
formatting of the date is not modelled. `none` when `find` yields `undefined`. -/
def athDate (priceData : List PricePoint) : Option ℤ :=
  (priceData.find? fun (d : PricePoint) => decide (some d.price = priceAth priceData)).map
    fun (d : PricePoint) => d.timestamp

/-- Model of `price.atlDate`: the time stamp of `priceData.find(d => d.price === atl)`. -/
def atlDate (priceData : List PricePoint) : Option ℤ :=
  (priceData.find? fun (d : PricePoint) => decide (some d.price = priceAtl priceData)).map
    fun (d : PricePoint) => d.timestamp

/-! ## DetailedView.js : the window of hourly points -/

/-- The search of `Array.prototype.findIndex` from position `index` on. -/
def findIndexFrom {α : Type} (test : α → Bool) : List α → ℕ → ℤ
  | [], _ => -1
  | x :: rest, index => if test x then (index : ℤ) else findIndexFrom test rest (index + 1)

/-- Model of `Array.prototype.findIndex`: the index of the first element passing the test,
`-1` when there is none. -/
def findIndex {α : Type} (test : α → Bool) (array : List α) : ℤ := findIndexFrom test array 0

/-- Model of `Array.prototype.slice(start, end)` for integer arguments: a negative argument
counts from the end, and both are clamped to `0 .. length`. -/
def jsSlice {α : Type} (array : List α) (start stop : ℤ) : List α :=
  let len : ℤ := (array.length : ℤ)
  let first := if start < 0 then max (len + start) 0 else min start len
  let final := if stop < 0 then max (len + stop) 0 else min stop len
  (array.take final.toNat).drop first.toNat

/-- The test of the `findIndex` call: the point lies within one hour of `targetTime`. -/
def withinHour (targetTime : ℤ) (point : PricePoint) : Bool :=
  decide (|point.timestamp - targetTime| < 1000 * 60 * 60)

/-- Model of the `relevantData` computed by the effect of `DetailedView` for the selected time
`targetTime = new Date(data.timestamp).getTime()` and `hourlyData = data.hourly` (the effect
returns early only when `data` or `data.timestamp` is missing). -/
def relevantData (targetTime : ℤ) (hourlyData : List PricePoint) : List PricePoint :=
  let closestIndex := findIndex (withinHour targetTime) hourlyData
  let startIndex := max 0 (closestIndex - 24)
  let endIndex := min ((hourlyData.length : ℤ) - 1) (closestIndex + 24)
  jsSlice hourlyData startIndex (endIndex + 1)

/-- An hourly series of `30` points, one per hour from time `0`, with prices `1, 2, ..., 30`. -/
def hourlyRamp : List PricePoint :=
  (List.range 30).map fun (k : ℕ) => { timestamp := (k : ℤ) * msPerHour, price := (k : ℚ) + 1 }

/-- The factor `0.9856 * 0.995` by which a weekend day with the lowest draw scales a price at
volatility `0.03`. -/
def worstDailyFactor : ℚ := 9856 / 10000 * (995 / 1000)

/-! ## tokenData.js : the shipped distributions -/

/-- An entry of the trade-size distribution. -/
structure TradeSizeShare where
  size : String
  percentage : ℚ
  deriving DecidableEq

/-- An entry of the wallet concentration; `walletType` is the field `type` of the source. -/
structure WalletShare where
  walletType : String
  percentage : ℚ
  deriving DecidableEq

/-- Model of `generateTradeSizeDistribution()`. -/
def generateTradeSizeDistribution : List TradeSizeShare :=
  [ { size := "$0-$100", percentage := 45 },
    { size := "$100-$500", percentage := 32 },
    { size := "$500-$1k", percentage := 12 },
    { size := "$1k-$10k", percentage := 8 },
    { size := "$10k+", percentage := 3 } ]

/-- Model of `generateWalletConcentration()`. -/
def generateWalletConcentration : List WalletShare :=
  [ { walletType := "Top 10 wallets", percentage := 28 },
    { walletType := "Next 40 wallets", percentage := 22 },
    { walletType := "Next 100 wallets", percentage := 18 },
    { walletType := "Next 1000 wallets", percentage := 22 },
    { walletType := "All others", percentage := 10 } ]

/-- The `activity` field of a segment detail; the outer `none` marks a trade-size detail, which
has no such field, the inner `none` an `undefined` array read. -/
def activityOf : SegmentDetail → Option (Option String)
  | SegmentDetail.tradeSize _ => none
  | SegmentDetail.wallet detail => some detail.activity

/-! ### Auxiliary definitions used in the statements about `generateVolumeData` -/

/-- The `priceChange` computed by the callback of `generateVolumeData` at position `index`: the
absolute relative change from the previous price, the first point being compared to itself. -/
def relativeChange (priceData : List PricePoint) (index : ℕ) (point : PricePoint) : ℚ :=
  |point.price - (if 0 < index then ((priceData.get? (index - 1)).getD point).price
      else point.price)| /
    (if 0 < index then ((priceData.get? (index - 1)).getD point).price else point.price)

/-- The volume as a function of the relative price change and the draw:
`baseVolume * (1 + priceChange * 10) * (0.5 + r)`. -/
def volumeFormula (baseVolume priceChange r : ℚ) : ℚ :=
  baseVolume * (1 + priceChange * 10) * (1 / 2 + r)

/-! ### Auxiliary definition used in the statement about the price floor -/

/-- The guarantee on the point `p` pushed for the loop index `i` by `generatePriceData`: its time
stamp is that of the day `i`, its price is at least `0.01 * 0.995`, and at least `0.01` when the
day is not a weekend day. -/
def PriceFloorAt (dateOf : ℕ → ℤ) (getDay : ℕ → ℕ) (i : ℕ) (p : PricePoint) : Prop :=
  p.timestamp = dateOf i ∧ 995 / 100000 ≤ p.price ∧
    (isWeekend (getDay i) = false → 1 / 100 ≤ p.price)

/-! ## tokenData.js : the change statistics in evaluation order -/

/-- The four change constants of `tokenData.js`. -/
structure ChangeStatistics where
  priceChange : ℚ
  volumeChange : ℚ
  liquidityChange : ℚ
  priceChange7d : ℚ
  deriving DecidableEq

/-- The top-level statements of `tokenData.js` from `currentPrice` to `priceChange7d`, in
source order: the five current values, then `priceChange`, `volumeChange`, `liquidityChange`
(baseline index `priceData.length - 25`) and `priceChange7d` (baseline index
`priceData.length - 8`). A statement that reads a property of `undefined` throws a `TypeError`,
which ends the evaluation of the module: the result is `none` and no later statement runs. -/
def changeStatistics (priceData : List PricePoint) (volumeData : List VolumePoint)
    (liquidityData : List LiquidityPoint) (holderData : List HolderPoint)
    (transactionsData : List TransactionsPoint) : Option ChangeStatistics :=
  (currentPrice priceData).bind fun _ =>
  (currentVolume volumeData).bind fun _ =>
  (currentLiquidity liquidityData).bind fun _ =>
  (currentHolders holderData).bind fun _ =>
  (currentTransactions transactionsData).bind fun _ =>
  (priceChange priceData).bind fun (change24h : ℚ) =>
  (volumeChange priceData volumeData).bind fun (volumeChange24h : ℚ) =>
  (liquidityChange priceData liquidityData).bind fun (liquidityChange24h : ℚ) =>
  (priceChange7d priceData).map fun (change7d : ℚ) =>
    { priceChange := change24h
      volumeChange := volumeChange24h
      liquidityChange := liquidityChange24h
      priceChange7d := change7d }

/-- The change statistics of `tokenData.js` for a horizon `days` (the module constant is
`180`): the five series are generated as in the module, each generator with its own stretch of
`Math.random()` draws, and the statistics are evaluated on them. -/
def moduleChangeStatistics (dateOf : ℕ → ℤ) (getDay : ℕ → ℕ)
    (randPrice randVolume randLiquidity randHolders randTransactions : ℕ → ℚ) (days : ℤ) :
    Option ChangeStatistics :=
  let priceData := generatePriceData dateOf getDay randPrice days (3 / 4) (3 / 100)
  let volumeData := generateVolumeData randVolume priceData 500000
  let liquidityData := generateLiquidityData dateOf randLiquidity days 2000000
  let holderData := generateHolderData dateOf randHolders days
  let transactionsData := generateTransactionsData dateOf getDay randTransactions days
  changeStatistics priceData volumeData liquidityData holderData transactionsData

/-! ## The local midnight in a zone at a fixed offset -/

/-- The `startOfDay` of a host whose zone is at the fixed offset `offset` ms from UTC: with
`local = t + offset`, the UTC time of the local midnight of the local day of `t`. -/
def startOfDayAt (offset : ℤ) (t : ℤ) : ℤ := (t + offset) / msPerDay * msPerDay - offset

/-! # Lemmas and theorems -/

/-! ## The hourly loop -/

theorem intraday_foldl {K : Type} [LinearOrderedField K] (sin : ℤ → K) (dayStart seed : ℤ)
    (totalVolume : K) (hours : List ℕ) (st : List (HourPoint K) × K) :
    hours.foldl (intradayStep sin dayStart seed totalVolume) st =
      (st.1 ++ hours.map (hourPoint sin dayStart seed totalVolume),
        st.2 + (hours.map (rawHourVolume sin seed totalVolume)).sum) := by
  induction hours generalizing st with
  | nil => simp
  | cons h t ih =>
    rw [List.foldl_cons, ih]
    simp [intradayStep, hourPoint, add_assoc]

theorem hourFactor_pos {K : Type} [LinearOrderedField K] (hour : ℕ) :
    (0 : K) < hourFactor hour := by
  unfold hourFactor
  split_ifs <;> norm_num

theorem randomFactor_pos {K : Type} [LinearOrderedField K] (sin : ℤ → K)
    (hsin : ∀ x, -1 ≤ sin x) (seed : ℤ) (hour : ℕ) :
    (0 : K) < randomFactor sin seed hour := by
  unfold randomFactor
  have h := hsin (seed + (hour : ℤ) * 13)
  have h1 : (0 : K) ≤ sin (seed + (hour : ℤ) * 13) + 1 := by linarith
  have h2 : (0 : K) ≤ (sin (seed + (hour : ℤ) * 13) + 1) * (1 / 2) :=
    mul_nonneg h1 (by norm_num)
  have h3 : (0 : K) < 1 / 2 := by norm_num
  linarith

theorem rawHourVolume_pos {K : Type} [LinearOrderedField K] (sin : ℤ → K)
    (hsin : ∀ x, -1 ≤ sin x) (seed : ℤ) (totalVolume : K) (hV : 0 < totalVolume) (hour : ℕ) :
    0 < rawHourVolume sin seed totalVolume hour := by
  unfold rawHourVolume
  have h1 := hourFactor_pos (K := K) hour
  have h2 := randomFactor_pos sin hsin seed hour
  positivity

theorem sum_pos_of_pos {K : Type} [LinearOrderedField K] (f : ℕ → K) (hf : ∀ n, 0 < f n)
    (l : List ℕ) (hl : l ≠ []) : 0 < (l.map f).sum := by
  induction l with
  | nil => exact absurd rfl hl
  | cons a t ih =>
    rw [List.map_cons, List.sum_cons]
    by_cases ht : t = []
    · subst ht
      simpa using hf a
    · have := ih ht
      have := hf a
      linarith

theorem sum_map_mul_right {K : Type} [LinearOrderedField K] (f : ℕ → K) (c : K) (l : List ℕ) :
    (l.map fun n => f n * c).sum = (l.map f).sum * c := by
  induction l with
  | nil => simp
  | cons a t ih => simp [ih, add_mul]

/-- C1. For every time stamp and every `totalVolume > 0`, `generateIntradayData` returns exactly
24 points, whose `hour` fields are `0, 1, ..., 23` in that order, and whose volumes sum to
`totalVolume` exactly (in exact arithmetic, for any sine with values at least `-1`). -/
theorem generateIntradayData_reconciles {K : Type} [LinearOrderedField K] (sin : ℤ → K)
    (hsin : ∀ x, -1 ≤ sin x ∧ sin x ≤ 1) (startOfDay : ℤ → ℤ) (timestamp : ℤ)
    (totalVolume : K) (hV : 0 < totalVolume) :
    (generateIntradayData sin startOfDay timestamp totalVolume).length = 24 ∧
    (generateIntradayData sin startOfDay timestamp totalVolume).map (fun p => p.hour)
      = List.range 24 ∧
    ((generateIntradayData sin startOfDay timestamp totalVolume).map (fun p => p.volume)).sum
      = totalVolume := by
  have hpos : 0 < ((List.range 24).map
      (rawHourVolume sin (timestamp.tmod 10000) totalVolume)).sum :=
    sum_pos_of_pos _ (rawHourVolume_pos sin (fun x => (hsin x).1) _ totalVolume hV) _
      (by decide)
  refine ⟨?_, ?_, ?_⟩
  · simp [generateIntradayData, intraday_foldl]
  · simp only [generateIntradayData, intraday_foldl, List.nil_append, List.map_map]
    exact List.map_id _
  · simp only [generateIntradayData, intraday_foldl, List.nil_append, List.map_map, zero_add]
    have h := sum_map_mul_right (rawHourVolume sin (timestamp.tmod 10000) totalVolume)
      (totalVolume / ((List.range 24).map
        (rawHourVolume sin (timestamp.tmod 10000) totalVolume)).sum) (List.range 24)
    refine Eq.trans ?_ (h.trans ?_)
    · rfl
    · field_simp

/-- Witness for C1: the scenario of the specification, a daily total of `1000000`. -/
theorem generateIntradayData_reconciles_witness :
    (generateIntradayData (fun _ => (0 : ℚ)) (fun t => t) 1700000000000 1000000).length = 24 ∧
    (generateIntradayData (fun _ => (0 : ℚ)) (fun t => t) 1700000000000 1000000).map
      (fun p => p.hour) = List.range 24 ∧
    ((generateIntradayData (fun _ => (0 : ℚ)) (fun t => t) 1700000000000 1000000).map
      (fun p => p.volume)).sum = 1000000 :=
  generateIntradayData_reconciles (fun _ => (0 : ℚ)) (fun _ => ⟨by norm_num, by norm_num⟩)
    (fun t => t) 1700000000000 1000000 (by norm_num)

/-! ## `generateVolumeMetrics`: the seeded helper and the pair shares -/

theorem randFraction_eval (seed m : ℤ) (h : (seed * 9301 + 49297).tmod 233280 = m) :
    randFraction seed = (m : ℚ) / 233280 := by
  unfold randFraction
  rw [h]

theorem seed_nonneg (timestamp : ℤ) (h : 0 ≤ timestamp) : 0 ≤ timestamp.tmod 10000 :=
  Int.tmod_nonneg _ h

theorem randFraction_range (seed : ℤ) (h : 0 ≤ seed) :
    0 ≤ randFraction seed ∧ randFraction seed < 1 := by
  have h0 : (0 : ℤ) ≤ seed * 9301 + 49297 := by positivity
  have h1 : 0 ≤ (seed * 9301 + 49297).tmod 233280 := Int.tmod_nonneg _ h0
  have h2 : (seed * 9301 + 49297).tmod 233280 < 233280 :=
    Int.tmod_lt_of_pos _ (by norm_num)
  have h1q : (0 : ℚ) ≤ (((seed * 9301 + 49297).tmod 233280 : ℤ) : ℚ) := by exact_mod_cast h1
  have h2q : (((seed * 9301 + 49297).tmod 233280 : ℤ) : ℚ) < 233280 := by exact_mod_cast h2
  unfold randFraction
  constructor
  · positivity
  · rw [div_lt_one (by norm_num)]
    exact h2q

/-- C2 (evaluation at a failing input). For the time stamp `1700000000000`, a multiple of
`10000` (seed `0`), and any volume, the three rounded pair percentages are `51`, `29`, `19`: they
sum to `99`, not `100`. -/
theorem generateVolumeMetrics_topPairs_sum_99 (volume : ℚ) :
    (generateVolumeMetrics 1700000000000 volume).topPairs.map (fun p => p.percentage)
      = [51, 29, 19] ∧
    ((generateVolumeMetrics 1700000000000 volume).topPairs.map (fun p => p.percentage)).sum
      = 99 := by
  have hs : (1700000000000 : ℤ).tmod 10000 = 0 := by decide
  have hr : randFraction 0 = 49297 / 233280 := by
    rw [randFraction_eval 0 49297 (by decide)]
    norm_num
  have hl : (generateVolumeMetrics 1700000000000 volume).topPairs.map (fun p => p.percentage)
      = [51, 29, 19] := by
    simp only [generateVolumeMetrics, hs, normalizePairs, rawTopPairs, pairSum, rand, hr,
      List.map_cons, List.map_nil, List.foldl_cons, List.foldl_nil, mathRound]
    norm_num
  refine ⟨hl, ?_⟩
  rw [hl]
  decide

/-- C7 (counterexample). For the negative time stamp `-6` the seed is `-6`, the truncated
remainder `(seed * 9301 + 49297) % 233280` is `-6509`, and `rand(0, 1)` is negative: it leaves
the range `[min, max)`. -/
theorem rand_negative_timestamp_below_min :
    ¬ ((0 : ℚ) ≤ rand ((-6 : ℤ).tmod 10000) 0 1 ∧ rand ((-6 : ℤ).tmod 10000) 0 1 < 1) := by
  have hs : (-6 : ℤ).tmod 10000 = -6 := by decide
  have hr : randFraction (-6) = -6509 / 233280 := by
    rw [randFraction_eval (-6) (-6509) (by decide)]
    norm_num
  rw [hs]
  unfold rand
  rw [hr]
  norm_num

/-- C7 (amended). For every integer time stamp `timestamp ≥ 0` and every `min < max`, the seeded
helper `rand(min, max)` with `seed = timestamp % 10000` returns `v` with `min ≤ v < max`, and the
underlying fraction lies in `[0, 1)`. -/
theorem rand_in_range (timestamp : ℤ) (min max : ℚ) (ht : 0 ≤ timestamp) (hmm : min < max) :
    (min ≤ rand (timestamp.tmod 10000) min max ∧ rand (timestamp.tmod 10000) min max < max) ∧
    (0 ≤ randFraction (timestamp.tmod 10000) ∧ randFraction (timestamp.tmod 10000) < 1) := by
  have hr := randFraction_range (timestamp.tmod 10000) (seed_nonneg timestamp ht)
  refine ⟨⟨?_, ?_⟩, hr⟩
  · unfold rand
    have : 0 ≤ randFraction (timestamp.tmod 10000) * (max - min) :=
      mul_nonneg hr.1 (by linarith)
    linarith
  · unfold rand
    have : randFraction (timestamp.tmod 10000) * (max - min) < 1 * (max - min) :=
      mul_lt_mul_of_pos_right hr.2 (by linarith)
    linarith

/-- Witness for C7 (amended): time stamp `0`, range `[200, 500)`. -/
theorem rand_in_range_witness :
    ((200 : ℚ) ≤ rand ((0 : ℤ).tmod 10000) 200 500 ∧ rand ((0 : ℤ).tmod 10000) 200 500 < 500) ∧
    (0 ≤ randFraction ((0 : ℤ).tmod 10000) ∧ randFraction ((0 : ℤ).tmod 10000) < 1) :=
  rand_in_range 0 200 500 (by decide) (by norm_num)

/-! ## `generateTransactionsData` -/

theorem txBound_none (getDay : ℕ → ℕ) (indices : List ℕ) :
    indices.foldl (txBoundStep getDay) none = none := by
  induction indices with
  | nil => rfl
  | cons i t ih => simpa [List.foldl_cons, txBoundStep] using ih

theorem transactionsGrowthRate_180 (i : ℕ) (r : ℚ) :
    transactionsGrowthRate 180 i r =
      some (1 + 3 / 100 * ((180 : ℚ) - (i : ℚ)) / 180 * (r * (1 / 2) + 3 / 4)) := by
  simp [transactionsGrowthRate, jsDiv]

/-- At horizon `180`, the growth step leaves `d` unchanged when `d * (180 - i) < 4800`. -/
theorem floorMul_no_growth (d : ℤ) (i : ℕ) (r : ℚ) (hd : 0 ≤ d) (hi : i ≤ 180)
    (hr : 0 ≤ r ∧ r < 1) (hsmall : d * (180 - (i : ℤ)) < 4800) :
    floorMul (some d) (transactionsGrowthRate 180 i r) = some d := by
  rw [transactionsGrowthRate_180]
  simp only [floorMul, mathFloor, Option.some.injEq]
  rw [Int.floor_eq_iff]
  have hj : (0 : ℚ) ≤ (180 : ℚ) - (i : ℚ) := by
    have : (i : ℚ) ≤ 180 := by exact_mod_cast hi
    linarith
  have hdq : (0 : ℚ) ≤ (d : ℚ) := by exact_mod_cast hd
  have hsq : (d : ℚ) * ((180 : ℚ) - (i : ℚ)) < 4800 := by exact_mod_cast hsmall
  have hdj : (0 : ℚ) ≤ (d : ℚ) * ((180 : ℚ) - (i : ℚ)) := mul_nonneg hdq hj
  have hf0 : (0 : ℚ) ≤ r * (1 / 2) + 3 / 4 := by linarith [hr.1]
  have hf1 : r * (1 / 2) + 3 / 4 ≤ 5 / 4 := by linarith [hr.2]
  have e : (d : ℚ) * (1 + 3 / 100 * ((180 : ℚ) - (i : ℚ)) / 180 * (r * (1 / 2) + 3 / 4)) =
      (d : ℚ) + (d : ℚ) * ((180 : ℚ) - (i : ℚ)) * (r * (1 / 2) + 3 / 4) / 6000 := by ring
  rw [e]
  have h1 : (0 : ℚ) ≤ (d : ℚ) * ((180 : ℚ) - (i : ℚ)) * (r * (1 / 2) + 3 / 4) :=
    mul_nonneg hdj hf0
  have h2 : (d : ℚ) * ((180 : ℚ) - (i : ℚ)) * (r * (1 / 2) + 3 / 4) ≤
      (d : ℚ) * ((180 : ℚ) - (i : ℚ)) * (5 / 4) := mul_le_mul_of_nonneg_left hf1 hdj
  constructor
  · have : (0 : ℚ) ≤ (d : ℚ) * ((180 : ℚ) - (i : ℚ)) * (r * (1 / 2) + 3 / 4) / 6000 := by
      positivity
    linarith
  · have : (d : ℚ) * ((180 : ℚ) - (i : ℚ)) * (r * (1 / 2) + 3 / 4) / 6000 < 1 := by
      rw [div_lt_one (by norm_num)]
      linarith
    linarith

/-- The weekend dip of a non-negative integer is the integer quotient `d * 85 / 100`. -/
theorem weekendDip_some (d : ℤ) : weekendDip (some d) = some (d * 85 / 100) := by
  simp only [weekendDip, mathFloor, Option.map_some', Option.some.injEq]
  have e : (d : ℚ) * (85 / 100) = ((d * 85 : ℤ) : ℚ) / ((100 : ℕ) : ℚ) := by
    push_cast
    ring
  rw [e, Rat.floor_intCast_div_natCast]
  rfl

/-- One loop iteration at horizon `180` keeps `dailyTx` between `0` and the integer bound. -/
theorem transactionsStep_bounded (dateOf : ℕ → ℤ) (getDay : ℕ → ℕ) (rand : ℕ → ℚ)
    (hrand : ∀ k, 0 ≤ rand k ∧ rand k < 1) (st : TransactionsState) (i : ℕ) (d : ℤ) (b b' : ℕ)
    (hi : i ≤ 180) (hst : st.dailyTx = some d) (hd : 0 ≤ d) (hdb : d ≤ (b : ℤ))
    (hb : txBoundStep getDay (some b) i = some b') :
    ∃ d', (transactionsStep dateOf getDay rand 180 st i).dailyTx = some d' ∧ 0 ≤ d' ∧
      d' ≤ (b' : ℤ) := by
  unfold txBoundStep at hb
  simp only at hb
  split_ifs at hb with hsmall hw
  · -- weekend
    have hb' : b' = b * 85 / 100 := by
      simpa using hb.symm
    have hsm : d * (180 - (i : ℤ)) < 4800 := by
      have h1 : ((b * (180 - i) : ℕ) : ℤ) < 4800 := by exact_mod_cast hsmall
      have h2 : ((b * (180 - i) : ℕ) : ℤ) = (b : ℤ) * (180 - (i : ℤ)) := by
        push_cast [Nat.cast_sub hi]
        ring
      have h3 : d * (180 - (i : ℤ)) ≤ (b : ℤ) * (180 - (i : ℤ)) :=
        mul_le_mul_of_nonneg_right hdb (by omega)
      omega
    refine ⟨d * 85 / 100, ?_, ?_, ?_⟩
    · simp only [transactionsStep, hst, floorMul_no_growth d i _ hd hi (hrand _) hsm, hw,
        if_true, weekendDip_some]
    · exact Int.ediv_nonneg (by omega) (by norm_num)
    · rw [hb']
      push_cast
      exact Int.ediv_le_ediv (by norm_num) (by omega)
  · have hb' : b' = b := by
      simpa using hb.symm
    have hsm : d * (180 - (i : ℤ)) < 4800 := by
      have h1 : ((b * (180 - i) : ℕ) : ℤ) < 4800 := by exact_mod_cast hsmall
      have h2 : ((b * (180 - i) : ℕ) : ℤ) = (b : ℤ) * (180 - (i : ℤ)) := by
        push_cast [Nat.cast_sub hi]
        ring
      have h3 : d * (180 - (i : ℤ)) ≤ (b : ℤ) * (180 - (i : ℤ)) :=
        mul_le_mul_of_nonneg_right hdb (by omega)
      omega
    refine ⟨d, ?_, hd, by rw [hb']; exact hdb⟩
    simp only [transactionsStep, hst, floorMul_no_growth d i _ hd hi (hrand _) hsm, hw]
    simp

/-- The whole loop at horizon `180` keeps `dailyTx` between `0` and the integer bound. -/
theorem transactionsLoop_bounded (dateOf : ℕ → ℤ) (getDay : ℕ → ℕ) (rand : ℕ → ℚ)
    (hrand : ∀ k, 0 ≤ rand k ∧ rand k < 1) (indices : List ℕ) :
    ∀ (st : TransactionsState) (d : ℤ) (b b' : ℕ), (∀ i ∈ indices, i ≤ 180) →
      st.dailyTx = some d → 0 ≤ d → d ≤ (b : ℤ) →
      indices.foldl (txBoundStep getDay) (some b) = some b' →
      ∃ d', (indices.foldl (transactionsStep dateOf getDay rand 180) st).dailyTx = some d' ∧
        0 ≤ d' ∧ d' ≤ (b' : ℤ) := by
  induction indices with
  | nil =>
    intro st d b b' _ hst hd hdb hb
    simp only [List.foldl_nil, Option.some.injEq] at hb
    exact ⟨d, hst, hd, by rw [← hb]; exact hdb⟩
  | cons i t ih =>
    intro st d b b' hall hst hd hdb hb
    rw [List.foldl_cons] at hb ⊢
    cases hstep : txBoundStep getDay (some b) i with
    | none =>
      rw [hstep, txBound_none] at hb
      exact absurd hb (by simp)
    | some b1 =>
      rw [hstep] at hb
      obtain ⟨d1, h1, h2, h3⟩ := transactionsStep_bounded dateOf getDay rand hrand st i d b b1
        (hall i (List.mem_cons_self _ _)) hst hd hdb hstep
      exact ih _ d1 b1 b' (fun j hj => hall j (List.mem_cons_of_mem _ hj)) h1 h2 h3 hb

/-- After at least one iteration, the last point of `data` carries the current `dailyTx`. -/
theorem transactionsLoop_last (dateOf : ℕ → ℤ) (getDay : ℕ → ℕ) (rand : ℕ → ℚ) (days : ℤ)
    (indices : List ℕ) :
    ∀ st : TransactionsState,
      (indices = [] → st.data.getLast?.map (fun p => p.transactions) = some st.dailyTx) →
      (indices.foldl (transactionsStep dateOf getDay rand days) st).data.getLast?.map
        (fun p => p.transactions) =
        some (indices.foldl (transactionsStep dateOf getDay rand days) st).dailyTx := by
  induction indices with
  | nil =>
    intro st h
    exact h rfl
  | cons i t ih =>
    intro st _
    rw [List.foldl_cons]
    apply ih
    intro _
    simp [transactionsStep]

set_option maxRecDepth 100000 in
/-- For each weekday of today, the integer bound started at `80` reaches `0` over the `181`
loop indices of the shipped horizon. -/
theorem txBound_shipped (nowDay : ℕ) (hnow : nowDay < 7) :
    txBound (weekdayBefore nowDay) (loopIndices 180) 80 = some 0 := by
  interval_cases nowDay <;> decide

theorem loopIndices_le (days : ℤ) (i : ℕ) (h : i ∈ loopIndices days) : (i : ℤ) ≤ days := by
  simp only [loopIndices, List.mem_reverse, List.mem_range] at h
  omega

/-- C3 (evaluation at the failing input). For the shipped horizon `days = 180`, for every
stream of draws in `[0, 1)` and every weekday of today (consecutive calendar days), the last
point of `generateTransactionsData(180)` has `transactions = 0`: it is not positive. -/
theorem generateTransactionsData_shipped_last_zero (dateOf : ℕ → ℤ) (rand : ℕ → ℚ)
    (nowDay : ℕ) (hrand : ∀ k, 0 ≤ rand k ∧ rand k < 1) (hnow : nowDay < 7) :
    (generateTransactionsData dateOf (weekdayBefore nowDay) rand 180).getLast?.map
      (fun p => p.transactions) = some (some 0) := by
  unfold generateTransactionsData
  rw [transactionsLoop_last dateOf (weekdayBefore nowDay) rand 180 (loopIndices 180) _
    (fun h => absurd h (by decide))]
  obtain ⟨d, h1, h2, h3⟩ := transactionsLoop_bounded dateOf (weekdayBefore nowDay) rand hrand
    (loopIndices 180) { draws := 0, dailyTx := some 80, data := [] } 80 80 0
    (fun i hi => by have := loopIndices_le 180 i hi; omega) rfl (by norm_num) (by norm_num)
    (txBound_shipped nowDay hnow)
  have hd : d = 0 := by
    have : d ≤ 0 := by exact_mod_cast h3
    omega
  rw [h1, hd]

/-- Witness for C3: the constant stream `1/2`, today a Wednesday. -/
theorem generateTransactionsData_shipped_last_zero_witness :
    (generateTransactionsData (fun i => 1700000000000 - (i : ℤ) * msPerDay) (weekdayBefore 3)
      (fun _ => 1 / 2) 180).getLast?.map (fun p => p.transactions) = some (some 0) :=
  generateTransactionsData_shipped_last_zero (fun i => 1700000000000 - (i : ℤ) * msPerDay)
    (fun _ => 1 / 2) 3 (fun _ => ⟨by norm_num, by norm_num⟩) (by decide)

/-! ## Dependence of the generators on `Math.random()` -/

theorem loopIndices_length (days : ℤ) : (loopIndices days).length = (days + 1).toNat := by
  simp [loopIndices]

theorem priceLoop_congr (dateOf : ℕ → ℤ) (getDay : ℕ → ℕ) (rand1 rand2 : ℕ → ℚ)
    (volatility : ℚ) (n : ℕ) (h : ∀ k, k < n → rand1 k = rand2 k) (indices : List ℕ) :
    ∀ st : PriceState, st.draws + indices.length ≤ n →
      indices.foldl (priceStep dateOf getDay rand1 volatility) st =
        indices.foldl (priceStep dateOf getDay rand2 volatility) st := by
  induction indices with
  | nil => intro st _; rfl
  | cons i t ih =>
    intro st hst
    simp only [List.length_cons] at hst
    have e : priceStep dateOf getDay rand1 volatility st i =
        priceStep dateOf getDay rand2 volatility st i := by
      simp only [priceStep, h st.draws (by omega)]
    rw [List.foldl_cons, List.foldl_cons, e]
    apply ih
    simp only [priceStep]
    omega

theorem liquidityStep_draws (dateOf : ℕ → ℤ) (rand : ℕ → ℚ) (baseAmount : ℚ)
    (st : LiquidityState) (i : ℕ) :
    (liquidityStep dateOf rand baseAmount st i).draws ≤ st.draws + 3 := by
  unfold liquidityStep
  simp only
  split_ifs <;> simp

theorem liquidityLoop_congr (dateOf : ℕ → ℤ) (rand1 rand2 : ℕ → ℚ) (baseAmount : ℚ) (n : ℕ)
    (h : ∀ k, k < n → rand1 k = rand2 k) (indices : List ℕ) :
    ∀ st : LiquidityState, st.draws + 3 * indices.length ≤ n →
      indices.foldl (liquidityStep dateOf rand1 baseAmount) st =
        indices.foldl (liquidityStep dateOf rand2 baseAmount) st := by
  induction indices with
  | nil => intro st _; rfl
  | cons i t ih =>
    intro st hst
    simp only [List.length_cons] at hst
    have e : liquidityStep dateOf rand1 baseAmount st i =
        liquidityStep dateOf rand2 baseAmount st i := by
      simp only [liquidityStep, h st.draws (by omega), h (st.draws + 1) (by omega),
        h (st.draws + 2) (by omega)]
    rw [List.foldl_cons, List.foldl_cons, e]
    apply ih
    have := liquidityStep_draws dateOf rand2 baseAmount st i
    omega

theorem holderLoop_congr (dateOf : ℕ → ℤ) (rand1 rand2 : ℕ → ℚ) (days : ℤ) (n : ℕ)
    (h : ∀ k, k < n → rand1 k = rand2 k) (indices : List ℕ) :
    ∀ st : HolderState, st.draws + indices.length ≤ n →
      indices.foldl (holderStep dateOf rand1 days) st =
        indices.foldl (holderStep dateOf rand2 days) st := by
  induction indices with
  | nil => intro st _; rfl
  | cons i t ih =>
    intro st hst
    simp only [List.length_cons] at hst
    have e : holderStep dateOf rand1 days st i = holderStep dateOf rand2 days st i := by
      simp only [holderStep, h st.draws (by omega)]
    rw [List.foldl_cons, List.foldl_cons, e]
    apply ih
    simp only [holderStep]
    omega

theorem transactionsLoop_congr (dateOf : ℕ → ℤ) (getDay : ℕ → ℕ) (rand1 rand2 : ℕ → ℚ)
    (days : ℤ) (n : ℕ) (h : ∀ k, k < n → rand1 k = rand2 k) (indices : List ℕ) :
    ∀ st : TransactionsState, st.draws + indices.length ≤ n →
      indices.foldl (transactionsStep dateOf getDay rand1 days) st =
        indices.foldl (transactionsStep dateOf getDay rand2 days) st := by
  induction indices with
  | nil => intro st _; rfl
  | cons i t ih =>
    intro st hst
    simp only [List.length_cons] at hst
    have e : transactionsStep dateOf getDay rand1 days st i =
        transactionsStep dateOf getDay rand2 days st i := by
      simp only [transactionsStep, h st.draws (by omega)]
    rw [List.foldl_cons, List.foldl_cons, e]
    apply ih
    simp only [transactionsStep]
    omega

theorem generateVolumeData_congr (rand1 rand2 : ℕ → ℚ) (priceData : List PricePoint)
    (baseVolume : ℚ) (h : ∀ k, k < priceData.length → rand1 k = rand2 k) :
    generateVolumeData rand1 priceData baseVolume =
      generateVolumeData rand2 priceData baseVolume := by
  unfold generateVolumeData
  apply List.ext_getElem?
  intro k
  rw [List.getElem?_mapIdx, List.getElem?_mapIdx]
  by_cases hk : k < priceData.length
  · rw [h k hk]
  · rw [List.getElem?_eq_none (by omega)]
    rfl

/-- C4 (counterexample). With the same arguments `(days, startPrice, volatility) = (0, 1, 1)`
and the same calendar, `generatePriceData` returns different series when `Math.random()` yields
`0` and when it yields `1/2`. -/
theorem generatePriceData_depends_on_draws :
    generatePriceData (fun _ => 0) (fun _ => 3) (fun _ => 0) 0 1 1 ≠
      generatePriceData (fun _ => 0) (fun _ => 3) (fun _ => 1 / 2) 0 1 1 := by
  have hl : loopIndices 0 = [0] := by decide
  simp only [generatePriceData, hl, List.foldl_cons, List.foldl_nil, priceStep]
  norm_num [isWeekend]

/-- C4 (amended). The output of each generator is determined by its arguments, the calendar
and the values drawn from `Math.random()`: two invocations with the same arguments and calendar
whose random streams agree on the first `3 * (days + 1)` draws (and, for `generateVolumeData`,
on one draw per price point) return identical series. -/
theorem generators_determined_by_draws (dateOf : ℕ → ℤ) (getDay : ℕ → ℕ)
    (rand1 rand2 : ℕ → ℚ) (days : ℤ) (startPrice volatility baseVolume baseAmount : ℚ)
    (priceData : List PricePoint)
    (h : ∀ k, k < 3 * (days + 1).toNat → rand1 k = rand2 k)
    (hv : ∀ k, k < priceData.length → rand1 k = rand2 k) :
    generatePriceData dateOf getDay rand1 days startPrice volatility =
      generatePriceData dateOf getDay rand2 days startPrice volatility ∧
    generateVolumeData rand1 priceData baseVolume =
      generateVolumeData rand2 priceData baseVolume ∧
    generateLiquidityData dateOf rand1 days baseAmount =
      generateLiquidityData dateOf rand2 days baseAmount ∧
    generateHolderData dateOf rand1 days = generateHolderData dateOf rand2 days ∧
    generateTransactionsData dateOf getDay rand1 days =
      generateTransactionsData dateOf getDay rand2 days := by
  have hlen := loopIndices_length days
  refine ⟨?_, generateVolumeData_congr rand1 rand2 priceData baseVolume hv, ?_, ?_, ?_⟩
  · unfold generatePriceData
    rw [priceLoop_congr dateOf getDay rand1 rand2 volatility _ h (loopIndices days) _
      (by simp only [hlen]; omega)]
  · unfold generateLiquidityData
    rw [liquidityLoop_congr dateOf rand1 rand2 baseAmount _ h (loopIndices days) _
      (by simp only [hlen]; omega)]
  · unfold generateHolderData
    rw [holderLoop_congr dateOf rand1 rand2 days _ h (loopIndices days) _
      (by simp only [hlen]; omega)]
  · unfold generateTransactionsData
    rw [transactionsLoop_congr dateOf getDay rand1 rand2 days _ h (loopIndices days) _
      (by simp only [hlen]; omega)]

/-- Witness for C4 (amended): horizon `1`, two streams equal on the first six draws and
different afterwards. -/
theorem generators_determined_by_draws_witness :
    generatePriceData (fun i => -(i : ℤ)) (weekdayBefore 3)
        (fun k => if k < 6 then 1 / 2 else 0) 1 (3 / 4) (3 / 100) =
      generatePriceData (fun i => -(i : ℤ)) (weekdayBefore 3)
        (fun k => if k < 6 then 1 / 2 else 1) 1 (3 / 4) (3 / 100) ∧
    generateVolumeData (fun k => if k < 6 then 1 / 2 else 0) (rampSeries.take 6) 500000 =
      generateVolumeData (fun k => if k < 6 then 1 / 2 else 1) (rampSeries.take 6) 500000 ∧
    generateLiquidityData (fun i => -(i : ℤ)) (fun k => if k < 6 then 1 / 2 else 0) 1 2000000 =
      generateLiquidityData (fun i => -(i : ℤ)) (fun k => if k < 6 then 1 / 2 else 1) 1 2000000 ∧
    generateHolderData (fun i => -(i : ℤ)) (fun k => if k < 6 then 1 / 2 else 0) 1 =
      generateHolderData (fun i => -(i : ℤ)) (fun k => if k < 6 then 1 / 2 else 1) 1 ∧
    generateTransactionsData (fun i => -(i : ℤ)) (weekdayBefore 3)
        (fun k => if k < 6 then 1 / 2 else 0) 1 =
      generateTransactionsData (fun i => -(i : ℤ)) (weekdayBefore 3)
        (fun k => if k < 6 then 1 / 2 else 1) 1 :=
  generators_determined_by_draws (fun i => -(i : ℤ)) (weekdayBefore 3)
    (fun k => if k < 6 then 1 / 2 else 0) (fun k => if k < 6 then 1 / 2 else 1) 1 (3 / 4)
    (3 / 100) 500000 2000000 (rampSeries.take 6)
    (fun k hk => by
      have h6 : k < 6 := by simpa using hk
      simp [h6])
    (fun k hk => by
      have h6 : k < 6 := lt_of_lt_of_le hk (List.length_take_le 6 rampSeries)
      simp [h6])

/-! ## Derived statistics -/

theorem rampSeries_length : rampSeries.length = 26 := by
  simp [rampSeries]

theorem rampSeries_jsIndex (k : ℕ) (h : k < 26) :
    jsIndex rampSeries (k : ℤ) = some { timestamp := (k : ℤ) * msPerDay, price := (k : ℚ) + 1 } := by
  have h0 : ¬ ((k : ℤ) < 0) := by omega
  simp [jsIndex, h0, rampSeries, List.get?_eq_getElem?, List.getElem?_map, List.getElem?_range h]

/-- C5 (evaluation at a failing input). On the daily series with prices `1, 2, ..., 26` the
code's `price.change24h` is `1200`, the change from `priceData[n - 25]` (price `2`), whereas the
change from the point one day before the last, `priceData[n - 2]` (price `25`), is `4`. -/
theorem priceChange_baseline_is_24_points_back :
    priceChange rampSeries = some 1200 ∧
    ((jsIndex rampSeries ((rampSeries.length : ℤ) - 1)).bind fun (last : PricePoint) =>
      (jsIndex rampSeries ((rampSeries.length : ℤ) - 2)).map fun (prev : PricePoint) =>
        (last.price - prev.price) / prev.price * 100) = some 4 := by
  have e25 : ((26 : ℕ) : ℤ) - 1 = ((25 : ℕ) : ℤ) := by norm_num
  have e24 : ((26 : ℕ) : ℤ) - 2 = ((24 : ℕ) : ℤ) := by norm_num
  have e1 : ((26 : ℕ) : ℤ) - 25 = ((1 : ℕ) : ℤ) := by norm_num
  constructor
  · simp only [priceChange, currentPrice, oneDayAgoIndex, rampSeries_length, e25, e1,
      rampSeries_jsIndex 25 (by norm_num), rampSeries_jsIndex 1 (by norm_num),
      Option.map_some', Option.some_bind]
    norm_num
  · simp only [rampSeries_length, e25, e24, rampSeries_jsIndex 25 (by norm_num),
      rampSeries_jsIndex 24 (by norm_num), Option.map_some', Option.some_bind]
    norm_num

/-! ## `generateSegmentDetail` -/

theorem labelHash_top10 : labelHash "Top 10 wallets" = 1232 := by decide

theorem labelHash_smallTrades : labelHash "$0-$100" = 310 := by decide

/-- C6 (counterexample). For the shipped wallet segment `("Top 10 wallets", 28)` the two
`topAssets` percentages are `776` and `514`, and for the shipped trade-size segment
`("$0-$100", 45)` the two `popularPairings` volumes are `217` and `172`: neither pair sums
to `100`. -/
theorem generateSegmentDetail_shares_not_100 :
    subShares (generateSegmentDetail "Top 10 wallets" 28 false) = [776, 514] ∧
    (subShares (generateSegmentDetail "Top 10 wallets" 28 false)).sum ≠ 100 ∧
    subShares (generateSegmentDetail "$0-$100" 45 true) = [217, 172] ∧
    (subShares (generateSegmentDetail "$0-$100" 45 true)).sum ≠ 100 := by
  have h1 : subShares (generateSegmentDetail "Top 10 wallets" 28 false) = [776, 514] := by
    simp only [generateSegmentDetail, subShares, segmentSeed, labelHash_top10, mathFloor,
      List.map_cons, List.map_nil]
    norm_num
  have h2 : subShares (generateSegmentDetail "$0-$100" 45 true) = [217, 172] := by
    simp only [generateSegmentDetail, subShares, segmentSeed, labelHash_smallTrades, mathFloor,
      List.map_cons, List.map_nil]
    norm_num
  refine ⟨h1, ?_, h2, ?_⟩
  · rw [h1]
    decide
  · rw [h2]
    decide

/-- C6 (amended). `generateSegmentDetail` does not renormalise its sub-breakdowns: each has two
entries, and with `s = (labelHash + percentage) / 100` the sum of the two `popularPairings`
volumes lies in `(68 + 90 s, 70 + 90 s]` and the sum of the two `topAssets` percentages in
`(28 + 100 s, 30 + 100 s]`, so that the sum moves with the label and the percentage. -/
theorem generateSegmentDetail_shares (label : String) (percentage : ℚ) :
    (subShares (generateSegmentDetail label percentage true)).length = 2 ∧
    (subShares (generateSegmentDetail label percentage false)).length = 2 ∧
    (68 + 90 * segmentSeed label percentage <
        (((subShares (generateSegmentDetail label percentage true)).sum : ℤ) : ℚ) ∧
      (((subShares (generateSegmentDetail label percentage true)).sum : ℤ) : ℚ) ≤
        70 + 90 * segmentSeed label percentage) ∧
    (28 + 100 * segmentSeed label percentage <
        (((subShares (generateSegmentDetail label percentage false)).sum : ℤ) : ℚ) ∧
      (((subShares (generateSegmentDetail label percentage false)).sum : ℤ) : ℚ) ≤
        30 + 100 * segmentSeed label percentage) := by
  have h1 : subShares (generateSegmentDetail label percentage true) =
      [Int.floor (40 + segmentSeed label percentage * 50),
        Int.floor (30 + segmentSeed label percentage * 40)] := by
    simp [generateSegmentDetail, subShares, mathFloor]
  have h2 : subShares (generateSegmentDetail label percentage false) =
      [Int.floor (20 + segmentSeed label percentage * 60),
        Int.floor (10 + segmentSeed label percentage * 40)] := by
    simp [generateSegmentDetail, subShares, mathFloor]
  refine ⟨?_, ?_, ?_, ?_⟩
  · rw [h1]
    rfl
  · rw [h2]
    rfl
  · rw [h1]
    simp only [List.sum_cons, List.sum_nil, add_zero, Int.cast_add]
    have a1 := Int.floor_le (40 + segmentSeed label percentage * 50)
    have a2 := Int.lt_floor_add_one (40 + segmentSeed label percentage * 50)
    have b1 := Int.floor_le (30 + segmentSeed label percentage * 40)
    have b2 := Int.lt_floor_add_one (30 + segmentSeed label percentage * 40)
    constructor <;> linarith
  · rw [h2]
    simp only [List.sum_cons, List.sum_nil, add_zero, Int.cast_add]
    have a1 := Int.floor_le (20 + segmentSeed label percentage * 60)
    have a2 := Int.lt_floor_add_one (20 + segmentSeed label percentage * 60)
    have b1 := Int.floor_le (10 + segmentSeed label percentage * 40)
    have b2 := Int.lt_floor_add_one (10 + segmentSeed label percentage * 40)
    constructor <;> linarith

/-! ## The time-window filter -/

theorem arrayFilter_foldl {α : Type} (test : α → Bool) (array : List α) :
    ∀ kept : List α,
      array.foldl (fun kept x => if test x then kept ++ [x] else kept) kept =
        kept ++ array.filter test := by
  induction array with
  | nil => intro kept; simp
  | cons a t ih =>
    intro kept
    rw [List.foldl_cons, ih]
    by_cases h : test a = true
    · simp [h, List.filter_cons]
    · simp [h, List.filter_cons]

theorem arrayFilter_eq_filter {α : Type} (test : α → Bool) (array : List α) :
    arrayFilter test array = array.filter test := by
  unfold arrayFilter
  rw [arrayFilter_foldl]
  simp

theorem filterByPeriod_days {α : Type} (periods : String → Option ℕ) (timestampOf : α → ℤ)
    (daysBefore : ℤ → ℕ → ℤ) (now : ℤ) (timePeriod : String) (daysToShow : ℕ) (data : List α)
    (hne : timePeriod ≠ "ALL") (hp : periods timePeriod = some daysToShow) :
    filterByPeriod periods timestampOf daysBefore now timePeriod data =
      data.filter fun point => decide (daysBefore now daysToShow ≤ timestampOf point) := by
  simp only [filterByPeriod, hne, ne_eq, not_false_eq_true, if_true, hp, arrayFilter_eq_filter,
    cutoffDate]

/-- C10. In every host calendar (`daysBefore now N` is the instant `N` calendar days before
`now` at the same local wall-clock time, the result of `setDate(getDate() - N)`), for the
window labels with a number of days `N` (`24H = 1`, `7D = 7`, `30D = 30`, `90D = 90` in
`PriceChart`; `7D`, `30D`, `90D` in `VolumeChart`) the filter step returns exactly the input
points with `timestamp ≥ cutoff`, `cutoff = now - N days`, in their original order; for `ALL`
it returns the input unchanged; every point retained for `7D` is an input point not older than
7 days before `now`; and in a zone without clock change the cutoff is `N * 86400000` ms before
`now`. -/
theorem filter_step_window (daysBefore : ℤ → ℕ → ℤ) (now : ℤ) (priceData : List PricePoint)
    (volumeData : List VolumePoint) :
    (filterPriceData daysBefore now "24H" priceData =
        priceData.filter (fun p => decide (daysBefore now 1 ≤ p.timestamp)) ∧
      filterPriceData daysBefore now "7D" priceData =
        priceData.filter (fun p => decide (daysBefore now 7 ≤ p.timestamp)) ∧
      filterPriceData daysBefore now "30D" priceData =
        priceData.filter (fun p => decide (daysBefore now 30 ≤ p.timestamp)) ∧
      filterPriceData daysBefore now "90D" priceData =
        priceData.filter (fun p => decide (daysBefore now 90 ≤ p.timestamp)) ∧
      filterPriceData daysBefore now "ALL" priceData = priceData) ∧
    (filterVolumeData daysBefore now "7D" volumeData =
        volumeData.filter (fun p => decide (daysBefore now 7 ≤ p.timestamp)) ∧
      filterVolumeData daysBefore now "30D" volumeData =
        volumeData.filter (fun p => decide (daysBefore now 30 ≤ p.timestamp)) ∧
      filterVolumeData daysBefore now "90D" volumeData =
        volumeData.filter (fun p => decide (daysBefore now 90 ≤ p.timestamp)) ∧
      filterVolumeData daysBefore now "ALL" volumeData = volumeData) ∧
    (∀ p ∈ filterPriceData daysBefore now "7D" priceData,
      p ∈ priceData ∧ daysBefore now 7 ≤ p.timestamp) ∧
    (∀ p ∈ filterVolumeData daysBefore now "7D" volumeData,
      p ∈ volumeData ∧ daysBefore now 7 ≤ p.timestamp) ∧
    (∀ N : ℕ, cutoffDate daysBefore now N = daysBefore now N ∧
      cutoffDate fixedOffsetDaysBefore now N = now - (N : ℤ) * 86400000) ∧
    (∀ p ∈ filterPriceData fixedOffsetDaysBefore now "7D" priceData,
      now - 7 * 86400000 ≤ p.timestamp) ∧
    (∀ p ∈ filterVolumeData fixedOffsetDaysBefore now "7D" volumeData,
      now - 7 * 86400000 ≤ p.timestamp) := by
  have p24 := filterByPeriod_days priceTimePeriods (fun (p : PricePoint) => p.timestamp)
    daysBefore now "24H" 1 priceData (by decide) (by decide)
  have p7 := fun (cal : ℤ → ℕ → ℤ) =>
    filterByPeriod_days priceTimePeriods (fun (p : PricePoint) => p.timestamp)
      cal now "7D" 7 priceData (by decide) (by decide)
  have p30 := filterByPeriod_days priceTimePeriods (fun (p : PricePoint) => p.timestamp)
    daysBefore now "30D" 30 priceData (by decide) (by decide)
  have p90 := filterByPeriod_days priceTimePeriods (fun (p : PricePoint) => p.timestamp)
    daysBefore now "90D" 90 priceData (by decide) (by decide)
  have v7 := fun (cal : ℤ → ℕ → ℤ) =>
    filterByPeriod_days volumeTimePeriods (fun (p : VolumePoint) => p.timestamp)
      cal now "7D" 7 volumeData (by decide) (by decide)
  have v30 := filterByPeriod_days volumeTimePeriods (fun (p : VolumePoint) => p.timestamp)
    daysBefore now "30D" 30 volumeData (by decide) (by decide)
  have v90 := filterByPeriod_days volumeTimePeriods (fun (p : VolumePoint) => p.timestamp)
    daysBefore now "90D" 90 volumeData (by decide) (by decide)
  refine ⟨⟨?_, ?_, ?_, ?_, ?_⟩, ⟨?_, ?_, ?_, ?_⟩, ?_, ?_, ?_, ?_, ?_⟩
  · simpa [filterPriceData] using p24
  · simpa [filterPriceData] using p7 daysBefore
  · simpa [filterPriceData] using p30
  · simpa [filterPriceData] using p90
  · simp [filterPriceData, filterByPeriod]
  · simpa [filterVolumeData] using v7 daysBefore
  · simpa [filterVolumeData] using v30
  · simpa [filterVolumeData] using v90
  · simp [filterVolumeData, filterByPeriod]
  · intro p hp
    unfold filterPriceData at hp
    rw [p7 daysBefore, List.mem_filter] at hp
    exact ⟨hp.1, by simpa using hp.2⟩
  · intro p hp
    unfold filterVolumeData at hp
    rw [v7 daysBefore, List.mem_filter] at hp
    exact ⟨hp.1, by simpa using hp.2⟩
  · intro N
    exact ⟨rfl, by simp [cutoffDate, fixedOffsetDaysBefore, msPerDay]⟩
  · intro p hp
    unfold filterPriceData at hp
    rw [p7 fixedOffsetDaysBefore, List.mem_filter] at hp
    have h := hp.2
    simp only [decide_eq_true_eq, fixedOffsetDaysBefore, msPerDay] at h
    simpa using h
  · intro p hp
    unfold filterVolumeData at hp
    rw [v7 fixedOffsetDaysBefore, List.mem_filter] at hp
    have h := hp.2
    simp only [decide_eq_true_eq, fixedOffsetDaysBefore, msPerDay] at h
    simpa using h

/-! ## The weekly aggregation -/

theorem mapHas_iff (m : WeekMap) (key : ℤ) : mapHas m key = true ↔ key ∈ m.map Prod.fst := by
  simp only [mapHas, List.any_eq_true, decide_eq_true_eq, List.mem_map]

theorem mapGet_mem (m : WeekMap) (key : ℤ) (bucket : VolumePoint)
    (h : mapGet m key = some bucket) : (key, bucket) ∈ m := by
  unfold mapGet at h
  cases hf : m.find? (fun entry => decide (entry.1 = key)) with
  | none => simp [hf] at h
  | some e =>
    rw [hf] at h
    simp only [Option.map_some', Option.some.injEq] at h
    have h1 := List.find?_some hf
    have h2 := List.mem_of_find?_eq_some hf
    simp only [decide_eq_true_eq] at h1
    have : e = (key, bucket) := Prod.ext h1 h
    rw [← this]
    exact h2

theorem mapGet_of_has (m : WeekMap) (key : ℤ) (h : mapHas m key = true) :
    ∃ bucket, mapGet m key = some bucket := by
  unfold mapGet
  cases hf : m.find? (fun entry => decide (entry.1 = key)) with
  | none =>
    rw [List.find?_eq_none] at hf
    rw [mapHas, List.any_eq_true] at h
    obtain ⟨e, he, hk⟩ := h
    exact absurd hk (hf e he)
  | some e => exact ⟨e.2, rfl⟩

/-- The step for a point whose week key is not yet in the map. -/
theorem aggregationStep_new (startOfWeek : ℤ → ℤ) (m : WeekMap) (point : VolumePoint)
    (h : startOfWeek point.timestamp ∉ m.map Prod.fst) :
    aggregationStep startOfWeek m point =
      m ++ [(startOfWeek point.timestamp,
        { timestamp := startOfWeek point.timestamp, volume := point.volume })] := by
  have hh : mapHas m (startOfWeek point.timestamp) = false := by
    rw [← Bool.not_eq_true, mapHas_iff]
    exact h
  simp [aggregationStep, mapSet, hh]

/-- The step for a point whose week key is already in the map. -/
theorem aggregationStep_old (startOfWeek : ℤ → ℤ) (m : WeekMap) (point : VolumePoint)
    (h : startOfWeek point.timestamp ∈ m.map Prod.fst) :
    ∃ bucket, (startOfWeek point.timestamp, bucket) ∈ m ∧
      aggregationStep startOfWeek m point =
        m.map fun entry =>
          if entry.1 = startOfWeek point.timestamp then
            (startOfWeek point.timestamp,
              { timestamp := startOfWeek point.timestamp,
                volume := bucket.volume + point.volume })
          else entry := by
  have hh : mapHas m (startOfWeek point.timestamp) = true := (mapHas_iff _ _).2 h
  obtain ⟨bucket, hb⟩ := mapGet_of_has m _ hh
  refine ⟨bucket, mapGet_mem m _ bucket hb, ?_⟩
  simp [aggregationStep, mapSet, hh, hb]

theorem map_replace_keys (m : WeekMap) (key : ℤ) (value : VolumePoint) :
    (m.map fun entry => if entry.1 = key then (key, value) else entry).map Prod.fst =
      m.map Prod.fst := by
  rw [List.map_map]
  apply List.map_congr_left
  intro e _
  by_cases h : e.1 = key
  · simp [h]
  · simp [h]

theorem map_replace_absent (m : WeekMap) (key : ℤ) (value : VolumePoint)
    (h : key ∉ m.map Prod.fst) :
    (m.map fun entry => if entry.1 = key then (key, value) else entry) = m := by
  have hid : (m.map fun entry => if entry.1 = key then (key, value) else entry) = m.map id := by
    apply List.map_congr_left
    intro e he
    have : e.1 ≠ key := fun hk => h (hk ▸ List.mem_map_of_mem Prod.fst he)
    simp [this]
  rw [hid, List.map_id]

theorem totalVolume_cons (p : VolumePoint) (data : List VolumePoint) :
    totalVolume (p :: data) = p.volume + totalVolume data := by
  simp [totalVolume]

theorem totalVolume_append (data1 data2 : List VolumePoint) :
    totalVolume (data1 ++ data2) = totalVolume data1 + totalVolume data2 := by
  simp [totalVolume]

/-- Replacing the value of the unique entry of key `key` changes the total by the difference of
the two volumes. -/
theorem totalVolume_replace (m : WeekMap) (key : ℤ) (bucket value : VolumePoint)
    (hnd : (m.map Prod.fst).Nodup) (hb : (key, bucket) ∈ m) :
    totalVolume (mapValues (m.map fun entry => if entry.1 = key then (key, value) else entry))
      + bucket.volume = totalVolume (mapValues m) + value.volume := by
  induction m with
  | nil => simp at hb
  | cons e t ih =>
    rw [List.map_cons, List.nodup_cons] at hnd
    by_cases hk : e.1 = key
    · have hkt : key ∉ t.map Prod.fst := hk ▸ hnd.1
      have he : e = (key, bucket) := by
        rcases List.mem_cons.1 hb with h | h
        · exact h.symm
        · exact absurd (List.mem_map_of_mem Prod.fst h) hkt
      rw [List.map_cons, map_replace_absent t key value hkt]
      simp only [hk, if_true, mapValues, List.map_cons, totalVolume_cons, he]
      ring
    · have hbt : (key, bucket) ∈ t := by
        rcases List.mem_cons.1 hb with h | h
        · exact absurd (by rw [← h]) hk
        · exact h
      have := ih hnd.2 hbt
      simp only [List.map_cons, hk, if_false, mapValues, totalVolume_cons] at this ⊢
      linarith

theorem volumeOfWeek_append (startOfWeek : ℤ → ℤ) (data : List VolumePoint) (p : VolumePoint)
    (key : ℤ) :
    volumeOfWeek startOfWeek (data ++ [p]) key =
      volumeOfWeek startOfWeek data key +
        (if startOfWeek p.timestamp = key then p.volume else 0) := by
  unfold volumeOfWeek
  rw [List.filter_append, List.map_append, List.sum_append]
  by_cases h : startOfWeek p.timestamp = key
  · simp [h, List.filter_cons]
  · simp [h, List.filter_cons]

theorem volumeOfWeek_absent (startOfWeek : ℤ → ℤ) (data : List VolumePoint) (key : ℤ)
    (h : key ∉ weekKeysOf startOfWeek data) : volumeOfWeek startOfWeek data key = 0 := by
  unfold volumeOfWeek
  have : (data.filter fun (p : VolumePoint) => decide (startOfWeek p.timestamp = key)) = [] := by
    rw [List.filter_eq_nil_iff]
    intro p hp hk
    simp only [decide_eq_true_eq] at hk
    exact h (List.mem_map.2 ⟨p, hp, hk⟩)
  rw [this]
  rfl

theorem weekKeysOf_append (startOfWeek : ℤ → ℤ) (data : List VolumePoint) (p : VolumePoint) :
    weekKeysOf startOfWeek (data ++ [p]) =
      weekKeysOf startOfWeek data ++ [startOfWeek p.timestamp] := by
  simp [weekKeysOf]

theorem aggregationInv_nil (startOfWeek : ℤ → ℤ) : AggregationInv startOfWeek [] [] where
  nodup := List.nodup_nil
  stamp := fun e he => absurd he (List.not_mem_nil e)
  keys := fun k => by simp [weekKeysOf]
  volume := fun e he => absurd he (List.not_mem_nil e)
  total := rfl
  order := List.Pairwise.nil

theorem indexOf_order_append (keys : List ℤ) (k a b : ℤ) (ha : a ∈ keys)
    (hb : b ∈ keys) (h : keys.indexOf a < keys.indexOf b) :
    (keys ++ [k]).indexOf a < (keys ++ [k]).indexOf b := by
  rw [List.indexOf_append_of_mem ha, List.indexOf_append_of_mem hb]
  exact h

/-- The invariant is preserved when the next point opens a new bucket. -/
theorem aggregationInv_step_new (startOfWeek : ℤ → ℤ) (data : List VolumePoint) (m : WeekMap)
    (p : VolumePoint) (inv : AggregationInv startOfWeek data m)
    (hnew : startOfWeek p.timestamp ∉ m.map Prod.fst) :
    AggregationInv startOfWeek (data ++ [p]) (aggregationStep startOfWeek m p) := by
  rw [aggregationStep_new startOfWeek m p hnew]
  have hnotin : startOfWeek p.timestamp ∉ weekKeysOf startOfWeek data :=
    fun h => hnew ((inv.keys _).2 h)
  refine ⟨?_, ?_, ?_, ?_, ?_, ?_⟩
  · rw [List.map_append, List.nodup_append]
    refine ⟨inv.nodup, by simp, ?_⟩
    intro k hk hk'
    simp only [List.map_cons, List.map_nil, List.mem_singleton] at hk'
    exact hnew (hk' ▸ hk)
  · intro e he
    rcases List.mem_append.1 he with h | h
    · exact inv.stamp e h
    · simp only [List.mem_singleton] at h
      rw [h]
  · intro k
    rw [List.map_append, List.mem_append, weekKeysOf_append, List.mem_append, inv.keys k]
    simp
  · intro e he
    rw [volumeOfWeek_append]
    rcases List.mem_append.1 he with h | h
    · have hne : startOfWeek p.timestamp ≠ e.1 :=
        fun hk => hnew (hk ▸ List.mem_map_of_mem Prod.fst h)
      simp [hne, inv.volume e h]
    · simp only [List.mem_singleton] at h
      rw [h]
      simp [volumeOfWeek_absent startOfWeek data _ hnotin]
  · have ht := inv.total
    simp only [mapValues, List.map_append, List.map_cons, List.map_nil] at ht ⊢
    rw [totalVolume_append, totalVolume_append, ht]
    simp [totalVolume]
  · rw [List.map_append, List.pairwise_append, weekKeysOf_append]
    refine ⟨?_, by simp, ?_⟩
    · refine inv.order.imp_of_mem ?_
      intro a b ha hb hab
      exact indexOf_order_append _ _ a b ((inv.keys a).1 ha) ((inv.keys b).1 hb) hab
    · intro a ha b hb
      simp only [List.map_cons, List.map_nil, List.mem_singleton] at hb
      rw [hb, List.indexOf_append_of_mem ((inv.keys a).1 ha),
        List.indexOf_append_of_not_mem hnotin]
      have := List.indexOf_lt_length.2 ((inv.keys a).1 ha)
      omega

/-- The invariant is preserved when the next point falls into an existing bucket. -/
theorem aggregationInv_step_old (startOfWeek : ℤ → ℤ) (data : List VolumePoint) (m : WeekMap)
    (p : VolumePoint) (inv : AggregationInv startOfWeek data m)
    (hold : startOfWeek p.timestamp ∈ m.map Prod.fst) :
    AggregationInv startOfWeek (data ++ [p]) (aggregationStep startOfWeek m p) := by
  obtain ⟨bucket, hb, hstep⟩ := aggregationStep_old startOfWeek m p hold
  rw [hstep]
  have hin : startOfWeek p.timestamp ∈ weekKeysOf startOfWeek data := (inv.keys _).1 hold
  refine ⟨?_, ?_, ?_, ?_, ?_, ?_⟩
  · rw [map_replace_keys]
    exact inv.nodup
  · intro e he
    obtain ⟨e0, he0, rfl⟩ := List.mem_map.1 he
    by_cases hk : e0.1 = startOfWeek p.timestamp
    · simp [hk]
    · simpa [hk] using inv.stamp e0 he0
  · intro k
    rw [map_replace_keys, weekKeysOf_append, List.mem_append, inv.keys k]
    constructor
    · exact fun h => Or.inl h
    · rintro (h | h)
      · exact h
      · simp only [List.mem_singleton] at h
        rw [h]
        exact hin
  · intro e he
    obtain ⟨e0, he0, rfl⟩ := List.mem_map.1 he
    rw [volumeOfWeek_append]
    by_cases hk : e0.1 = startOfWeek p.timestamp
    · have hv := inv.volume _ hb
      simp only at hv
      simp [hk, hv]
    · have hk' : ¬ startOfWeek p.timestamp = e0.1 := fun h => hk h.symm
      simp [hk, hk', inv.volume e0 he0]
  · have h := totalVolume_replace m (startOfWeek p.timestamp) bucket
      { timestamp := startOfWeek p.timestamp, volume := bucket.volume + p.volume }
      inv.nodup hb
    rw [totalVolume_append, ← inv.total]
    simp only [totalVolume, List.map_cons, List.map_nil, List.sum_cons, List.sum_nil,
      add_zero] at h ⊢
    linarith
  · rw [map_replace_keys, weekKeysOf_append]
    refine inv.order.imp_of_mem ?_
    intro a b ha hb' hab
    exact indexOf_order_append _ _ a b ((inv.keys a).1 ha) ((inv.keys b).1 hb') hab

theorem aggregationInv_step (startOfWeek : ℤ → ℤ) (data : List VolumePoint) (m : WeekMap)
    (p : VolumePoint) (inv : AggregationInv startOfWeek data m) :
    AggregationInv startOfWeek (data ++ [p]) (aggregationStep startOfWeek m p) := by
  by_cases h : startOfWeek p.timestamp ∈ m.map Prod.fst
  · exact aggregationInv_step_old startOfWeek data m p inv h
  · exact aggregationInv_step_new startOfWeek data m p inv h

theorem aggregationInv_foldl (startOfWeek : ℤ → ℤ) (rest : List VolumePoint) :
    ∀ (data : List VolumePoint) (m : WeekMap), AggregationInv startOfWeek data m →
      AggregationInv startOfWeek (data ++ rest)
        (rest.foldl (aggregationStep startOfWeek) m) := by
  induction rest with
  | nil =>
    intro data m inv
    simpa using inv
  | cons p t ih =>
    intro data m inv
    have := ih (data ++ [p]) _ (aggregationInv_step startOfWeek data m p inv)
    simpa [List.append_assoc] using this

theorem aggregationInv_final (startOfWeek : ℤ → ℤ) (data : List VolumePoint) :
    AggregationInv startOfWeek data (data.foldl (aggregationStep startOfWeek) []) := by
  simpa using aggregationInv_foldl startOfWeek data [] [] (aggregationInv_nil startOfWeek)

theorem aggregateWeekly_timestamps (startOfWeek : ℤ → ℤ) (data : List VolumePoint) :
    (aggregateWeekly startOfWeek data).map (fun (b : VolumePoint) => b.timestamp) =
      (data.foldl (aggregationStep startOfWeek) []).map Prod.fst := by
  have inv := aggregationInv_final startOfWeek data
  unfold aggregateWeekly mapValues
  rw [List.map_map]
  apply List.map_congr_left
  intro e he
  exact inv.stamp e he

/-- C9. The weekly aggregation (the path taken for `90D` and `ALL`) puts every filtered point
into the bucket keyed by its week start: the bucket keys are pairwise distinct, every point has
its bucket, every bucket comes from some point, the volume of a bucket is the sum of the volumes
of the filtered points with its key, and the bucket volumes add up to the total filtered
volume. -/
theorem aggregateWeekly_buckets (startOfWeek : ℤ → ℤ) (daysBefore : ℤ → ℕ → ℤ) (now : ℤ)
    (volumeData filteredData : List VolumePoint) :
    (aggregatedData startOfWeek daysBefore now "90D" volumeData =
        aggregateWeekly startOfWeek (filterVolumeData daysBefore now "90D" volumeData) ∧
      aggregatedData startOfWeek daysBefore now "ALL" volumeData =
        aggregateWeekly startOfWeek (filterVolumeData daysBefore now "ALL" volumeData)) ∧
    ((aggregateWeekly startOfWeek filteredData).map
      (fun (b : VolumePoint) => b.timestamp)).Nodup ∧
    (∀ p ∈ filteredData, ∃ b ∈ aggregateWeekly startOfWeek filteredData,
      b.timestamp = startOfWeek p.timestamp) ∧
    (∀ b ∈ aggregateWeekly startOfWeek filteredData,
      (∃ p ∈ filteredData, startOfWeek p.timestamp = b.timestamp) ∧
      b.volume = volumeOfWeek startOfWeek filteredData b.timestamp) ∧
    totalVolume (aggregateWeekly startOfWeek filteredData) = totalVolume filteredData := by
  have inv := aggregationInv_final startOfWeek filteredData
  have hts := aggregateWeekly_timestamps startOfWeek filteredData
  refine ⟨⟨?_, ?_⟩, ?_, ?_, ?_, ?_⟩
  · simp [aggregatedData]
  · simp [aggregatedData]
  · rw [hts]
    exact inv.nodup
  · intro p hp
    have hk : startOfWeek p.timestamp ∈
        (aggregateWeekly startOfWeek filteredData).map (fun (b : VolumePoint) => b.timestamp) := by
      rw [hts, inv.keys]
      exact List.mem_map_of_mem (fun (q : VolumePoint) => startOfWeek q.timestamp) hp
    obtain ⟨b, hb, hbk⟩ := List.mem_map.1 hk
    exact ⟨b, hb, hbk⟩
  · intro b hb
    obtain ⟨e, he, rfl⟩ := List.mem_map.1 hb
    have hst := inv.stamp e he
    constructor
    · have hk : e.1 ∈ weekKeysOf startOfWeek filteredData :=
        (inv.keys e.1).1 (List.mem_map_of_mem Prod.fst he)
      obtain ⟨p, hp, hpk⟩ := List.mem_map.1 hk
      exact ⟨p, hp, by rw [hst]; exact hpk⟩
    · rw [hst]
      exact inv.volume e he
  · exact inv.total

/-- In a list sorted by `≤`, an element whose first index is smaller is strictly smaller. -/
theorem lt_of_indexOf_lt (keys : List ℤ) (hs : keys.Sorted (· ≤ ·)) (a b : ℤ)
    (ha : a ∈ keys) (hb : b ∈ keys) (h : keys.indexOf a < keys.indexOf b) : a < b := by
  have hia := List.indexOf_lt_length.2 ha
  have hib := List.indexOf_lt_length.2 hb
  have hle := (List.pairwise_iff_getElem.1 hs) _ _ hia hib h
  rw [List.getElem_indexOf hia, List.getElem_indexOf hib] at hle
  have hne : a ≠ b := by
    intro hab
    rw [hab] at h
    exact lt_irrefl _ h
  exact lt_of_le_of_ne hle hne

theorem startOfWeekAt_monotone (offset : ℤ) : Monotone (startOfWeekAt offset) := by
  intro a b hab
  simp only [startOfWeekAt, msPerDay]
  omega

/-- C8 (counterexample). For the two-point series whose first point is two weeks later than its
second point, the `ALL` aggregation outputs the later week first: the bucket time stamps
`[864000000, -345600000]` are not in increasing order. -/
theorem aggregatedData_not_sorted :
    (aggregatedData (startOfWeekAt 0) fixedOffsetDaysBefore 0 "ALL"
        [{ timestamp := 1209600000, volume := 1 }, { timestamp := 0, volume := 1 }]).map
      (fun (b : VolumePoint) => b.timestamp) = [864000000, -345600000] ∧
    ¬ ((aggregatedData (startOfWeekAt 0) fixedOffsetDaysBefore 0 "ALL"
        [{ timestamp := 1209600000, volume := 1 }, { timestamp := 0, volume := 1 }]).map
      (fun (b : VolumePoint) => b.timestamp)).Sorted (· < ·) := by
  have h1 : startOfWeekAt 0 1209600000 = 864000000 := by
    simp only [startOfWeekAt, msPerDay]
    norm_num
  have h2 : startOfWeekAt 0 0 = -345600000 := by
    simp only [startOfWeekAt, msPerDay]
    norm_num
  have hl : (aggregatedData (startOfWeekAt 0) fixedOffsetDaysBefore 0 "ALL"
        [{ timestamp := 1209600000, volume := 1 }, { timestamp := 0, volume := 1 }]).map
      (fun (b : VolumePoint) => b.timestamp) = [864000000, -345600000] := by
    simp [aggregatedData, filterVolumeData, filterByPeriod, aggregateWeekly, mapValues,
      aggregationStep, mapHas, mapSet, h1, h2]
  refine ⟨hl, ?_⟩
  rw [hl]
  decide

/-- C8 (amended). The weekly buckets are output in the order in which their keys were first
inserted; when the input series is in non-decreasing order of time stamp and the week start is
a monotone function of the time stamp, that order is the strictly increasing order of the bucket
time stamps. -/
theorem aggregateWeekly_order (startOfWeek : ℤ → ℤ) (filteredData : List VolumePoint)
    (hmono : Monotone startOfWeek)
    (hsorted : (filteredData.map fun (p : VolumePoint) => p.timestamp).Sorted (· ≤ ·)) :
    ((aggregateWeekly startOfWeek filteredData).map
      (fun (b : VolumePoint) => b.timestamp)).Pairwise (fun a b =>
        (weekKeysOf startOfWeek filteredData).indexOf a <
          (weekKeysOf startOfWeek filteredData).indexOf b) ∧
    ((aggregateWeekly startOfWeek filteredData).map
      (fun (b : VolumePoint) => b.timestamp)).Sorted (· < ·) := by
  have inv := aggregationInv_final startOfWeek filteredData
  rw [aggregateWeekly_timestamps]
  refine ⟨inv.order, ?_⟩
  have hkeys : (weekKeysOf startOfWeek filteredData).Sorted (· ≤ ·) := by
    have e : weekKeysOf startOfWeek filteredData =
        (filteredData.map fun (p : VolumePoint) => p.timestamp).map startOfWeek := by
      simp [weekKeysOf]
    rw [e]
    exact List.Pairwise.map startOfWeek (fun a b hab => hmono hab) hsorted
  refine inv.order.imp_of_mem ?_
  intro a b ha hb hab
  exact lt_of_indexOf_lt _ hkeys a b ((inv.keys a).1 ha) ((inv.keys b).1 hb) hab

/-- Witness for C8 (amended): three chronological points, two of them in the same week, in a
zone one hour east of UTC. -/
theorem aggregateWeekly_order_witness :
    ((aggregateWeekly (startOfWeekAt 3600000)
        [{ timestamp := 0, volume := 1 }, { timestamp := 86400000, volume := 2 },
          { timestamp := 1209600000, volume := 3 }]).map
      (fun (b : VolumePoint) => b.timestamp)).Pairwise (fun a b =>
        (weekKeysOf (startOfWeekAt 3600000)
          [{ timestamp := 0, volume := 1 }, { timestamp := 86400000, volume := 2 },
            { timestamp := 1209600000, volume := 3 }]).indexOf a <
          (weekKeysOf (startOfWeekAt 3600000)
            [{ timestamp := 0, volume := 1 }, { timestamp := 86400000, volume := 2 },
              { timestamp := 1209600000, volume := 3 }]).indexOf b) ∧
    ((aggregateWeekly (startOfWeekAt 3600000)
        [{ timestamp := 0, volume := 1 }, { timestamp := 86400000, volume := 2 },
          { timestamp := 1209600000, volume := 3 }]).map
      (fun (b : VolumePoint) => b.timestamp)).Sorted (· < ·) :=
  aggregateWeekly_order (startOfWeekAt 3600000)
    [{ timestamp := 0, volume := 1 }, { timestamp := 86400000, volume := 2 },
      { timestamp := 1209600000, volume := 3 }]
    (startOfWeekAt_monotone 3600000) (by
      simp only [List.map_cons, List.map_nil]
      decide)

/-! ## Length and positivity of the generated series -/

theorem priceLoop_length (dateOf : ℕ → ℤ) (getDay : ℕ → ℕ) (rand : ℕ → ℚ) (volatility : ℚ)
    (indices : List ℕ) :
    ∀ st : PriceState,
      (indices.foldl (priceStep dateOf getDay rand volatility) st).data.length =
        st.data.length + indices.length := by
  induction indices with
  | nil => intro st; simp
  | cons i t ih =>
    intro st
    rw [List.foldl_cons, ih]
    simp [priceStep]
    omega

theorem liquidityLoop_length (dateOf : ℕ → ℤ) (rand : ℕ → ℚ) (baseAmount : ℚ)
    (indices : List ℕ) :
    ∀ st : LiquidityState,
      (indices.foldl (liquidityStep dateOf rand baseAmount) st).data.length =
        st.data.length + indices.length := by
  induction indices with
  | nil => intro st; simp
  | cons i t ih =>
    intro st
    rw [List.foldl_cons, ih]
    have h : (liquidityStep dateOf rand baseAmount st i).data.length = st.data.length + 1 := by
      unfold liquidityStep
      simp only
      split_ifs <;> simp
    rw [h, List.length_cons]
    omega

theorem holderLoop_length (dateOf : ℕ → ℤ) (rand : ℕ → ℚ) (days : ℤ) (indices : List ℕ) :
    ∀ st : HolderState,
      (indices.foldl (holderStep dateOf rand days) st).data.length =
        st.data.length + indices.length := by
  induction indices with
  | nil => intro st; simp
  | cons i t ih =>
    intro st
    rw [List.foldl_cons, ih]
    simp [holderStep]
    omega

theorem transactionsLoop_length (dateOf : ℕ → ℤ) (getDay : ℕ → ℕ) (rand : ℕ → ℚ) (days : ℤ)
    (indices : List ℕ) :
    ∀ st : TransactionsState,
      (indices.foldl (transactionsStep dateOf getDay rand days) st).data.length =
        st.data.length + indices.length := by
  induction indices with
  | nil => intro st; simp
  | cons i t ih =>
    intro st
    rw [List.foldl_cons, ih]
    simp [transactionsStep]
    omega

theorem generatePriceData_length (dateOf : ℕ → ℤ) (getDay : ℕ → ℕ) (rand : ℕ → ℚ) (days : ℤ)
    (startPrice volatility : ℚ) :
    (generatePriceData dateOf getDay rand days startPrice volatility).length =
      (days + 1).toNat := by
  unfold generatePriceData
  rw [priceLoop_length, loopIndices_length]
  simp

theorem generateLiquidityData_length (dateOf : ℕ → ℤ) (rand : ℕ → ℚ) (days : ℤ)
    (baseAmount : ℚ) :
    (generateLiquidityData dateOf rand days baseAmount).length = (days + 1).toNat := by
  unfold generateLiquidityData
  rw [liquidityLoop_length, loopIndices_length]
  simp

theorem generateHolderData_length (dateOf : ℕ → ℤ) (rand : ℕ → ℚ) (days : ℤ) :
    (generateHolderData dateOf rand days).length = (days + 1).toNat := by
  unfold generateHolderData
  rw [holderLoop_length, loopIndices_length]
  simp

theorem generateTransactionsData_length (dateOf : ℕ → ℤ) (getDay : ℕ → ℕ) (rand : ℕ → ℚ)
    (days : ℤ) :
    (generateTransactionsData dateOf getDay rand days).length = (days + 1).toNat := by
  unfold generateTransactionsData
  rw [transactionsLoop_length, loopIndices_length]
  simp

theorem generateVolumeData_timestamps (rand : ℕ → ℚ) (priceData : List PricePoint)
    (baseVolume : ℚ) :
    (generateVolumeData rand priceData baseVolume).map (fun (p : VolumePoint) => p.timestamp) =
      priceData.map (fun (p : PricePoint) => p.timestamp) := by
  unfold generateVolumeData
  apply List.ext_getElem?
  intro k
  rw [List.getElem?_map, List.getElem?_mapIdx, List.getElem?_map]
  cases priceData[k]? <;> rfl

/-- The price after one loop iteration is at least `0.01 * 0.995`. -/
theorem priceStep_floor (dateOf : ℕ → ℤ) (getDay : ℕ → ℕ) (rand : ℕ → ℚ) (volatility : ℚ)
    (st : PriceState) (i : ℕ) :
    995 / 100000 ≤ (priceStep dateOf getDay rand volatility st i).currentPrice := by
  have h := le_max_left (1 / 100 : ℚ)
    (st.currentPrice * (1 + (rand st.draws - 48 / 100) * volatility))
  simp only [priceStep]
  split_ifs
  · linarith
  · linarith

theorem priceLoop_floor (dateOf : ℕ → ℤ) (getDay : ℕ → ℕ) (rand : ℕ → ℚ) (volatility : ℚ)
    (indices : List ℕ) :
    ∀ st : PriceState, (∀ p ∈ st.data, (995 / 100000 : ℚ) ≤ p.price) →
      ∀ p ∈ (indices.foldl (priceStep dateOf getDay rand volatility) st).data,
        (995 / 100000 : ℚ) ≤ p.price := by
  induction indices with
  | nil => intro st h; simpa using h
  | cons i t ih =>
    intro st h
    rw [List.foldl_cons]
    apply ih
    intro p hp
    have hd : (priceStep dateOf getDay rand volatility st i).data = st.data ++
        [{ timestamp := dateOf i,
           price := (priceStep dateOf getDay rand volatility st i).currentPrice }] := rfl
    rw [hd, List.mem_append, List.mem_singleton] at hp
    rcases hp with hp | hp
    · exact h p hp
    · rw [hp]
      exact priceStep_floor dateOf getDay rand volatility st i

theorem generatePriceData_floor (dateOf : ℕ → ℤ) (getDay : ℕ → ℕ) (rand : ℕ → ℚ) (days : ℤ)
    (startPrice volatility : ℚ) :
    ∀ p ∈ generatePriceData dateOf getDay rand days startPrice volatility,
      (995 / 100000 : ℚ) ≤ p.price := by
  unfold generatePriceData
  apply priceLoop_floor
  intro p hp
  simp at hp

/-- C13 (counterexample). With `startPrice = -1` (and `days = 0`, a Wednesday, a draw of
`1/2`) `generatePriceData` does not fail: it returns the one-point series with the clamped
price `0.01`. -/
theorem generatePriceData_clamps_negative_start :
    generatePriceData (fun _ => 0) (fun _ => 3) (fun _ => 1 / 2) 0 (-1) (3 / 100) =
      [{ timestamp := 0, price := 1 / 100 }] := by
  have hl : loopIndices 0 = [0] := by decide
  simp only [generatePriceData, hl, List.foldl_cons, List.foldl_nil, priceStep]
  norm_num [isWeekend]

/-- C13 (amended). `generatePriceData` performs no validation of `startPrice`: for every
`startPrice`, the non-positive ones included, and every `days ≥ 0` it returns `days + 1` points,
each price being clamped by `Math.max(0.01, ...)` before the weekend factor, hence at least
`0.00995`. -/
theorem generatePriceData_no_validation (dateOf : ℕ → ℤ) (getDay : ℕ → ℕ) (rand : ℕ → ℚ)
    (days : ℤ) (startPrice volatility : ℚ) (hd : 0 ≤ days) :
    ((generatePriceData dateOf getDay rand days startPrice volatility).length : ℤ) = days + 1 ∧
    ∀ p ∈ generatePriceData dateOf getDay rand days startPrice volatility,
      (995 / 100000 : ℚ) ≤ p.price := by
  refine ⟨?_, generatePriceData_floor dateOf getDay rand days startPrice volatility⟩
  rw [generatePriceData_length]
  omega

/-- Witness for C13 (amended): `startPrice = -1` at the shipped horizon. -/
theorem generatePriceData_no_validation_witness :
    ((generatePriceData (fun i => -(i : ℤ)) (weekdayBefore 3) (fun _ => 1 / 2) 180 (-1)
        (3 / 100)).length : ℤ) = 180 + 1 ∧
    ∀ p ∈ generatePriceData (fun i => -(i : ℤ)) (weekdayBefore 3) (fun _ => 1 / 2) 180 (-1)
        (3 / 100), (995 / 100000 : ℚ) ≤ p.price :=
  generatePriceData_no_validation (fun i => -(i : ℤ)) (weekdayBefore 3) (fun _ => 1 / 2) 180
    (-1) (3 / 100) (by norm_num)

/-- C14 (counterexample). For the horizon `days = 0` each of the four generators returns one
point, not an empty series. -/
theorem generators_zero_days_one_point :
    (generatePriceData (fun _ => 0) (fun _ => 3) (fun _ => 1 / 2) 0 (3 / 4) (3 / 100)).length
      = 1 ∧
    (generateLiquidityData (fun _ => 0) (fun _ => 1 / 2) 0 2000000).length = 1 ∧
    (generateHolderData (fun _ => 0) (fun _ => 1 / 2) 0).length = 1 ∧
    (generateTransactionsData (fun _ => 0) (fun _ => 3) (fun _ => 1 / 2) 0).length = 1 := by
  rw [generatePriceData_length, generateLiquidityData_length, generateHolderData_length,
    generateTransactionsData_length]
  decide

/-- C14 (amended). For every horizon `days < 0`, `generatePriceData`, `generateLiquidityData`,
`generateHolderData` and `generateTransactionsData` return the empty series. -/
theorem generators_negative_days_empty (dateOf : ℕ → ℤ) (getDay : ℕ → ℕ) (rand : ℕ → ℚ)
    (days : ℤ) (startPrice volatility baseAmount : ℚ) (hd : days < 0) :
    generatePriceData dateOf getDay rand days startPrice volatility = [] ∧
    generateLiquidityData dateOf rand days baseAmount = [] ∧
    generateHolderData dateOf rand days = [] ∧
    generateTransactionsData dateOf getDay rand days = [] := by
  have h0 : (days + 1).toNat = 0 := by omega
  refine ⟨?_, ?_, ?_, ?_⟩
  · exact List.eq_nil_of_length_eq_zero (by rw [generatePriceData_length, h0])
  · exact List.eq_nil_of_length_eq_zero (by rw [generateLiquidityData_length, h0])
  · exact List.eq_nil_of_length_eq_zero (by rw [generateHolderData_length, h0])
  · exact List.eq_nil_of_length_eq_zero (by rw [generateTransactionsData_length, h0])

/-- Witness for C14 (amended): the horizon `-1`. -/
theorem generators_negative_days_empty_witness :
    generatePriceData (fun i => -(i : ℤ)) (weekdayBefore 3) (fun _ => 1 / 2) (-1) (3 / 4)
      (3 / 100) = [] ∧
    generateLiquidityData (fun i => -(i : ℤ)) (fun _ => 1 / 2) (-1) 2000000 = [] ∧
    generateHolderData (fun i => -(i : ℤ)) (fun _ => 1 / 2) (-1) = [] ∧
    generateTransactionsData (fun i => -(i : ℤ)) (weekdayBefore 3) (fun _ => 1 / 2) (-1) = [] :=
  generators_negative_days_empty (fun i => -(i : ℤ)) (weekdayBefore 3) (fun _ => 1 / 2) (-1)
    (3 / 4) (3 / 100) 2000000 (by norm_num)

/-- C15. For every integer `days ≥ 0`, `generatePriceData`, `generateLiquidityData`,
`generateHolderData` and `generateTransactionsData` each return exactly `days + 1` points, and
`generateVolumeData` returns as many points as the price series it is given, with the same time
stamps position by position. -/
theorem generators_point_count (dateOf : ℕ → ℤ) (getDay : ℕ → ℕ) (rand : ℕ → ℚ) (days : ℤ)
    (startPrice volatility baseVolume baseAmount : ℚ) (priceData : List PricePoint)
    (hd : 0 ≤ days) :
    ((generatePriceData dateOf getDay rand days startPrice volatility).length : ℤ) = days + 1 ∧
    ((generateLiquidityData dateOf rand days baseAmount).length : ℤ) = days + 1 ∧
    ((generateHolderData dateOf rand days).length : ℤ) = days + 1 ∧
    ((generateTransactionsData dateOf getDay rand days).length : ℤ) = days + 1 ∧
    (generateVolumeData rand priceData baseVolume).length = priceData.length ∧
    (generateVolumeData rand priceData baseVolume).map (fun (p : VolumePoint) => p.timestamp) =
      priceData.map (fun (p : PricePoint) => p.timestamp) := by
  refine ⟨?_, ?_, ?_, ?_, ?_, generateVolumeData_timestamps rand priceData baseVolume⟩
  · rw [generatePriceData_length]
    omega
  · rw [generateLiquidityData_length]
    omega
  · rw [generateHolderData_length]
    omega
  · rw [generateTransactionsData_length]
    omega
  · simp [generateVolumeData]

/-- Witness for C15: the shipped horizon `180` gives `181` points. -/
theorem generators_point_count_witness :
    ((generatePriceData (fun i => -(i : ℤ)) (weekdayBefore 3) (fun _ => 1 / 2) 180 (3 / 4)
      (3 / 100)).length : ℤ) = 180 + 1 ∧
    ((generateLiquidityData (fun i => -(i : ℤ)) (fun _ => 1 / 2) 180 2000000).length : ℤ)
      = 180 + 1 ∧
    ((generateHolderData (fun i => -(i : ℤ)) (fun _ => 1 / 2) 180).length : ℤ) = 180 + 1 ∧
    ((generateTransactionsData (fun i => -(i : ℤ)) (weekdayBefore 3) (fun _ => 1 / 2)
      180).length : ℤ) = 180 + 1 ∧
    (generateVolumeData (fun _ => 1 / 2) rampSeries 500000).length = rampSeries.length ∧
    (generateVolumeData (fun _ => 1 / 2) rampSeries 500000).map
        (fun (p : VolumePoint) => p.timestamp) =
      rampSeries.map (fun (p : PricePoint) => p.timestamp) :=
  generators_point_count (fun i => -(i : ℤ)) (weekdayBefore 3) (fun _ => 1 / 2) 180 (3 / 4)
    (3 / 100) 500000 2000000 rampSeries (by norm_num)

theorem generateVolumeData_pos (rand : ℕ → ℚ) (priceData : List PricePoint) (baseVolume : ℚ)
    (hprice : ∀ p ∈ priceData, 0 < p.price) (hbase : 0 < baseVolume)
    (hrand : ∀ k, 0 ≤ rand k) :
    ∀ v ∈ generateVolumeData rand priceData baseVolume, 0 < v.volume := by
  intro v hv
  obtain ⟨k, hk, hkv⟩ := List.mem_iff_getElem.1 hv
  unfold generateVolumeData at hk hkv
  rw [List.getElem_mapIdx] at hkv
  rw [List.length_mapIdx] at hk
  rw [← hkv]
  have hpt : 0 < (priceData[k]).price := hprice _ (List.getElem_mem hk)
  have hprev : 0 < (if 0 < k then ((priceData.get? (k - 1)).getD priceData[k]).price
      else (priceData[k]).price) := by
    split_ifs
    · cases hq : priceData.get? (k - 1) with
      | none => simpa using hpt
      | some q =>
        simp only [Option.getD_some]
        exact hprice q (List.get?_mem hq)
    · exact hpt
  have hchange : 0 ≤ |(priceData[k]).price - (if 0 < k then
      ((priceData.get? (k - 1)).getD priceData[k]).price else (priceData[k]).price)| /
      (if 0 < k then ((priceData.get? (k - 1)).getD priceData[k]).price
        else (priceData[k]).price) := div_nonneg (abs_nonneg _) hprev.le
  have hr := hrand k
  simp only
  have h1 : 0 < 1 + |(priceData[k]).price - (if 0 < k then
      ((priceData.get? (k - 1)).getD priceData[k]).price else (priceData[k]).price)| /
      (if 0 < k then ((priceData.get? (k - 1)).getD priceData[k]).price
        else (priceData[k]).price) * 10 := by positivity
  have h2 : (0 : ℚ) < 1 / 2 + rand k := by linarith
  exact mul_pos (mul_pos hbase h1) h2

theorem liquidityStep_pos (dateOf : ℕ → ℤ) (rand : ℕ → ℚ) (baseAmount : ℚ)
    (hbase : 0 < baseAmount) (hrand : ∀ k, 0 ≤ rand k) (st : LiquidityState) (i : ℕ)
    (hcur : 0 < st.currentLiquidity) (hdata : ∀ p ∈ st.data, 0 < p.liquidity) :
    0 < (liquidityStep dateOf rand baseAmount st i).currentLiquidity ∧
    ∀ p ∈ (liquidityStep dateOf rand baseAmount st i).data, 0 < p.liquidity := by
  have hfac : (0 : ℚ) < 1 + (rand st.draws - 45 / 100) * (3 / 100) := by
    have := hrand st.draws
    linarith
  have hdrift : 0 < st.currentLiquidity * (1 + (rand st.draws - 45 / 100) * (3 / 100)) :=
    mul_pos hcur hfac
  have hadd : 0 ≤ baseAmount * (2 / 10) * rand (st.draws + 2) :=
    mul_nonneg (by positivity) (hrand _)
  unfold liquidityStep
  simp only
  split_ifs
  · refine ⟨by linarith, ?_⟩
    intro p hp
    rw [List.mem_append, List.mem_singleton] at hp
    rcases hp with hp | hp
    · exact hdata p hp
    · rw [hp]
      simp only
      linarith
  · refine ⟨hdrift, ?_⟩
    intro p hp
    rw [List.mem_append, List.mem_singleton] at hp
    rcases hp with hp | hp
    · exact hdata p hp
    · rw [hp]
      exact hdrift

theorem liquidityLoop_pos (dateOf : ℕ → ℤ) (rand : ℕ → ℚ) (baseAmount : ℚ)
    (hbase : 0 < baseAmount) (hrand : ∀ k, 0 ≤ rand k) (indices : List ℕ) :
    ∀ st : LiquidityState, 0 < st.currentLiquidity → (∀ p ∈ st.data, 0 < p.liquidity) →
      ∀ p ∈ (indices.foldl (liquidityStep dateOf rand baseAmount) st).data,
        0 < p.liquidity := by
  induction indices with
  | nil => intro st _ h; simpa using h
  | cons i t ih =>
    intro st hcur hdata
    rw [List.foldl_cons]
    obtain ⟨h1, h2⟩ := liquidityStep_pos dateOf rand baseAmount hbase hrand st i hcur hdata
    exact ih _ h1 h2

/-- C16. For every `days ≥ 0`, every `startPrice` and `volatility`, every `baseVolume > 0` and
`baseAmount > 0` and every stream of draws in `[0, 1)`: every price of `generatePriceData` is
positive, every volume of `generateVolumeData` applied to that price series is positive, and
every liquidity of `generateLiquidityData` is positive. -/
theorem generated_values_positive (dateOf : ℕ → ℤ) (getDay : ℕ → ℕ) (rand : ℕ → ℚ) (days : ℤ)
    (startPrice volatility baseVolume baseAmount : ℚ) (hd : 0 ≤ days)
    (hvol : 0 < baseVolume) (hamt : 0 < baseAmount) (hrand : ∀ k, 0 ≤ rand k ∧ rand k < 1) :
    (generatePriceData dateOf getDay rand days startPrice volatility ≠ [] ∧
      ∀ p ∈ generatePriceData dateOf getDay rand days startPrice volatility, 0 < p.price) ∧
    (∀ v ∈ generateVolumeData rand
        (generatePriceData dateOf getDay rand days startPrice volatility) baseVolume,
      0 < v.volume) ∧
    (∀ l ∈ generateLiquidityData dateOf rand days baseAmount, 0 < l.liquidity) := by
  have hprice : ∀ p ∈ generatePriceData dateOf getDay rand days startPrice volatility,
      0 < p.price := by
    intro p hp
    have := generatePriceData_floor dateOf getDay rand days startPrice volatility p hp
    linarith
  refine ⟨⟨?_, hprice⟩, ?_, ?_⟩
  · intro h
    have hl := generatePriceData_length dateOf getDay rand days startPrice volatility
    rw [h] at hl
    simp only [List.length_nil] at hl
    omega
  · exact generateVolumeData_pos rand _ baseVolume hprice hvol (fun k => (hrand k).1)
  · unfold generateLiquidityData
    apply liquidityLoop_pos dateOf rand baseAmount hamt (fun k => (hrand k).1)
    · exact hamt
    · intro p hp
      simp at hp

/-- Witness for C16: the shipped configuration with constant draws `1/2`. -/
theorem generated_values_positive_witness :
    (generatePriceData (fun i => -(i : ℤ)) (weekdayBefore 3) (fun _ => 1 / 2) 180 (3 / 4)
        (3 / 100) ≠ [] ∧
      ∀ p ∈ generatePriceData (fun i => -(i : ℤ)) (weekdayBefore 3) (fun _ => 1 / 2) 180
        (3 / 4) (3 / 100), 0 < p.price) ∧
    (∀ v ∈ generateVolumeData (fun _ => 1 / 2)
        (generatePriceData (fun i => -(i : ℤ)) (weekdayBefore 3) (fun _ => 1 / 2) 180 (3 / 4)
          (3 / 100)) 500000, 0 < v.volume) ∧
    (∀ l ∈ generateLiquidityData (fun i => -(i : ℤ)) (fun _ => 1 / 2) 180 2000000,
      0 < l.liquidity) :=
  generated_values_positive (fun i => -(i : ℤ)) (weekdayBefore 3) (fun _ => 1 / 2) 180 (3 / 4)
    (3 / 100) 500000 2000000 (by norm_num) (by norm_num) (by norm_num)
    (fun _ => ⟨by norm_num, by norm_num⟩)

/-! ## The shipped price series stays above the floor -/

theorem worstDailyFactor_pos : 0 < worstDailyFactor := by
  norm_num [worstDailyFactor]

theorem worstDailyFactor_le_one : worstDailyFactor ≤ 1 := by
  norm_num [worstDailyFactor]

/-- At volatility `0.03` and with non-negative draws, one iteration scales a positive lower
bound of the price by at least `0.9856 * 0.995`. -/
theorem priceStep_lower (dateOf : ℕ → ℤ) (getDay : ℕ → ℕ) (rand : ℕ → ℚ)
    (hrand : ∀ k, 0 ≤ rand k) (st : PriceState) (i : ℕ) (bound : ℚ) (hb : 0 < bound)
    (hcur : bound ≤ st.currentPrice) :
    bound * worstDailyFactor ≤ (priceStep dateOf getDay rand (3 / 100) st i).currentPrice := by
  have hr := hrand st.draws
  have hfac : (9856 / 10000 : ℚ) ≤ 1 + (rand st.draws - 48 / 100) * (3 / 100) := by linarith
  have h1 : bound * (9856 / 10000) ≤
      st.currentPrice * (1 + (rand st.draws - 48 / 100) * (3 / 100)) :=
    mul_le_mul hcur hfac (by norm_num) (by linarith)
  have h2 := le_max_right (1 / 100 : ℚ)
    (st.currentPrice * (1 + (rand st.draws - 48 / 100) * (3 / 100)))
  have h3 : bound * (9856 / 10000) ≤
      max (1 / 100) (st.currentPrice * (1 + (rand st.draws - 48 / 100) * (3 / 100))) :=
    le_trans h1 h2
  have h4 : (0 : ℚ) < bound * (9856 / 10000) := by positivity
  simp only [priceStep, worstDailyFactor]
  split_ifs
  · nlinarith
  · nlinarith

theorem priceLoop_lower (dateOf : ℕ → ℤ) (getDay : ℕ → ℕ) (rand : ℕ → ℚ)
    (hrand : ∀ k, 0 ≤ rand k) (indices : List ℕ) :
    ∀ (st : PriceState) (bound : ℚ), 0 < bound → bound ≤ st.currentPrice →
      (∀ p ∈ st.data, bound * worstDailyFactor ^ indices.length ≤ p.price) →
      ∀ p ∈ (indices.foldl (priceStep dateOf getDay rand (3 / 100)) st).data,
        bound * worstDailyFactor ^ indices.length ≤ p.price := by
  induction indices with
  | nil => intro st bound _ _ h; simpa using h
  | cons i t ih =>
    intro st bound hb hcur hdata
    rw [List.foldl_cons]
    have hstep := priceStep_lower dateOf getDay rand hrand st i bound hb hcur
    have hpow : worstDailyFactor ^ t.length ≤ 1 :=
      pow_le_one₀ worstDailyFactor_pos.le worstDailyFactor_le_one
    have hpos : 0 < bound * worstDailyFactor := mul_pos hb worstDailyFactor_pos
    have e : bound * worstDailyFactor ^ (i :: t).length =
        bound * worstDailyFactor * worstDailyFactor ^ t.length := by
      rw [List.length_cons, pow_succ]
      ring
    rw [e]
    apply ih _ (bound * worstDailyFactor) hpos hstep
    intro p hp
    have hd : (priceStep dateOf getDay rand (3 / 100) st i).data = st.data ++
        [{ timestamp := dateOf i,
           price := (priceStep dateOf getDay rand (3 / 100) st i).currentPrice }] := rfl
    rw [hd, List.mem_append, List.mem_singleton] at hp
    rcases hp with hp | hp
    · rw [← e]
      exact hdata p hp
    · rw [hp]
      simp only
      have : bound * worstDailyFactor * worstDailyFactor ^ t.length ≤
          bound * worstDailyFactor * 1 := mul_le_mul_of_nonneg_left hpow hpos.le
      linarith

theorem shipped_lower_bound : (1 / 100 : ℚ) < 3 / 4 * worstDailyFactor ^ 181 := by
  norm_num [worstDailyFactor]

/-- C17. For the shipped configuration `generatePriceData(180, 0.75, 0.03)`, for every stream of
draws in `[0, 1)` and every assignment of weekend days, there are `181` prices and every one of
them is strictly greater than `0.01`. -/
theorem shipped_prices_above_floor (dateOf : ℕ → ℤ) (getDay : ℕ → ℕ) (rand : ℕ → ℚ)
    (hrand : ∀ k, 0 ≤ rand k ∧ rand k < 1) :
    (generatePriceData dateOf getDay rand 180 (3 / 4) (3 / 100)).length = 181 ∧
    ∀ p ∈ generatePriceData dateOf getDay rand 180 (3 / 4) (3 / 100), 1 / 100 < p.price := by
  constructor
  · rw [generatePriceData_length]
    decide
  · intro p hp
    have hlen : (loopIndices 180).length = 181 := by
      rw [loopIndices_length]
      decide
    have h := priceLoop_lower dateOf getDay rand (fun k => (hrand k).1) (loopIndices 180)
      { draws := 0, currentPrice := 3 / 4, data := [] } (3 / 4) (by norm_num) (le_refl _)
      (fun q hq => by simp at hq) p hp
    rw [hlen] at h
    exact lt_of_lt_of_le shipped_lower_bound h

/-- Witness for C17: constant draws `0` (the lowest) and every day a Sunday. -/
theorem shipped_prices_above_floor_witness :
    (generatePriceData (fun i => -(i : ℤ)) (fun _ => 0) (fun _ => 0) 180 (3 / 4)
      (3 / 100)).length = 181 ∧
    ∀ p ∈ generatePriceData (fun i => -(i : ℤ)) (fun _ => 0) (fun _ => 0) 180 (3 / 4)
      (3 / 100), 1 / 100 < p.price :=
  shipped_prices_above_floor (fun i => -(i : ℤ)) (fun _ => 0) (fun _ => 0)
    (fun _ => ⟨by norm_num, by norm_num⟩)

/-! ## Current values and percentage changes -/

theorem jsIndex_nat {α : Type} (array : List α) (k : ℕ) (h : k < array.length) :
    jsIndex array (k : ℤ) = some (array.get ⟨k, h⟩) := by
  have h0 : ¬ ((k : ℤ) < 0) := by omega
  simp [jsIndex, h0, List.get?_eq_get h]

theorem jsIndex_neg {α : Type} (array : List α) (index : ℤ) (h : index < 0) :
    jsIndex array index = none := by
  simp [jsIndex, h]

theorem jsIndex_last {α : Type} (array : List α) (h : array ≠ []) :
    jsIndex array ((array.length : ℤ) - 1) = some (array.getLast h) := by
  have hpos : 0 < array.length := List.length_pos.2 h
  have e : ((array.length : ℤ) - 1) = ((array.length - 1 : ℕ) : ℤ) := by omega
  refine (congrArg (jsIndex array) e).trans ?_
  rw [jsIndex_nat array (array.length - 1) (by omega), List.getLast_eq_getElem]
  rfl

theorem jsIndex_back {α : Type} (array : List α) (k : ℕ) (hk : 0 < k) (h : k ≤ array.length) :
    jsIndex array ((array.length : ℤ) - (k : ℤ)) =
      some (array.get ⟨array.length - k, by omega⟩) := by
  have e : ((array.length : ℤ) - (k : ℤ)) = ((array.length - k : ℕ) : ℤ) := by omega
  exact (congrArg (jsIndex array) e).trans (jsIndex_nat array (array.length - k) (by omega))

theorem priceChange7d_long (priceData : List PricePoint) (h : 8 ≤ priceData.length) :
    priceChange7d priceData =
      some (((priceData.get ⟨priceData.length - 1, by omega⟩).price -
          (priceData.get ⟨priceData.length - 8, by omega⟩).price) /
        (priceData.get ⟨priceData.length - 8, by omega⟩).price * 100) := by
  have h1 := jsIndex_back priceData 1 (by norm_num) (by omega)
  have h8 := jsIndex_back priceData 8 (by norm_num) (by omega)
  simp only [Nat.cast_one, Nat.cast_ofNat] at h1 h8
  simp only [priceChange7d, currentPrice, sevenDayAgoIndex, h1, h8, Option.map_some',
    Option.some_bind]

/-- C19. For non-empty series, `price.current`, `markets.dexVolume24h`,
`markets.totalLiquidity`, `community.holders` and `community.transactions24h` are the values of
the last points of the price, volume, liquidity, holder and transactions series. -/
theorem current_values_are_last (priceData : List PricePoint) (volumeData : List VolumePoint)
    (liquidityData : List LiquidityPoint) (holderData : List HolderPoint)
    (transactionsData : List TransactionsPoint) (hp : priceData ≠ []) (hv : volumeData ≠ [])
    (hl : liquidityData ≠ []) (hh : holderData ≠ []) (ht : transactionsData ≠ []) :
    currentPrice priceData = some (priceData.getLast hp).price ∧
    currentVolume volumeData = some (volumeData.getLast hv).volume ∧
    currentLiquidity liquidityData = some (liquidityData.getLast hl).liquidity ∧
    currentHolders holderData = some (holderData.getLast hh).holders ∧
    currentTransactions transactionsData = some (transactionsData.getLast ht).transactions := by
  refine ⟨?_, ?_, ?_, ?_, ?_⟩
  · simp [currentPrice, jsIndex_last priceData hp]
  · simp [currentVolume, jsIndex_last volumeData hv]
  · simp [currentLiquidity, jsIndex_last liquidityData hl]
  · simp [currentHolders, jsIndex_last holderData hh]
  · simp [currentTransactions, jsIndex_last transactionsData ht]

/-- Witness for C19: one-point series. -/
theorem current_values_are_last_witness :
    currentPrice [{ timestamp := 0, price := 3 / 4 }] =
      some (([{ timestamp := 0, price := 3 / 4 }] : List PricePoint).getLast
        (List.cons_ne_nil _ _)).price ∧
    currentVolume [{ timestamp := 0, volume := 500000 }] =
      some (([{ timestamp := 0, volume := 500000 }] : List VolumePoint).getLast
        (List.cons_ne_nil _ _)).volume ∧
    currentLiquidity [{ timestamp := 0, liquidity := 2000000 }] =
      some (([{ timestamp := 0, liquidity := 2000000 }] : List LiquidityPoint).getLast
        (List.cons_ne_nil _ _)).liquidity ∧
    currentHolders [{ timestamp := 0, holders := some 500 }] =
      some (([{ timestamp := 0, holders := some 500 }] : List HolderPoint).getLast
        (List.cons_ne_nil _ _)).holders ∧
    currentTransactions [{ timestamp := 0, transactions := some 80 }] =
      some (([{ timestamp := 0, transactions := some 80 }] : List TransactionsPoint).getLast
        (List.cons_ne_nil _ _)).transactions :=
  current_values_are_last [{ timestamp := 0, price := 3 / 4 }]
    [{ timestamp := 0, volume := 500000 }] [{ timestamp := 0, liquidity := 2000000 }]
    [{ timestamp := 0, holders := some 500 }] [{ timestamp := 0, transactions := some 80 }]
    (List.cons_ne_nil _ _) (List.cons_ne_nil _ _) (List.cons_ne_nil _ _)
    (List.cons_ne_nil _ _) (List.cons_ne_nil _ _)

/-- C20. For a price series of length `n ≥ 8`, `price.change7d` is
`((priceData[n-1].price - priceData[n-8].price) / priceData[n-8].price) * 100`. -/
theorem priceChange7d_baseline (priceData : List PricePoint) (h : 8 ≤ priceData.length) :
    priceChange7d priceData =
      some (((priceData.get ⟨priceData.length - 1, by omega⟩).price -
          (priceData.get ⟨priceData.length - 8, by omega⟩).price) /
        (priceData.get ⟨priceData.length - 8, by omega⟩).price * 100) := by
  exact priceChange7d_long priceData h

/-- Witness for C20: on the series with prices `1, ..., 26` the value is the change from
`priceData[18]` to `priceData[25]`. -/
theorem priceChange7d_baseline_witness :
    priceChange7d rampSeries =
      some (((rampSeries.get ⟨rampSeries.length - 1, by decide⟩).price -
          (rampSeries.get ⟨rampSeries.length - 8, by decide⟩).price) /
        (rampSeries.get ⟨rampSeries.length - 8, by decide⟩).price * 100) :=
  priceChange7d_baseline rampSeries (by decide)

theorem priceChange_long (priceData : List PricePoint) (h : 25 ≤ priceData.length) :
    priceChange priceData =
      some (((priceData.get ⟨priceData.length - 1, by omega⟩).price -
          (priceData.get ⟨priceData.length - 25, by omega⟩).price) /
        (priceData.get ⟨priceData.length - 25, by omega⟩).price * 100) := by
  have h1 := jsIndex_back priceData 1 (by norm_num) (by omega)
  have h25 := jsIndex_back priceData 25 (by norm_num) (by omega)
  simp only [Nat.cast_one, Nat.cast_ofNat] at h1 h25
  simp only [priceChange, currentPrice, oneDayAgoIndex, h1, h25, Option.map_some',
    Option.some_bind]

theorem priceChange_short (priceData : List PricePoint) (h : priceData.length < 25) :
    priceChange priceData = none := by
  have hneg : oneDayAgoIndex priceData < 0 := by
    unfold oneDayAgoIndex
    omega
  simp only [priceChange, jsIndex_neg priceData _ hneg, Option.map_none']
  cases currentPrice priceData <;> rfl

theorem priceChange7d_short (priceData : List PricePoint) (h : priceData.length < 8) :
    priceChange7d priceData = none := by
  have hneg : sevenDayAgoIndex priceData < 0 := by
    unfold sevenDayAgoIndex
    omega
  simp only [priceChange7d, jsIndex_neg priceData _ hneg, Option.map_none']
  cases currentPrice priceData <;> rfl

theorem generateVolumeData_length (rand : ℕ → ℚ) (priceData : List PricePoint)
    (baseVolume : ℚ) :
    (generateVolumeData rand priceData baseVolume).length = priceData.length := by
  simp [generateVolumeData]

theorem volumeChange_long (priceData : List PricePoint) (volumeData : List VolumePoint)
    (hv : volumeData.length = priceData.length) (h : 25 ≤ priceData.length) :
    ∃ change, volumeChange priceData volumeData = some change := by
  have h1 := jsIndex_back volumeData 1 (by norm_num) (by omega)
  have h25 := jsIndex_back volumeData 25 (by norm_num) (by omega)
  simp only [Nat.cast_one, Nat.cast_ofNat] at h1 h25
  have e : oneDayAgoIndex priceData = (volumeData.length : ℤ) - 25 := by
    unfold oneDayAgoIndex
    rw [hv]
  simp only [volumeChange, currentVolume, e, h1, h25, Option.map_some', Option.some_bind]
  exact ⟨_, rfl⟩

theorem liquidityChange_long (priceData : List PricePoint)
    (liquidityData : List LiquidityPoint)
    (hl : liquidityData.length = priceData.length) (h : 25 ≤ priceData.length) :
    ∃ change, liquidityChange priceData liquidityData = some change := by
  have h1 := jsIndex_back liquidityData 1 (by norm_num) (by omega)
  have h25 := jsIndex_back liquidityData 25 (by norm_num) (by omega)
  simp only [Nat.cast_one, Nat.cast_ofNat] at h1 h25
  have e : oneDayAgoIndex priceData = (liquidityData.length : ℤ) - 25 := by
    unfold oneDayAgoIndex
    rw [hl]
  simp only [liquidityChange, currentLiquidity, e, h1, h25, Option.map_some',
    Option.some_bind]
  exact ⟨_, rfl⟩

/-- With fewer than `25` price points the statement computing `priceChange` throws, whatever
the other series hold: no change statistic is produced. -/
theorem changeStatistics_short (priceData : List PricePoint) (volumeData : List VolumePoint)
    (liquidityData : List LiquidityPoint) (holderData : List HolderPoint)
    (transactionsData : List TransactionsPoint) (h : priceData.length < 25) :
    changeStatistics priceData volumeData liquidityData holderData transactionsData = none := by
  unfold changeStatistics
  rw [priceChange_short priceData h]
  cases currentPrice priceData <;> cases currentVolume volumeData <;>
    cases currentLiquidity liquidityData <;> cases currentHolders holderData <;>
    cases currentTransactions transactionsData <;> rfl

/-- With five series of one length, at least `25`, every statement succeeds and the four
changes are the values of the four formulas. -/
theorem changeStatistics_long (priceData : List PricePoint) (volumeData : List VolumePoint)
    (liquidityData : List LiquidityPoint) (holderData : List HolderPoint)
    (transactionsData : List TransactionsPoint)
    (hv : volumeData.length = priceData.length)
    (hl : liquidityData.length = priceData.length)
    (hh : holderData.length = priceData.length)
    (ht : transactionsData.length = priceData.length) (h : 25 ≤ priceData.length) :
    ∃ stats, changeStatistics priceData volumeData liquidityData holderData transactionsData =
        some stats ∧
      priceChange priceData = some stats.priceChange ∧
      volumeChange priceData volumeData = some stats.volumeChange ∧
      liquidityChange priceData liquidityData = some stats.liquidityChange ∧
      priceChange7d priceData = some stats.priceChange7d := by
  have c1 := jsIndex_back priceData 1 (by norm_num) (by omega)
  have c2 := jsIndex_back volumeData 1 (by norm_num) (by omega)
  have c3 := jsIndex_back liquidityData 1 (by norm_num) (by omega)
  have c4 := jsIndex_back holderData 1 (by norm_num) (by omega)
  have c5 := jsIndex_back transactionsData 1 (by norm_num) (by omega)
  simp only [Nat.cast_one] at c1 c2 c3 c4 c5
  obtain ⟨vc, hvc⟩ := volumeChange_long priceData volumeData hv h
  obtain ⟨lc, hlc⟩ := liquidityChange_long priceData liquidityData hl h
  have hp := priceChange_long priceData h
  have hp7 := priceChange7d_long priceData (by omega)
  refine ⟨{ priceChange := _, volumeChange := vc, liquidityChange := lc, priceChange7d := _ },
    ?_, hp, hvc, hlc, hp7⟩
  simp only [changeStatistics, currentPrice, currentVolume, currentLiquidity, currentHolders,
    currentTransactions, c1, c2, c3, c4, c5, hp, hvc, hlc, hp7, Option.map_some',
    Option.some_bind]

/-- C12 (counterexample). The series that `generatePriceData(2, 0.75, 0.03)` returns has three
points; on it neither change is defined: the baseline index is negative, `priceData[index]` is
`undefined` and reading its `.price` throws, so that `tokenData.js` evaluated with `days = 2`
produces no change statistics. With `days = 10` (eleven points) the 7d index `3` is in range,
but the statement computing the 24h change throws before the 7d change is reached. -/
theorem changeStatistics_short_series_undefined :
    (generatePriceData (fun (i : ℕ) => -(i : ℤ)) (weekdayBefore 3) (fun _ => 1 / 2) 2 (3 / 4)
      (3 / 100)).length = 3 ∧
    priceChange (generatePriceData (fun (i : ℕ) => -(i : ℤ)) (weekdayBefore 3)
      (fun _ => 1 / 2) 2 (3 / 4) (3 / 100)) = none ∧
    priceChange7d (generatePriceData (fun (i : ℕ) => -(i : ℤ)) (weekdayBefore 3)
      (fun _ => 1 / 2) 2 (3 / 4) (3 / 100)) = none ∧
    moduleChangeStatistics (fun (i : ℕ) => -(i : ℤ)) (weekdayBefore 3) (fun _ => 1 / 2)
      (fun _ => 1 / 2) (fun _ => 1 / 2) (fun _ => 1 / 2) (fun _ => 1 / 2) 2 = none ∧
    (generatePriceData (fun (i : ℕ) => -(i : ℤ)) (weekdayBefore 3) (fun _ => 1 / 2) 10 (3 / 4)
      (3 / 100)).length = 11 ∧
    moduleChangeStatistics (fun (i : ℕ) => -(i : ℤ)) (weekdayBefore 3) (fun _ => 1 / 2)
      (fun _ => 1 / 2) (fun _ => 1 / 2) (fun _ => 1 / 2) (fun _ => 1 / 2) 10 = none := by
  have l2 : (generatePriceData (fun (i : ℕ) => -(i : ℤ)) (weekdayBefore 3) (fun _ => 1 / 2) 2
      (3 / 4) (3 / 100)).length = 3 := by
    rw [generatePriceData_length]
    decide
  have l10 : (generatePriceData (fun (i : ℕ) => -(i : ℤ)) (weekdayBefore 3) (fun _ => 1 / 2)
      10 (3 / 4) (3 / 100)).length = 11 := by
    rw [generatePriceData_length]
    decide
  refine ⟨l2, priceChange_short _ (by omega), priceChange7d_short _ (by omega), ?_, l10, ?_⟩
  · exact changeStatistics_short _ _ _ _ _ (by omega)
  · exact changeStatistics_short _ _ _ _ _ (by omega)

/-- C12 (amended). The change calculations have no fallback to the first point. `tokenData.js`
evaluates `priceChange`, `volumeChange`, `liquidityChange` (baseline index `length - 25`) and
then `priceChange7d` (baseline index `length - 8`) in that order on its series of `days + 1`
points: for `days ≥ 24`, as with the shipped `days = 180`, all four are defined percentages,
the two price changes being the values of the formulas with these fixed baseline indices; for
`days < 24` the read of `priceData[length - 25]` gives `undefined`, the evaluation stops with a
`TypeError` and no change is produced. -/
theorem changeStatistics_defined_iff (dateOf : ℕ → ℤ) (getDay : ℕ → ℕ)
    (randPrice randVolume randLiquidity randHolders randTransactions : ℕ → ℚ) (days : ℤ) :
    (moduleChangeStatistics dateOf getDay randPrice randVolume randLiquidity randHolders
        randTransactions days = none ↔ days < 24) ∧
    (∀ stats, moduleChangeStatistics dateOf getDay randPrice randVolume randLiquidity
        randHolders randTransactions days = some stats →
      priceChange (generatePriceData dateOf getDay randPrice days (3 / 4) (3 / 100)) =
        some stats.priceChange ∧
      priceChange7d (generatePriceData dateOf getDay randPrice days (3 / 4) (3 / 100)) =
        some stats.priceChange7d) ∧
    moduleChangeStatistics dateOf getDay randPrice randVolume randLiquidity randHolders
      randTransactions 180 ≠ none := by
  have key : ∀ d : ℤ, 24 ≤ d →
      ∃ stats, moduleChangeStatistics dateOf getDay randPrice randVolume randLiquidity
          randHolders randTransactions d = some stats ∧
        priceChange (generatePriceData dateOf getDay randPrice d (3 / 4) (3 / 100)) =
          some stats.priceChange ∧
        priceChange7d (generatePriceData dateOf getDay randPrice d (3 / 4) (3 / 100)) =
          some stats.priceChange7d := by
    intro d hd
    have lp := generatePriceData_length dateOf getDay randPrice d (3 / 4) (3 / 100)
    obtain ⟨stats, hs, h1, _, _, h4⟩ := changeStatistics_long
      (generatePriceData dateOf getDay randPrice d (3 / 4) (3 / 100))
      (generateVolumeData randVolume
        (generatePriceData dateOf getDay randPrice d (3 / 4) (3 / 100)) 500000)
      (generateLiquidityData dateOf randLiquidity d 2000000)
      (generateHolderData dateOf randHolders d)
      (generateTransactionsData dateOf getDay randTransactions d)
      (generateVolumeData_length _ _ _)
      (by rw [generateLiquidityData_length, lp])
      (by rw [generateHolderData_length, lp])
      (by rw [generateTransactionsData_length, lp])
      (by rw [lp]; omega)
    exact ⟨stats, hs, h1, h4⟩
  have short : days < 24 →
      moduleChangeStatistics dateOf getDay randPrice randVolume randLiquidity randHolders
        randTransactions days = none := by
    intro hd
    unfold moduleChangeStatistics
    apply changeStatistics_short
    rw [generatePriceData_length]
    omega
  refine ⟨⟨?_, short⟩, ?_, ?_⟩
  · intro hnone
    by_contra hlen
    obtain ⟨stats, hs, _, _⟩ := key days (by omega)
    rw [hs] at hnone
    exact Option.noConfusion hnone
  · intro stats hstats
    by_cases hd : days < 24
    · rw [short hd] at hstats
      exact Option.noConfusion hstats
    · obtain ⟨stats2, hs, h1, h4⟩ := key days (by omega)
      rw [hs] at hstats
      cases hstats
      exact ⟨h1, h4⟩
  · obtain ⟨stats, hs, _, _⟩ := key 180 (by norm_num)
    rw [hs]
    exact Option.noConfusion

/-! ## All-time high and low -/

theorem mathMax_cons (x : ℚ) (xs : List ℚ) : mathMax (x :: xs) = some (xs.foldl max x) := by
  unfold mathMax
  rw [List.foldl_cons]
  simp only
  generalize x = a
  induction xs generalizing a with
  | nil => rfl
  | cons y t ih =>
    rw [List.foldl_cons, List.foldl_cons]
    exact ih (max a y)

theorem mathMin_cons (x : ℚ) (xs : List ℚ) : mathMin (x :: xs) = some (xs.foldl min x) := by
  unfold mathMin
  rw [List.foldl_cons]
  simp only
  generalize x = a
  induction xs generalizing a with
  | nil => rfl
  | cons y t ih =>
    rw [List.foldl_cons, List.foldl_cons]
    exact ih (min a y)

theorem foldl_max_spec (xs : List ℚ) :
    ∀ a : ℚ, a ≤ xs.foldl max a ∧ (∀ x ∈ xs, x ≤ xs.foldl max a) ∧
      (xs.foldl max a = a ∨ xs.foldl max a ∈ xs) := by
  induction xs with
  | nil => intro a; simp
  | cons y t ih =>
    intro a
    rw [List.foldl_cons]
    obtain ⟨h1, h2, h3⟩ := ih (max a y)
    refine ⟨le_trans (le_max_left a y) h1, ?_, ?_⟩
    · intro x hx
      rcases List.mem_cons.1 hx with hx | hx
      · rw [hx]
        exact le_trans (le_max_right a y) h1
      · exact h2 x hx
    · rcases h3 with h3 | h3
      · rcases max_choice a y with hm | hm
        · left
          rw [h3, hm]
        · right
          rw [h3, hm]
          exact List.mem_cons_self _ _
      · right
        exact List.mem_cons_of_mem _ h3

theorem foldl_min_spec (xs : List ℚ) :
    ∀ a : ℚ, xs.foldl min a ≤ a ∧ (∀ x ∈ xs, xs.foldl min a ≤ x) ∧
      (xs.foldl min a = a ∨ xs.foldl min a ∈ xs) := by
  induction xs with
  | nil => intro a; simp
  | cons y t ih =>
    intro a
    rw [List.foldl_cons]
    obtain ⟨h1, h2, h3⟩ := ih (min a y)
    refine ⟨le_trans h1 (min_le_left a y), ?_, ?_⟩
    · intro x hx
      rcases List.mem_cons.1 hx with hx | hx
      · rw [hx]
        exact le_trans h1 (min_le_right a y)
      · exact h2 x hx
    · rcases h3 with h3 | h3
      · rcases min_choice a y with hm | hm
        · left
          rw [h3, hm]
        · right
          rw [h3, hm]
          exact List.mem_cons_self _ _
      · right
        exact List.mem_cons_of_mem _ h3

/-- For a non-empty list, `Math.max` is an upper bound that is attained. -/
theorem mathMax_spec (values : List ℚ) (h : values ≠ []) :
    ∃ m, mathMax values = some m ∧ (∀ x ∈ values, x ≤ m) ∧ m ∈ values := by
  cases values with
  | nil => exact absurd rfl h
  | cons x xs =>
    obtain ⟨h1, h2, h3⟩ := foldl_max_spec xs x
    refine ⟨xs.foldl max x, mathMax_cons x xs, ?_, ?_⟩
    · intro y hy
      rcases List.mem_cons.1 hy with hy | hy
      · rw [hy]
        exact h1
      · exact h2 y hy
    · rcases h3 with h3 | h3
      · rw [h3]
        exact List.mem_cons_self _ _
      · exact List.mem_cons_of_mem _ h3

/-- For a non-empty list, `Math.min` is a lower bound that is attained. -/
theorem mathMin_spec (values : List ℚ) (h : values ≠ []) :
    ∃ m, mathMin values = some m ∧ (∀ x ∈ values, m ≤ x) ∧ m ∈ values := by
  cases values with
  | nil => exact absurd rfl h
  | cons x xs =>
    obtain ⟨h1, h2, h3⟩ := foldl_min_spec xs x
    refine ⟨xs.foldl min x, mathMin_cons x xs, ?_, ?_⟩
    · intro y hy
      rcases List.mem_cons.1 hy with hy | hy
      · rw [hy]
        exact h1
      · exact h2 y hy
    · rcases h3 with h3 | h3
      · rw [h3]
        exact List.mem_cons_self _ _
      · exact List.mem_cons_of_mem _ h3

/-- The result of `find` for a value attained in the series: the first point with that price. -/
theorem find_first_with_price (priceData : List PricePoint) (target : Option ℚ) (m : ℚ)
    (ht : target = some m) (hm : ∃ p ∈ priceData, p.price = m) :
    ∃ before d after, priceData = before ++ d :: after ∧ d.price = m ∧
      (∀ q ∈ before, q.price ≠ m) ∧
      priceData.find? (fun (d : PricePoint) => decide (some d.price = target)) = some d := by
  cases hf : priceData.find? (fun (d : PricePoint) => decide (some d.price = target)) with
  | none =>
    rw [List.find?_eq_none] at hf
    obtain ⟨p, hp, hpm⟩ := hm
    exact absurd (by simp [ht, hpm]) (hf p hp)
  | some d =>
    obtain ⟨hd, before, after, hsplit, hbefore⟩ := List.find?_eq_some.1 hf
    refine ⟨before, d, after, hsplit, ?_, ?_, rfl⟩
    · simpa [ht] using hd
    · intro q hq hqm
      have := hbefore q hq
      simp [ht, hqm] at this

/-- C18. For every non-empty price series, `price.ath` is the maximum and `price.atl` the
minimum price of the series, `athDate` and `atlDate` are the time stamps of the first point
attaining them, and `atl ≤ price.current ≤ ath`. -/
theorem ath_atl_spec (priceData : List PricePoint) (h : priceData ≠ []) :
    ∃ ath atl, priceAth priceData = some ath ∧ priceAtl priceData = some atl ∧
      (∀ p ∈ priceData, p.price ≤ ath) ∧ (∀ p ∈ priceData, atl ≤ p.price) ∧
      (∃ before d after, priceData = before ++ d :: after ∧ d.price = ath ∧
        (∀ q ∈ before, q.price < ath) ∧ athDate priceData = some d.timestamp) ∧
      (∃ before d after, priceData = before ++ d :: after ∧ d.price = atl ∧
        (∀ q ∈ before, atl < q.price) ∧ atlDate priceData = some d.timestamp) ∧
      (∃ current, currentPrice priceData = some current ∧ atl ≤ current ∧ current ≤ ath) := by
  have hne : (priceData.map fun (d : PricePoint) => d.price) ≠ [] := by
    simpa using h
  obtain ⟨ath, hath, hub, hmaxin⟩ := mathMax_spec _ hne
  obtain ⟨atl, hatl, hlb, hminin⟩ := mathMin_spec _ hne
  have hub' : ∀ p ∈ priceData, p.price ≤ ath := fun p hp =>
    hub _ (List.mem_map_of_mem (fun (d : PricePoint) => d.price) hp)
  have hlb' : ∀ p ∈ priceData, atl ≤ p.price := fun p hp =>
    hlb _ (List.mem_map_of_mem (fun (d : PricePoint) => d.price) hp)
  have hmax : ∃ p ∈ priceData, p.price = ath := by
    obtain ⟨p, hp, hpe⟩ := List.mem_map.1 hmaxin
    exact ⟨p, hp, hpe⟩
  have hmin : ∃ p ∈ priceData, p.price = atl := by
    obtain ⟨p, hp, hpe⟩ := List.mem_map.1 hminin
    exact ⟨p, hp, hpe⟩
  refine ⟨ath, atl, hath, hatl, hub', hlb', ?_, ?_, ?_⟩
  · obtain ⟨before, d, after, hsplit, hd, hbefore, hfind⟩ :=
      find_first_with_price priceData (priceAth priceData) ath hath hmax
    refine ⟨before, d, after, hsplit, hd, ?_, ?_⟩
    · intro q hq
      have hqmem : q ∈ priceData := by
        rw [hsplit]
        exact List.mem_append_left _ hq
      exact lt_of_le_of_ne (hub' q hqmem) (hbefore q hq)
    · simp only [athDate, hfind, Option.map_some']
  · obtain ⟨before, d, after, hsplit, hd, hbefore, hfind⟩ :=
      find_first_with_price priceData (priceAtl priceData) atl hatl hmin
    refine ⟨before, d, after, hsplit, hd, ?_, ?_⟩
    · intro q hq
      have hqmem : q ∈ priceData := by
        rw [hsplit]
        exact List.mem_append_left _ hq
      exact lt_of_le_of_ne (hlb' q hqmem) (fun e => hbefore q hq e.symm)
    · simp only [atlDate, hfind, Option.map_some']
  · refine ⟨(priceData.getLast h).price, ?_, ?_, ?_⟩
    · simp [currentPrice, jsIndex_last priceData h]
    · exact hlb' _ (List.getLast_mem h)
    · exact hub' _ (List.getLast_mem h)

/-- Witness for C18: the series with prices `1, ..., 26`. -/
theorem ath_atl_spec_witness :
    ∃ ath atl, priceAth rampSeries = some ath ∧ priceAtl rampSeries = some atl ∧
      (∀ p ∈ rampSeries, p.price ≤ ath) ∧ (∀ p ∈ rampSeries, atl ≤ p.price) ∧
      (∃ before d after, rampSeries = before ++ d :: after ∧ d.price = ath ∧
        (∀ q ∈ before, q.price < ath) ∧ athDate rampSeries = some d.timestamp) ∧
      (∃ before d after, rampSeries = before ++ d :: after ∧ d.price = atl ∧
        (∀ q ∈ before, atl < q.price) ∧ atlDate rampSeries = some d.timestamp) ∧
      (∃ current, currentPrice rampSeries = some current ∧ atl ≤ current ∧ current ≤ ath) :=
  ath_atl_spec rampSeries (by
    intro h
    have := rampSeries_length
    rw [h] at this
    simp at this)

/-! ## The window of hourly points of `DetailedView` -/

theorem findIndexFrom_none {α : Type} (test : α → Bool) (array : List α) :
    ∀ start : ℕ, (∀ x ∈ array, test x = false) → findIndexFrom test array start = -1 := by
  induction array with
  | nil => intro _ _; rfl
  | cons x t ih =>
    intro start h
    have hx : test x = false := h x (List.mem_cons_self _ _)
    simp only [findIndexFrom, hx, Bool.false_eq_true, if_false]
    exact ih (start + 1) (fun y hy => h y (List.mem_cons_of_mem _ hy))

theorem findIndexFrom_first {α : Type} (test : α → Bool) (before : List α) (x : α)
    (after : List α) (hx : test x = true) :
    ∀ start : ℕ, (∀ y ∈ before, test y = false) →
      findIndexFrom test (before ++ x :: after) start = ((start + before.length : ℕ) : ℤ) := by
  induction before with
  | nil =>
    intro start _
    simp [findIndexFrom, hx]
  | cons y t ih =>
    intro start h
    have hy : test y = false := h y (List.mem_cons_self _ _)
    have hstep : findIndexFrom test ((y :: t) ++ x :: after) start =
        findIndexFrom test (t ++ x :: after) (start + 1) := by
      simp [findIndexFrom, hy]
    rw [hstep, ih (start + 1) (fun z hz => h z (List.mem_cons_of_mem _ hz))]
    simp only [List.length_cons]
    congr 1
    omega

theorem jsSlice_nonneg {α : Type} (array : List α) (start stop : ℕ) :
    jsSlice array (start : ℤ) (stop : ℤ) = (array.take stop).drop start := by
  have h1 : ¬ ((start : ℤ) < 0) := by omega
  have h2 : ¬ ((stop : ℤ) < 0) := by omega
  simp only [jsSlice, h1, h2, if_false]
  have e1 : (min (stop : ℤ) (array.length : ℤ)).toNat = min stop array.length := by omega
  have e2 : (min (start : ℤ) (array.length : ℤ)).toNat = min start array.length := by omega
  rw [e1, e2]
  have t1 : array.take (min stop array.length) = array.take stop := by
    rcases le_total stop array.length with h | h
    · rw [min_eq_left h]
    · rw [min_eq_right h, List.take_of_length_le h, List.take_of_length_le (le_refl _)]
  rw [t1]
  rcases le_total start array.length with h | h
  · rw [min_eq_left h]
  · rw [min_eq_right h]
    have hl : (array.take stop).length ≤ array.length := by
      rw [List.length_take]
      exact min_le_right _ _
    rw [List.drop_eq_nil_of_le hl, List.drop_eq_nil_of_le (le_trans hl h)]

/-- When no point lies within one hour of the target, the window is the first `24` points. -/
theorem relevantData_not_found (targetTime : ℤ) (hourlyData : List PricePoint)
    (h : ∀ p ∈ hourlyData, withinHour targetTime p = false) :
    relevantData targetTime hourlyData = hourlyData.take 24 := by
  have hidx : findIndex (withinHour targetTime) hourlyData = -1 :=
    findIndexFrom_none _ _ 0 h
  simp only [relevantData, hidx]
  have e1 : max (0 : ℤ) (-1 - 24) = ((0 : ℕ) : ℤ) := by norm_num
  have e2 : min ((hourlyData.length : ℤ) - 1) (-1 + 24) + 1 =
      ((min hourlyData.length 24 : ℕ) : ℤ) := by omega
  rw [e1, e2, jsSlice_nonneg, List.drop_zero]
  rcases le_total hourlyData.length 24 with hl | hl
  · rw [min_eq_left hl, List.take_of_length_le (le_refl _), List.take_of_length_le hl]
  · rw [min_eq_right hl]

/-- When the first point within one hour of the target is `x`, the window consists of the last
`24` points before `x`, then `x`, then the first `24` points after it. -/
theorem relevantData_found (targetTime : ℤ) (before : List PricePoint) (x : PricePoint)
    (after : List PricePoint) (hx : withinHour targetTime x = true)
    (hbefore : ∀ y ∈ before, withinHour targetTime y = false) :
    relevantData targetTime (before ++ x :: after) =
      before.drop (before.length - 24) ++ x :: after.take 24 := by
  have hidx : findIndex (withinHour targetTime) (before ++ x :: after) =
      ((before.length : ℕ) : ℤ) := by
    have := findIndexFrom_first (withinHour targetTime) before x after hx 0 hbefore
    simpa [findIndex] using this
  simp only [relevantData, hidx]
  have hlen : (before ++ x :: after).length = before.length + 1 + after.length := by
    simp
    omega
  have e1 : max (0 : ℤ) ((before.length : ℤ) - 24) = ((before.length - 24 : ℕ) : ℤ) := by omega
  have e2 : min (((before ++ x :: after).length : ℤ) - 1) ((before.length : ℤ) + 24) + 1 =
      ((min (before ++ x :: after).length (before.length + 25) : ℕ) : ℤ) := by
    rw [hlen]
    omega
  rw [e1, e2, jsSlice_nonneg]
  have t1 : (before ++ x :: after).take (min (before ++ x :: after).length (before.length + 25))
      = before ++ x :: after.take 24 := by
    rcases le_total (before ++ x :: after).length (before.length + 25) with hl | hl
    · rw [min_eq_left hl, List.take_of_length_le (le_refl _)]
      have : after.length ≤ 24 := by
        rw [hlen] at hl
        omega
      rw [List.take_of_length_le this]
    · rw [min_eq_right hl, List.take_append 25]
      rfl
  rw [t1, List.drop_append_of_le_length (by omega)]

theorem hourlyRamp_far (p : PricePoint) (hp : p ∈ hourlyRamp) :
    withinHour (-2592000000) p = false := by
  obtain ⟨k, _, rfl⟩ := List.mem_map.1 hp
  simp only [withinHour, msPerHour, decide_eq_false_iff_not, not_lt]
  have hk : (0 : ℤ) ≤ (k : ℤ) * 3600000 := by positivity
  rw [abs_of_nonneg (by linarith)]
  linarith

/-- C11 (evaluation at a failing input). For the hourly series of `30` points starting at time
`0` and a selected time `30` days earlier, no point lies within one hour of the selection
(`findIndex` yields `-1`), and yet a window is returned: the first `24` hourly points, none of
them near the selection, where the comments of the source announce the data surrounding the
point closest to the selected time. -/
theorem relevantData_default_window :
    findIndex (withinHour (-2592000000)) hourlyRamp = -1 ∧
    relevantData (-2592000000) hourlyRamp = hourlyRamp.take 24 ∧
    (relevantData (-2592000000) hourlyRamp).length = 24 := by
  have h1 : findIndex (withinHour (-2592000000)) hourlyRamp = -1 :=
    findIndexFrom_none _ _ 0 hourlyRamp_far
  have h2 := relevantData_not_found (-2592000000) hourlyRamp hourlyRamp_far
  refine ⟨h1, h2, ?_⟩
  rw [h2, List.length_take]
  simp [hourlyRamp]

/-- The index found is that of the first point within one hour, not of the closest one: for the
selected time `21240000` (hour `5.9`) `findIndex` yields `5`, a point `0.9` hours away, while the
point of index `6` is `0.1` hours away. -/
theorem findIndex_first_within_hour :
    findIndex (withinHour 21240000) hourlyRamp = 5 ∧
    (hourlyRamp.get? 5).map (fun (p : PricePoint) => |p.timestamp - 21240000|) = some 3240000 ∧
    (hourlyRamp.get? 6).map (fun (p : PricePoint) => |p.timestamp - 21240000|) = some 360000 := by
  refine ⟨?_, ?_, ?_⟩
  · simp [findIndex, findIndexFrom, hourlyRamp, withinHour, msPerHour, List.range, List.range.loop]
  · simp [hourlyRamp, msPerHour, List.range, List.range.loop]
  · simp [hourlyRamp, msPerHour, List.range, List.range.loop]

/-- The window of `DetailedView` when the selection is found: when some point of `data.hourly`
lies within one hour of the selected time, with `x` the first such point, `findIndex` yields
the index of `x` and the window returned consists of the last `24` points before `x` (fewer
when fewer exist), `x` itself, and the first `24` points after `x`. -/
theorem relevantData_window (targetTime : ℤ) (hourlyData : List PricePoint)
    (h : ∃ p ∈ hourlyData, withinHour targetTime p = true) :
    ∃ before x after, hourlyData = before ++ x :: after ∧
      withinHour targetTime x = true ∧ (∀ y ∈ before, withinHour targetTime y = false) ∧
      findIndex (withinHour targetTime) hourlyData = (before.length : ℤ) ∧
      relevantData targetTime hourlyData =
        before.drop (before.length - 24) ++ x :: after.take 24 := by
  cases hf : hourlyData.find? (withinHour targetTime) with
  | none =>
    rw [List.find?_eq_none] at hf
    obtain ⟨p, hp, hpt⟩ := h
    exact absurd hpt (hf p hp)
  | some x =>
    obtain ⟨hx, before, after, hsplit, hb⟩ := List.find?_eq_some.1 hf
    have hbefore : ∀ y ∈ before, withinHour targetTime y = false := by
      intro y hy
      simpa using hb y hy
    refine ⟨before, x, after, hsplit, hx, hbefore, ?_, ?_⟩
    · rw [hsplit]
      have := findIndexFrom_first (withinHour targetTime) before x after hx 0 hbefore
      simpa [findIndex] using this
    · rw [hsplit]
      exact relevantData_found targetTime before x after hx hbefore

/-- An instance of the window: the point at hour `5` of the hourly series is selected. -/
theorem relevantData_window_witness :
    ∃ before x after, hourlyRamp = before ++ x :: after ∧
      withinHour 18000000 x = true ∧ (∀ y ∈ before, withinHour 18000000 y = false) ∧
      findIndex (withinHour 18000000) hourlyRamp = (before.length : ℤ) ∧
      relevantData 18000000 hourlyRamp =
        before.drop (before.length - 24) ++ x :: after.take 24 :=
  relevantData_window 18000000 hourlyRamp
    ⟨{ timestamp := 18000000, price := 6 },
      List.mem_map.2 ⟨5, by simp, by norm_num [msPerHour]⟩,
      by simp [withinHour]⟩

/-! ## The shipped segment `("Top 10 wallets", 28)` -/

theorem generateSegmentDetail_top10 :
    generateSegmentDetail "Top 10 wallets" 28 false =
      SegmentDetail.wallet
        { numWallets := 25210
          totalHoldings := 280000000
          avgHolding := some (1110670 / 100)
          activity := none
          holdingPeriod := "2530 days"
          topAssets :=
            [ { asset := "Ethereum", percentage := 776 },
              { asset := "Stablecoins", percentage := 514 } ] } := by
  have hs : segmentSeed "Top 10 wallets" 28 = 63 / 5 := by
    simp only [segmentSeed, labelHash_top10]
    norm_num
  have h1 : mathFloor (10 + (63 / 5 : ℚ) * 2000) = 25210 := by
    simp only [mathFloor]
    norm_num
  have h2 : toFixed2 (28 * 10000000) = 280000000 := by
    simp only [toFixed2, mathRound]
    norm_num
  have h3 : toFixed2 ((280000000 : ℚ) / 25210) = 1110670 / 100 := by
    simp only [toFixed2, mathRound]
    norm_num
  have h4 : mathFloor ((63 / 5 : ℚ) * 5) = 63 := by
    simp only [mathFloor]
    norm_num
  have h5 : mathFloor (10 + (63 / 5 : ℚ) * 200) = 2530 := by
    simp only [mathFloor]
    norm_num
  have h6 : mathFloor (20 + (63 / 5 : ℚ) * 60) = 776 := by
    simp only [mathFloor]
    norm_num
  have h7 : mathFloor (10 + (63 / 5 : ℚ) * 40) = 514 := by
    simp only [mathFloor]
    norm_num
  have h8 : jsIndex activityLevels (63 : ℤ) = none := by decide
  have h9 : toString (2530 : ℤ) ++ " days" = "2530 days" := by decide
  have h10 : jsDiv (280000000 : ℚ) ((25210 : ℤ) : ℚ) = some (280000000 / 25210) := by
    simp [jsDiv]
  simp only [generateSegmentDetail, hs, Bool.false_eq_true, if_false, h1, h2, h4, h5, h6, h7,
    h8, h9, h10, Option.map_some', h3]

/-! ## Growth rates of the holder and transactions series -/

theorem holderGrowthRate_some (days : ℤ) (i : ℕ) (r : ℚ) (hd : days ≠ 0) :
    holderGrowthRate days i r =
      some (1 + 5 / 100 * ((days : ℚ) - (i : ℚ)) / (days : ℚ) * (r * (1 / 2) + 1 / 2)) := by
  have hq : (days : ℚ) ≠ 0 := by exact_mod_cast hd
  simp [holderGrowthRate, jsDiv, hq]

theorem transactionsGrowthRate_some (days : ℤ) (i : ℕ) (r : ℚ) (hd : days ≠ 0) :
    transactionsGrowthRate days i r =
      some (1 + 3 / 100 * ((days : ℚ) - (i : ℚ)) / (days : ℚ) * (r * (1 / 2) + 3 / 4)) := by
  have hq : (days : ℚ) ≠ 0 := by exact_mod_cast hd
  simp [transactionsGrowthRate, jsDiv, hq]

/-- C22 (evaluation at a failing input). At the shipped horizon `180` with the draw `1/2`, the
growth rate of the earliest day (`i = 180`, no time elapsed) is `1` and that of the latest day
(`i = 0`) is `1.0375` for holders and `1.03` for transactions: the rate grows with the elapsed
time instead of decaying. -/
theorem growthRate_rises_with_elapsed_time :
    holderGrowthRate 180 180 (1 / 2) = some 1 ∧
    holderGrowthRate 180 0 (1 / 2) = some (83 / 80) ∧
    transactionsGrowthRate 180 180 (1 / 2) = some 1 ∧
    transactionsGrowthRate 180 0 (1 / 2) = some (103 / 100) := by
  refine ⟨?_, ?_, ?_, ?_⟩
  · rw [holderGrowthRate_some 180 180 _ (by norm_num)]
    norm_num
  · rw [holderGrowthRate_some 180 0 _ (by norm_num)]
    norm_num
  · rw [transactionsGrowthRate_some 180 180 _ (by norm_num)]
    norm_num
  · rw [transactionsGrowthRate_some 180 0 _ (by norm_num)]
    norm_num

/-- For `days ≥ 1`, a loop index `i ≤ days` and a draw `r ≥ 0`, the holder growth rate is a
number at least `1`. -/
theorem holderGrowthRate_ge_one (days : ℤ) (i : ℕ) (r : ℚ) (hd : 1 ≤ days)
    (hi : (i : ℤ) ≤ days) (hr : 0 ≤ r) :
    ∃ g, holderGrowthRate days i r = some g ∧ 1 ≤ g := by
  refine ⟨_, holderGrowthRate_some days i r (by omega), ?_⟩
  have hdq : (0 : ℚ) < (days : ℚ) := by exact_mod_cast (by omega : (0 : ℤ) < days)
  have hiq : (0 : ℚ) ≤ (days : ℚ) - (i : ℚ) := by
    have : ((i : ℤ) : ℚ) ≤ (days : ℚ) := by exact_mod_cast hi
    simpa using this
  have hf : (0 : ℚ) ≤ r * (1 / 2) + 1 / 2 := by linarith
  have : (0 : ℚ) ≤ 5 / 100 * ((days : ℚ) - (i : ℚ)) / (days : ℚ) * (r * (1 / 2) + 1 / 2) := by
    positivity
  linarith

theorem holderStep_grows (dateOf : ℕ → ℤ) (rand : ℕ → ℚ) (days : ℤ) (hd : 1 ≤ days)
    (hrand : ∀ k, 0 ≤ rand k) (st : HolderState) (i : ℕ) (h : ℤ) (hi : (i : ℤ) ≤ days)
    (hst : st.holders = some h) (hh : 0 ≤ h) :
    ∃ h', (holderStep dateOf rand days st i).holders = some h' ∧ h ≤ h' := by
  obtain ⟨g, hg, hg1⟩ := holderGrowthRate_ge_one days i (rand st.draws) hd hi (hrand _)
  refine ⟨mathFloor ((h : ℚ) * g), ?_, ?_⟩
  · simp only [holderStep, hst, hg, floorMul]
  · simp only [mathFloor]
    rw [Int.le_floor]
    have hq : (0 : ℚ) ≤ (h : ℚ) := by exact_mod_cast hh
    nlinarith

theorem holderLoop_monotone (dateOf : ℕ → ℤ) (rand : ℕ → ℚ) (days : ℤ) (hd : 1 ≤ days)
    (hrand : ∀ k, 0 ≤ rand k) (indices : List ℕ) :
    ∀ (st : HolderState) (h : ℤ) (values : List ℤ), (∀ i ∈ indices, (i : ℤ) ≤ days) →
      st.holders = some h → 500 ≤ h →
      st.data.map (fun (p : HolderPoint) => p.holders) = values.map some →
      values.Sorted (· ≤ ·) → (∀ v ∈ values, 500 ≤ v ∧ v ≤ h) →
      ∃ values' : List ℤ, (indices.foldl (holderStep dateOf rand days) st).data.map
          (fun (p : HolderPoint) => p.holders) = values'.map some ∧
        values'.Sorted (· ≤ ·) ∧ ∀ v ∈ values', 500 ≤ v := by
  induction indices with
  | nil =>
    intro st h values _ _ _ hdata hsorted hvals
    exact ⟨values, hdata, hsorted, fun v hv => (hvals v hv).1⟩
  | cons i t ih =>
    intro st h values hall hst hh hdata hsorted hvals
    rw [List.foldl_cons]
    obtain ⟨h', hstep, hle⟩ := holderStep_grows dateOf rand days hd hrand st i h
      (hall i (List.mem_cons_self _ _)) hst (by omega)
    have hd' : (holderStep dateOf rand days st i).data = st.data ++
        [{ timestamp := dateOf i, holders := (holderStep dateOf rand days st i).holders }] := rfl
    apply ih (holderStep dateOf rand days st i) h' (values ++ [h'])
      (fun j hj => hall j (List.mem_cons_of_mem _ hj)) hstep (by omega)
    · rw [hd', List.map_append, hdata, hstep]
      simp
    · unfold List.Sorted
      rw [List.pairwise_append]
      refine ⟨hsorted, List.pairwise_singleton _ _, ?_⟩
      intro a ha b hb
      rw [List.mem_singleton] at hb
      rw [hb]
      exact le_trans (hvals a ha).2 hle
    · intro v hv
      rcases List.mem_append.1 hv with hv | hv
      · exact ⟨(hvals v hv).1, le_trans (hvals v hv).2 hle⟩
      · rw [List.mem_singleton] at hv
        rw [hv]
        exact ⟨by omega, le_refl _⟩

/-- C23. For every `days ≥ 1` and every stream of draws in `[0, 1)`, the holder counts returned
by `generateHolderData(days)` are integers (never `NaN`), non-decreasing and at least `500`;
there are `days + 1` of them, and the growth rate is always a number (the divisor `days` is not
zero). -/
theorem generateHolderData_monotone (dateOf : ℕ → ℤ) (rand : ℕ → ℚ) (days : ℤ)
    (hd : 1 ≤ days) (hrand : ∀ k, 0 ≤ rand k ∧ rand k < 1) :
    (∃ values : List ℤ,
      (generateHolderData dateOf rand days).map (fun (p : HolderPoint) => p.holders) =
        values.map some ∧
      (values.length : ℤ) = days + 1 ∧ values.Sorted (· ≤ ·) ∧ ∀ v ∈ values, 500 ≤ v) ∧
    ∀ (i : ℕ) (r : ℚ), (holderGrowthRate days i r).isSome = true := by
  constructor
  · obtain ⟨values, h1, h2, h3⟩ := holderLoop_monotone dateOf rand days hd
      (fun k => (hrand k).1) (loopIndices days) { draws := 0, holders := some 500, data := [] }
      500 [] (fun i hi => loopIndices_le days i hi) rfl (le_refl _) rfl List.sorted_nil
      (fun v hv => absurd hv (List.not_mem_nil v))
    refine ⟨values, h1, ?_, h2, h3⟩
    have hlen := congrArg List.length h1
    rw [List.length_map, List.length_map] at hlen
    have := generateHolderData_length dateOf rand days
    unfold generateHolderData at this
    rw [← hlen, this]
    omega
  · intro i r
    rw [holderGrowthRate_some days i r (by omega)]
    rfl

/-- Witness for C23: the shipped horizon with constant draws `1/2`. -/
theorem generateHolderData_monotone_witness :
    (∃ values : List ℤ,
      (generateHolderData (fun i => -(i : ℤ)) (fun _ => 1 / 2) 180).map
        (fun (p : HolderPoint) => p.holders) = values.map some ∧
      (values.length : ℤ) = 180 + 1 ∧ values.Sorted (· ≤ ·) ∧ ∀ v ∈ values, 500 ≤ v) ∧
    ∀ (i : ℕ) (r : ℚ), (holderGrowthRate 180 i r).isSome = true :=
  generateHolderData_monotone (fun i => -(i : ℤ)) (fun _ => 1 / 2) 180 (by norm_num)
    (fun _ => ⟨by norm_num, by norm_num⟩)

/-! ## Shape of the hourly breakdown -/

theorem randomFactor_range {K : Type} [LinearOrderedField K] (sin : ℤ → K)
    (hsin : ∀ x, -1 ≤ sin x ∧ sin x ≤ 1) (seed : ℤ) (hour : ℕ) :
    (1 / 2 : K) ≤ randomFactor sin seed hour ∧ randomFactor sin seed hour ≤ 3 / 2 := by
  unfold randomFactor
  obtain ⟨h1, h2⟩ := hsin (seed + (hour : ℤ) * 13)
  constructor <;> linarith

/-- Every point of the result is the scaled raw volume of its hour, with one positive scale
factor for all hours. -/
theorem mem_generateIntradayData {K : Type} [LinearOrderedField K] (sin : ℤ → K)
    (hsin : ∀ x, -1 ≤ sin x ∧ sin x ≤ 1) (startOfDay : ℤ → ℤ) (timestamp : ℤ)
    (totalVolume : K) (hV : 0 < totalVolume) :
    ∃ scale : K, 0 < scale ∧
      ∀ p ∈ generateIntradayData sin startOfDay timestamp totalVolume,
        p.hour < 24 ∧
        p.volume = rawHourVolume sin (timestamp.tmod 10000) totalVolume p.hour * scale := by
  have hpos : 0 < ((List.range 24).map
      (rawHourVolume sin (timestamp.tmod 10000) totalVolume)).sum :=
    sum_pos_of_pos _ (rawHourVolume_pos sin (fun x => (hsin x).1) _ totalVolume hV) _
      (by decide)
  refine ⟨totalVolume / ((List.range 24).map
      (rawHourVolume sin (timestamp.tmod 10000) totalVolume)).sum, div_pos hV hpos, ?_⟩
  intro p hp
  simp only [generateIntradayData, intraday_foldl, List.nil_append, List.map_map, zero_add,
    List.mem_map, List.mem_range, Function.comp] at hp
  obtain ⟨hour, hlt, rfl⟩ := hp
  exact ⟨hlt, rfl⟩

/-- C24. For every time stamp and every `totalVolume > 0`, the result of `generateIntradayData`
has one point for each hour `0..23`, and every hour of the active range `9..17` has a volume
strictly greater than every hour of the night range `1..7` and at least as large as every hour
outside `9..17`, for any sine with values in `[-1, 1]`. -/
theorem intraday_active_hours_dominate {K : Type} [LinearOrderedField K] (sin : ℤ → K)
    (hsin : ∀ x, -1 ≤ sin x ∧ sin x ≤ 1) (startOfDay : ℤ → ℤ) (timestamp : ℤ)
    (totalVolume : K) (hV : 0 < totalVolume) :
    (generateIntradayData sin startOfDay timestamp totalVolume).map (fun p => p.hour)
      = List.range 24 ∧
    ∀ p ∈ generateIntradayData sin startOfDay timestamp totalVolume,
      ∀ q ∈ generateIntradayData sin startOfDay timestamp totalVolume,
        9 ≤ p.hour → p.hour ≤ 17 →
          (1 ≤ q.hour → q.hour ≤ 7 → q.volume < p.volume) ∧
          (¬ (9 ≤ q.hour ∧ q.hour ≤ 17) → q.volume ≤ p.volume) := by
  obtain ⟨scale, hscale, hmem⟩ :=
    mem_generateIntradayData sin hsin startOfDay timestamp totalVolume hV
  refine ⟨?_, ?_⟩
  · simp only [generateIntradayData, intraday_foldl, List.nil_append, List.map_map]
    exact List.map_id _
  intro p hp q hq hp9 hp17
  obtain ⟨_, hpv⟩ := hmem p hp
  obtain ⟨_, hqv⟩ := hmem q hq
  have hrp := randomFactor_range sin hsin (timestamp.tmod 10000) p.hour
  have hrq := randomFactor_range sin hsin (timestamp.tmod 10000) q.hour
  have hfp : hourFactor (K := K) p.hour = 3 / 2 := by
    simp [hourFactor, hp9, hp17]
  have hplow : totalVolume / 20 ≤ rawHourVolume sin (timestamp.tmod 10000) totalVolume p.hour := by
    unfold rawHourVolume
    rw [hfp]
    have : totalVolume * (3 / 2) * (1 / 2) ≤
        totalVolume * (3 / 2) * randomFactor sin (timestamp.tmod 10000) p.hour :=
      mul_le_mul_of_nonneg_left hrp.1 (by positivity)
    rw [div_le_div_iff₀ (by norm_num) (by norm_num)]
    linarith
  constructor
  · intro hq1 hq7
    have hfq : hourFactor (K := K) q.hour = 3 / 10 := by
      have : ¬ (9 ≤ q.hour ∧ q.hour ≤ 17) := by omega
      simp [hourFactor, this, hq1, hq7]
    have hqhigh : rawHourVolume sin (timestamp.tmod 10000) totalVolume q.hour ≤
        totalVolume * 3 / 100 := by
      unfold rawHourVolume
      rw [hfq]
      have : totalVolume * (3 / 10) * randomFactor sin (timestamp.tmod 10000) q.hour ≤
          totalVolume * (3 / 10) * (3 / 2) :=
        mul_le_mul_of_nonneg_left hrq.2 (by positivity)
      rw [div_le_div_iff₀ (by norm_num) (by norm_num)]
      linarith
    rw [hpv, hqv]
    apply mul_lt_mul_of_pos_right _ hscale
    have : totalVolume * 3 / 100 < totalVolume / 20 := by
      rw [div_lt_div_iff₀ (by norm_num) (by norm_num)]
      linarith
    linarith
  · intro hnot
    have hfq : hourFactor (K := K) q.hour ≤ 1 / 2 := by
      unfold hourFactor
      rw [if_neg hnot]
      split_ifs <;> norm_num
    have hrq0 : (0 : K) ≤ randomFactor sin (timestamp.tmod 10000) q.hour := by linarith [hrq.1]
    have hqhigh : rawHourVolume sin (timestamp.tmod 10000) totalVolume q.hour ≤
        totalVolume / 20 := by
      unfold rawHourVolume
      have h1 : totalVolume * hourFactor q.hour ≤ totalVolume * (1 / 2) :=
        mul_le_mul_of_nonneg_left hfq hV.le
      have h2 : totalVolume * hourFactor q.hour *
          randomFactor sin (timestamp.tmod 10000) q.hour ≤ totalVolume * (1 / 2) * (3 / 2) :=
        mul_le_mul h1 hrq.2 hrq0 (by positivity)
      rw [div_le_div_iff₀ (by norm_num) (by norm_num)]
      linarith
    rw [hpv, hqv]
    exact mul_le_mul_of_nonneg_right (le_trans hqhigh hplow) hscale.le

/-- Witness for C24: the scenario of the specification with the sine replaced by `0`. -/
theorem intraday_active_hours_dominate_witness :
    (generateIntradayData (fun _ => (0 : ℚ)) (fun t => t) 1700000000000 1000000).map
      (fun p => p.hour) = List.range 24 ∧
    ∀ p ∈ generateIntradayData (fun _ => (0 : ℚ)) (fun t => t) 1700000000000 1000000,
      ∀ q ∈ generateIntradayData (fun _ => (0 : ℚ)) (fun t => t) 1700000000000 1000000,
        9 ≤ p.hour → p.hour ≤ 17 →
          (1 ≤ q.hour → q.hour ≤ 7 → q.volume < p.volume) ∧
          (¬ (9 ≤ q.hour ∧ q.hour ≤ 17) → q.volume ≤ p.volume) :=
  intraday_active_hours_dominate (fun _ => (0 : ℚ)) (fun _ => ⟨by norm_num, by norm_num⟩)
    (fun t => t) 1700000000000 1000000 (by norm_num)

/-! ## The volume formula -/

theorem generateVolumeData_get (rand : ℕ → ℚ) (priceData : List PricePoint) (baseVolume : ℚ)
    (index : ℕ) :
    (generateVolumeData rand priceData baseVolume).get? index =
      (priceData.get? index).map fun (point : PricePoint) =>
        { timestamp := point.timestamp,
          volume := volumeFormula baseVolume (relativeChange priceData index point)
            (rand index) } := by
  unfold generateVolumeData
  rw [List.get?_eq_getElem?, List.get?_eq_getElem?, List.getElem?_mapIdx]
  rfl

theorem relativeChange_nonneg (priceData : List PricePoint) (index : ℕ) (point : PricePoint)
    (hprice : ∀ p ∈ priceData, 0 < p.price) (hpoint : 0 < point.price) :
    0 ≤ relativeChange priceData index point := by
  unfold relativeChange
  apply div_nonneg (abs_nonneg _)
  split_ifs
  · cases hq : priceData.get? (index - 1) with
    | none => simpa using hpoint.le
    | some q =>
      simp only [Option.getD_some]
      exact (hprice q (List.get?_mem hq)).le
  · exact hpoint.le

/-- C25. For every price series with positive prices, `baseVolume > 0` and draws in `[0, 1)`,
the volume at position `i` is `baseVolume * (1 + 10 c) * (0.5 + r_i)` where `c` is the absolute
relative change from the previous price (`0` for the first point); it lies in
`[0.5 baseVolume m, 1.5 baseVolume m)` with `m = 1 + 10 c`, and for a fixed draw the formula is
non-decreasing in `c`. -/
theorem generateVolumeData_formula (rand : ℕ → ℚ) (priceData : List PricePoint)
    (baseVolume : ℚ) (hprice : ∀ p ∈ priceData, 0 < p.price) (hbase : 0 < baseVolume)
    (hrand : ∀ k, 0 ≤ rand k ∧ rand k < 1) :
    (∀ index : ℕ, (generateVolumeData rand priceData baseVolume).get? index =
      (priceData.get? index).map fun (point : PricePoint) =>
        { timestamp := point.timestamp,
          volume := baseVolume * (1 + 10 * relativeChange priceData index point) *
            (1 / 2 + rand index) }) ∧
    (∀ point : PricePoint, relativeChange priceData 0 point = 0) ∧
    (∀ (index : ℕ) (previous point : PricePoint), 0 < index →
      priceData.get? (index - 1) = some previous →
      relativeChange priceData index point =
        |point.price - previous.price| / previous.price) ∧
    (∀ (index : ℕ) (point : PricePoint), priceData.get? index = some point →
      1 / 2 * baseVolume * (1 + 10 * relativeChange priceData index point) ≤
        volumeFormula baseVolume (relativeChange priceData index point) (rand index) ∧
      volumeFormula baseVolume (relativeChange priceData index point) (rand index) <
        3 / 2 * baseVolume * (1 + 10 * relativeChange priceData index point)) ∧
    (∀ (change1 change2 r : ℚ), 0 ≤ r → change1 ≤ change2 →
      volumeFormula baseVolume change1 r ≤ volumeFormula baseVolume change2 r) := by
  refine ⟨?_, ?_, ?_, ?_, ?_⟩
  · intro index
    rw [generateVolumeData_get]
    congr 1
    funext point
    simp only [volumeFormula, mul_comm (10 : ℚ)]
  · intro point
    simp [relativeChange]
  · intro index previous point hpos hprev
    simp only [relativeChange, hpos, if_true, hprev, Option.getD_some]
  · intro index point hpt
    have hc := relativeChange_nonneg priceData index point hprice
      (hprice point (List.get?_mem hpt))
    have hm : 0 < baseVolume * (1 + 10 * relativeChange priceData index point) := by
      positivity
    obtain ⟨hr0, hr1⟩ := hrand index
    unfold volumeFormula
    constructor
    · nlinarith
    · nlinarith
  · intro change1 change2 r hr hle
    unfold volumeFormula
    have h1 : baseVolume * (1 + change1 * 10) ≤ baseVolume * (1 + change2 * 10) :=
      mul_le_mul_of_nonneg_left (by linarith) hbase.le
    exact mul_le_mul_of_nonneg_right h1 (by linarith)

/-- Witness for C25: the series with prices `1, ..., 26`, base volume `500000`, draws `1/2`. -/
theorem generateVolumeData_formula_witness :
    (∀ index : ℕ, (generateVolumeData (fun _ => 1 / 2) rampSeries 500000).get? index =
      (rampSeries.get? index).map fun (point : PricePoint) =>
        { timestamp := point.timestamp,
          volume := 500000 * (1 + 10 * relativeChange rampSeries index point) *
            (1 / 2 + (fun _ => (1 / 2 : ℚ)) index) }) ∧
    (∀ point : PricePoint, relativeChange rampSeries 0 point = 0) ∧
    (∀ (index : ℕ) (previous point : PricePoint), 0 < index →
      rampSeries.get? (index - 1) = some previous →
      relativeChange rampSeries index point =
        |point.price - previous.price| / previous.price) ∧
    (∀ (index : ℕ) (point : PricePoint), rampSeries.get? index = some point →
      1 / 2 * 500000 * (1 + 10 * relativeChange rampSeries index point) ≤
        volumeFormula 500000 (relativeChange rampSeries index point)
          ((fun _ => (1 / 2 : ℚ)) index) ∧
      volumeFormula 500000 (relativeChange rampSeries index point)
          ((fun _ => (1 / 2 : ℚ)) index) <
        3 / 2 * 500000 * (1 + 10 * relativeChange rampSeries index point)) ∧
    (∀ (change1 change2 r : ℚ), 0 ≤ r → change1 ≤ change2 →
      volumeFormula 500000 change1 r ≤ volumeFormula 500000 change2 r) :=
  generateVolumeData_formula (fun _ => 1 / 2) rampSeries 500000
    (fun p hp => by
      obtain ⟨k, _, rfl⟩ := List.mem_map.1 hp
      positivity)
    (by norm_num) (fun _ => ⟨by norm_num, by norm_num⟩)

/-! ## The segment detail as a function of the character-code sum -/

theorem labelHash_eq_sum (label : String) : labelHash label = (charCodes label).sum := by
  unfold labelHash
  rw [List.sum_eq_foldl]

/-- Two labels that are permutations of the same characters have the same hash. -/
theorem labelHash_perm (label1 label2 : String) (h : label1.toList.Perm label2.toList) :
    labelHash label1 = labelHash label2 := by
  rw [labelHash_eq_sum, labelHash_eq_sum]
  exact (List.Perm.flatMap_right utf16Units h).sum_eq

/-- The shipped trade-size segment `("$0-$100", 45)`: its seed is `3.55` and its details are the
values of the formulas of the source at that seed. -/
theorem generateSegmentDetail_smallTrades :
    generateSegmentDetail "$0-$100" 45 true =
      SegmentDetail.tradeSize
        { transactions := 15200
          avgTradeValue := 3600
          changeFromLastWeek := 183 / 2
          topTraders := 164
          popularPairings :=
            [ { pair := "NBC-ETH", volume := 217 }, { pair := "NBC-USDC", volume := 172 } ] } := by
  have hs : segmentSeed "$0-$100" 45 = 71 / 20 := by
    simp only [segmentSeed, labelHash_smallTrades]
    norm_num
  have h1 : mathFloor (1000 + (71 / 20 : ℚ) * 4000) = 15200 := by
    simp only [mathFloor]
    norm_num
  have h2 : toFixed2 (50 + (71 / 20 : ℚ) * 1000) = 3600 := by
    simp only [toFixed2, mathRound]
    norm_num
  have h3 : toFixed2 (-15 + (71 / 20 : ℚ) * 30) = 183 / 2 := by
    simp only [toFixed2, mathRound]
    norm_num
  have h4 : mathFloor (5 + (71 / 20 : ℚ) * 45) = 164 := by
    simp only [mathFloor]
    norm_num
  have h5 : mathFloor (40 + (71 / 20 : ℚ) * 50) = 217 := by
    simp only [mathFloor]
    norm_num
  have h6 : mathFloor (30 + (71 / 20 : ℚ) * 40) = 172 := by
    simp only [mathFloor]
    norm_num
  simp only [generateSegmentDetail, hs, h1, h2, h3, h4, h5, h6, if_true]

/-- C26. The result of `generateSegmentDetail` depends on the label only through the sum of its
character codes (`labelHash` is that sum): labels with equal sums give identical details for
the same percentage and flag; and in the trade-size branch every sub-metric is a function of
the single seed `s = (codeSum + percentage) / 100`: two segments with the same seed, whatever
their labels and percentages, get the same `transactions`, `avgTradeValue`,
`changeFromLastWeek`, `topTraders` and `popularPairings`; for the shipped segment
`("$0-$100", 45)`, `s = 3.55`, they are `⌊1000 + 4000 s⌋ = 15200`, `50 + 1000 s = 3600`,
`-15 + 30 s = 91.5`, `⌊5 + 45 s⌋ = 164`, `⌊40 + 50 s⌋ = 217` and `⌊30 + 40 s⌋ = 172`. -/
theorem generateSegmentDetail_code_sum (label1 label2 : String) (percentage : ℚ)
    (isTradeSize : Bool) (h : (charCodes label1).sum = (charCodes label2).sum) :
    generateSegmentDetail label1 percentage isTradeSize =
      generateSegmentDetail label2 percentage isTradeSize ∧
    labelHash label1 = (charCodes label1).sum ∧
    segmentSeed label1 percentage = segmentSeed label2 percentage ∧
    (∀ (labelA labelB : String) (percentageA percentageB : ℚ),
      segmentSeed labelA percentageA = segmentSeed labelB percentageB →
        generateSegmentDetail labelA percentageA true =
          generateSegmentDetail labelB percentageB true) ∧
    generateSegmentDetail "$0-$100" 45 true =
      SegmentDetail.tradeSize
        { transactions := 15200
          avgTradeValue := 3600
          changeFromLastWeek := 183 / 2
          topTraders := 164
          popularPairings :=
            [ { pair := "NBC-ETH", volume := 217 }, { pair := "NBC-USDC", volume := 172 } ] } := by
  have hh : labelHash label1 = labelHash label2 := by
    rw [labelHash_eq_sum, labelHash_eq_sum, h]
  refine ⟨?_, labelHash_eq_sum label1, ?_, ?_, generateSegmentDetail_smallTrades⟩
  · simp only [generateSegmentDetail, segmentSeed, hh]
  · simp only [segmentSeed, hh]
  · intro labelA labelB percentageA percentageB hseed
    simp only [generateSegmentDetail, hseed, if_true]

/-- Witness for C26: two labels made of the same characters in a different order. -/
theorem generateSegmentDetail_code_sum_witness :
    generateSegmentDetail "Top 10 wallets" 28 true =
      generateSegmentDetail "wallets Top 10" 28 true ∧
    labelHash "Top 10 wallets" = (charCodes "Top 10 wallets").sum ∧
    segmentSeed "Top 10 wallets" 28 = segmentSeed "wallets Top 10" 28 ∧
    (∀ (labelA labelB : String) (percentageA percentageB : ℚ),
      segmentSeed labelA percentageA = segmentSeed labelB percentageB →
        generateSegmentDetail labelA percentageA true =
          generateSegmentDetail labelB percentageB true) ∧
    generateSegmentDetail "$0-$100" 45 true =
      SegmentDetail.tradeSize
        { transactions := 15200
          avgTradeValue := 3600
          changeFromLastWeek := 183 / 2
          topTraders := 164
          popularPairings :=
            [ { pair := "NBC-ETH", volume := 217 }, { pair := "NBC-USDC", volume := 172 } ] } :=
  generateSegmentDetail_code_sum "Top 10 wallets" "wallets Top 10" 28 true (by decide)

/-! ## The activity level of the shipped wallet segments -/

theorem labelHash_next40 : labelHash "Next 40 wallets" = 1343 := by decide

theorem labelHash_next100 : labelHash "Next 100 wallets" = 1388 := by decide

theorem labelHash_next1000 : labelHash "Next 1000 wallets" = 1436 := by decide

theorem labelHash_others : labelHash "All others" = 974 := by decide

/-- The activity index and the activity of a wallet segment whose label has hash `hash`. -/
theorem activity_of_hash (label : String) (percentage : ℚ) (hash : ℕ) (index : ℤ)
    (hh : labelHash label = hash)
    (hi : Int.floor (((hash : ℚ) + percentage) / 100 * 5) = index) :
    mathFloor (segmentSeed label percentage * 5) = index ∧
    activityOf (generateSegmentDetail label percentage false) =
      some (jsIndex activityLevels index) := by
  have h1 : mathFloor (segmentSeed label percentage * 5) = index := by
    simp only [mathFloor, segmentSeed, hh]
    exact hi
  refine ⟨h1, ?_⟩
  simp only [generateSegmentDetail, Bool.false_eq_true, if_false, activityOf, h1]

/-- C27 (evaluation at the failing inputs). For the five shipped wallet-concentration segments
the index `Math.floor(seed * 5)` is `63`, `68`, `70`, `72` and `49`: none lies in `0..4`, and
the `activity` read from the five-element array is `undefined` every time. -/
theorem shipped_activity_undefined :
    generateWalletConcentration.map
      (fun (w : WalletShare) => mathFloor (segmentSeed w.walletType w.percentage * 5)) =
      [63, 68, 70, 72, 49] ∧
    generateWalletConcentration.map
      (fun (w : WalletShare) =>
        activityOf (generateSegmentDetail w.walletType w.percentage false)) =
      [some none, some none, some none, some none, some none] := by
  have a1 := activity_of_hash "Top 10 wallets" 28 1232 63 labelHash_top10 (by norm_num)
  have a2 := activity_of_hash "Next 40 wallets" 22 1343 68 labelHash_next40 (by norm_num)
  have a3 := activity_of_hash "Next 100 wallets" 18 1388 70 labelHash_next100 (by norm_num)
  have a4 := activity_of_hash "Next 1000 wallets" 22 1436 72 labelHash_next1000 (by norm_num)
  have a5 := activity_of_hash "All others" 10 974 49 labelHash_others (by norm_num)
  have j1 : jsIndex activityLevels 63 = none := by decide
  have j2 : jsIndex activityLevels 68 = none := by decide
  have j3 : jsIndex activityLevels 70 = none := by decide
  have j4 : jsIndex activityLevels 72 = none := by decide
  have j5 : jsIndex activityLevels 49 = none := by decide
  constructor
  · simp only [generateWalletConcentration, List.map_cons, List.map_nil, a1.1, a2.1, a3.1,
      a4.1, a5.1]
  · simp only [generateWalletConcentration, List.map_cons, List.map_nil, a1.2, a2.2, a3.2,
      a4.2, a5.2, j1, j2, j3, j4, j5]

/-! ## The price floor, day by day -/

theorem priceStep_floorAt (dateOf : ℕ → ℤ) (getDay : ℕ → ℕ) (rand : ℕ → ℚ) (volatility : ℚ)
    (st : PriceState) (i : ℕ) :
    PriceFloorAt dateOf getDay i
      { timestamp := dateOf i,
        price := (priceStep dateOf getDay rand volatility st i).currentPrice } := by
  refine ⟨rfl, priceStep_floor dateOf getDay rand volatility st i, ?_⟩
  intro hw
  simp only [priceStep, hw, Bool.false_eq_true, if_false]
  exact le_max_left _ _

theorem priceLoop_floorAt (dateOf : ℕ → ℤ) (getDay : ℕ → ℕ) (rand : ℕ → ℚ) (volatility : ℚ)
    (indices : List ℕ) :
    ∀ (st : PriceState) (visited : List ℕ),
      List.Forall₂ (PriceFloorAt dateOf getDay) visited st.data →
      List.Forall₂ (PriceFloorAt dateOf getDay) (visited ++ indices)
        (indices.foldl (priceStep dateOf getDay rand volatility) st).data := by
  induction indices with
  | nil =>
    intro st visited h
    simpa using h
  | cons i t ih =>
    intro st visited h
    rw [List.foldl_cons]
    have hd : (priceStep dateOf getDay rand volatility st i).data = st.data ++
        [{ timestamp := dateOf i,
           price := (priceStep dateOf getDay rand volatility st i).currentPrice }] := rfl
    have hstep : List.Forall₂ (PriceFloorAt dateOf getDay) (visited ++ [i])
        (priceStep dateOf getDay rand volatility st i).data := by
      rw [hd]
      exact List.rel_append h
        (List.Forall₂.cons (priceStep_floorAt dateOf getDay rand volatility st i)
          List.Forall₂.nil)
    have := ih (priceStep dateOf getDay rand volatility st i) (visited ++ [i]) hstep
    simpa [List.append_assoc] using this

/-- C28 (counterexample). Starting at `0.01` on a Sunday with the draw `0` (one point,
`days = 0`), the price is clamped to `0.01` and then multiplied by `0.995`: the emitted price
`0.00995` is below the floor `0.01`. -/
theorem weekend_price_below_floor :
    generatePriceData (fun _ => 0) (fun _ => 0) (fun _ => 0) 0 (1 / 100) (3 / 100) =
      [{ timestamp := 0, price := 199 / 20000 }] ∧
    (199 / 20000 : ℚ) < 1 / 100 := by
  have hl : loopIndices 0 = [0] := by decide
  constructor
  · simp only [generatePriceData, hl, List.foldl_cons, List.foldl_nil, priceStep]
    norm_num [isWeekend]
  · norm_num

/-- C28 (amended). For every `days`, `startPrice`, `volatility` and stream of draws, the points
emitted by `generatePriceData` correspond one to one to the loop indices
`days, days - 1, ..., 0`; every price is at least `0.00995 = 0.01 * 0.995`, and at least the
floor `0.01` on every day that is not a weekend day. -/
theorem generatePriceData_floor_by_day (dateOf : ℕ → ℤ) (getDay : ℕ → ℕ) (rand : ℕ → ℚ)
    (days : ℤ) (startPrice volatility : ℚ) :
    List.Forall₂ (PriceFloorAt dateOf getDay) (loopIndices days)
      (generatePriceData dateOf getDay rand days startPrice volatility) := by
  have := priceLoop_floorAt dateOf getDay rand volatility (loopIndices days)
    { draws := 0, currentPrice := startPrice, data := [] } [] List.Forall₂.nil
  simpa [generatePriceData] using this

/-! ## The metrics of `generateVolumeMetrics` -/

theorem rand_bounds (seed : ℤ) (min max : ℚ) (hs : 0 ≤ seed) (hmm : min ≤ max) :
    min ≤ rand seed min max ∧ rand seed min max ≤ max := by
  obtain ⟨h0, h1⟩ := randFraction_range seed hs
  unfold rand
  have hd : 0 ≤ max - min := by linarith
  constructor
  · have := mul_nonneg h0 hd
    linarith
  · have : randFraction seed * (max - min) ≤ 1 * (max - min) :=
      mul_le_mul_of_nonneg_right h1.le hd
    linarith

theorem mathRound_intCast (z : ℤ) : mathRound (z : ℚ) = z := by
  unfold mathRound
  rw [Int.floor_eq_iff]
  constructor <;> norm_num

/-- C29. For every time stamp `≥ 0` and every volume `≥ 500`, `generateVolumeMetrics` yields
finite numbers with `tradeCount ≥ 1` (so the division by `tradeCount` is guarded),
`avgTradeSize * tradeCount = volume`, `avgTradeSize ≥ 200` and
`newWallets ≤ uniqueWallets ≤ tradeCount`. -/
theorem generateVolumeMetrics_guarded (timestamp : ℤ) (volume : ℚ) (ht : 0 ≤ timestamp)
    (hv : 500 ≤ volume) :
    ∃ (tradeCount uniqueWallets newWallets : ℤ) (avgTradeSize : ℚ),
      (generateVolumeMetrics timestamp volume).tradeCount = some tradeCount ∧
      (generateVolumeMetrics timestamp volume).avgTradeSize = some avgTradeSize ∧
      (generateVolumeMetrics timestamp volume).uniqueWallets = some uniqueWallets ∧
      (generateVolumeMetrics timestamp volume).newWallets = some newWallets ∧
      1 ≤ tradeCount ∧ avgTradeSize * (tradeCount : ℚ) = volume ∧ 200 ≤ avgTradeSize ∧
      newWallets ≤ uniqueWallets ∧ uniqueWallets ≤ tradeCount := by
  have hs := seed_nonneg timestamp ht
  obtain ⟨hx0, hx1⟩ := rand_bounds (timestamp.tmod 10000) 200 500 hs (by norm_num)
  obtain ⟨hy0, hy1⟩ := rand_bounds (timestamp.tmod 10000) (4 / 10) (7 / 10) hs (by norm_num)
  obtain ⟨hz0, hz1⟩ := rand_bounds (timestamp.tmod 10000) (5 / 100) (15 / 100) hs
    (by norm_num)
  have hxpos : 0 < rand (timestamp.tmod 10000) 200 500 := by linarith
  have hxne : rand (timestamp.tmod 10000) 200 500 ≠ 0 := ne_of_gt hxpos
  have hquot : (1 : ℚ) ≤ volume / rand (timestamp.tmod 10000) 200 500 := by
    rw [le_div_iff₀ hxpos]
    linarith
  have htc1 : 1 ≤ Int.floor (volume / rand (timestamp.tmod 10000) 200 500) := by
    rw [Int.le_floor]
    exact_mod_cast hquot
  have htcq : (1 : ℚ) ≤ (Int.floor (volume / rand (timestamp.tmod 10000) 200 500) : ℚ) := by
    exact_mod_cast htc1
  have htcpos : (0 : ℚ) < (Int.floor (volume / rand (timestamp.tmod 10000) 200 500) : ℚ) := by
    linarith
  have htcne : (Int.floor (volume / rand (timestamp.tmod 10000) 200 500) : ℚ) ≠ 0 :=
    ne_of_gt htcpos
  have htcle : (Int.floor (volume / rand (timestamp.tmod 10000) 200 500) : ℚ) ≤
      volume / rand (timestamp.tmod 10000) 200 500 := Int.floor_le _
  have huw0 : (0 : ℚ) ≤ (Int.floor (volume / rand (timestamp.tmod 10000) 200 500) : ℚ) *
      rand (timestamp.tmod 10000) (4 / 10) (7 / 10) :=
    mul_nonneg htcpos.le (by linarith)
  have huwnn : 0 ≤ Int.floor ((Int.floor (volume / rand (timestamp.tmod 10000) 200 500) : ℚ) *
      rand (timestamp.tmod 10000) (4 / 10) (7 / 10)) := by
    rw [Int.le_floor]
    exact_mod_cast huw0
  refine ⟨Int.floor (volume / rand (timestamp.tmod 10000) 200 500),
    Int.floor ((Int.floor (volume / rand (timestamp.tmod 10000) 200 500) : ℚ) *
      rand (timestamp.tmod 10000) (4 / 10) (7 / 10)),
    Int.floor ((Int.floor ((Int.floor (volume / rand (timestamp.tmod 10000) 200 500) : ℚ) *
      rand (timestamp.tmod 10000) (4 / 10) (7 / 10)) : ℚ) *
      rand (timestamp.tmod 10000) (5 / 100) (15 / 100)),
    volume / (Int.floor (volume / rand (timestamp.tmod 10000) 200 500) : ℚ),
    ?_, ?_, ?_, ?_, htc1, ?_, ?_, ?_, ?_⟩
  · simp only [generateVolumeMetrics, jsDiv, hxne, if_false, Option.map_some', mathFloor,
      mathRound_intCast]
  · simp only [generateVolumeMetrics, jsDiv, hxne, if_false, Option.map_some', mathFloor,
      Option.some_bind, htcne]
  · simp only [generateVolumeMetrics, jsDiv, hxne, if_false, Option.map_some', mathFloor]
  · simp only [generateVolumeMetrics, jsDiv, hxne, if_false, Option.map_some', mathFloor]
  · field_simp
  · rw [le_div_iff₀ htcpos]
    have h1 : (Int.floor (volume / rand (timestamp.tmod 10000) 200 500) : ℚ) *
        rand (timestamp.tmod 10000) 200 500 ≤ volume := by
      have := mul_le_mul_of_nonneg_right htcle hxpos.le
      rwa [div_mul_cancel₀ volume hxne] at this
    nlinarith
  · have huwq : (0 : ℚ) ≤ (Int.floor ((Int.floor
        (volume / rand (timestamp.tmod 10000) 200 500) : ℚ) *
        rand (timestamp.tmod 10000) (4 / 10) (7 / 10)) : ℚ) := by exact_mod_cast huwnn
    have hle : (Int.floor ((Int.floor
        (volume / rand (timestamp.tmod 10000) 200 500) : ℚ) *
        rand (timestamp.tmod 10000) (4 / 10) (7 / 10)) : ℚ) *
        rand (timestamp.tmod 10000) (5 / 100) (15 / 100) ≤
        (Int.floor ((Int.floor (volume / rand (timestamp.tmod 10000) 200 500) : ℚ) *
        rand (timestamp.tmod 10000) (4 / 10) (7 / 10)) : ℚ) := by
      nlinarith
    have := Int.floor_le_floor hle
    rwa [Int.floor_intCast] at this
  · have hle : (Int.floor (volume / rand (timestamp.tmod 10000) 200 500) : ℚ) *
        rand (timestamp.tmod 10000) (4 / 10) (7 / 10) ≤
        (Int.floor (volume / rand (timestamp.tmod 10000) 200 500) : ℚ) := by
      nlinarith
    have := Int.floor_le_floor hle
    rwa [Int.floor_intCast] at this

/-- Witness for C29: the scenario of the specification, a bar of volume `1000000`. -/
theorem generateVolumeMetrics_guarded_witness :
    ∃ (tradeCount uniqueWallets newWallets : ℤ) (avgTradeSize : ℚ),
      (generateVolumeMetrics 1700000000000 1000000).tradeCount = some tradeCount ∧
      (generateVolumeMetrics 1700000000000 1000000).avgTradeSize = some avgTradeSize ∧
      (generateVolumeMetrics 1700000000000 1000000).uniqueWallets = some uniqueWallets ∧
      (generateVolumeMetrics 1700000000000 1000000).newWallets = some newWallets ∧
      1 ≤ tradeCount ∧ avgTradeSize * (tradeCount : ℚ) = 1000000 ∧ 200 ≤ avgTradeSize ∧
      newWallets ≤ uniqueWallets ∧ uniqueWallets ≤ tradeCount :=
  generateVolumeMetrics_guarded 1700000000000 1000000 (by norm_num) (by norm_num)

/-! ## Dependence of the drill-down on the time stamp -/

theorem generateIntradayData_volumes {K : Type} [LinearOrderedField K] (sin : ℤ → K)
    (startOfDay : ℤ → ℤ) (timestamp : ℤ) (totalVolume : K) :
    (generateIntradayData sin startOfDay timestamp totalVolume).map (fun p => p.volume) =
      (List.range 24).map fun (hour : ℕ) =>
        rawHourVolume sin (timestamp.tmod 10000) totalVolume hour *
          (totalVolume / ((List.range 24).map
            (rawHourVolume sin (timestamp.tmod 10000) totalVolume)).sum) := by
  simp only [generateIntradayData, intraday_foldl, List.nil_append, List.map_map, zero_add]
  rfl

theorem topPairs_of_fraction (timestamp : ℤ) (volume : ℚ) (m : ℤ)
    (h : ((timestamp.tmod 10000) * 9301 + 49297).tmod 233280 = m) :
    (generateVolumeMetrics timestamp volume).topPairs.map (fun p => p.percentage) =
      [mathRound ((50 + (-10 + (m : ℚ) / 233280 * (10 - -10))) * 100 /
          (0 + (50 + (-10 + (m : ℚ) / 233280 * (10 - -10))) +
            (30 + (-8 + (m : ℚ) / 233280 * (8 - -8))) +
            (20 + (-6 + (m : ℚ) / 233280 * (6 - -6))))),
        mathRound ((30 + (-8 + (m : ℚ) / 233280 * (8 - -8))) * 100 /
          (0 + (50 + (-10 + (m : ℚ) / 233280 * (10 - -10))) +
            (30 + (-8 + (m : ℚ) / 233280 * (8 - -8))) +
            (20 + (-6 + (m : ℚ) / 233280 * (6 - -6))))),
        mathRound ((20 + (-6 + (m : ℚ) / 233280 * (6 - -6))) * 100 /
          (0 + (50 + (-10 + (m : ℚ) / 233280 * (10 - -10))) +
            (30 + (-8 + (m : ℚ) / 233280 * (8 - -8))) +
            (20 + (-6 + (m : ℚ) / 233280 * (6 - -6)))))] := by
  simp only [generateVolumeMetrics, normalizePairs, rawTopPairs, pairSum, rand,
    randFraction_eval _ m h, List.map_cons, List.map_nil, List.foldl_cons, List.foldl_nil]

/-- C30 (counterexample). The time stamps `-5000` and `5000` are congruent modulo `10000`, but
their JavaScript remainders are `-5000` and `5000`, and the metrics differ: the pair shares are
`54, 29, 18` for the first and `50, 30, 20` for the second. -/
theorem metrics_differ_for_congruent_timestamps :
    (-5000 : ℤ) % 10000 = (5000 : ℤ) % 10000 ∧
    (generateVolumeMetrics (-5000) 1000000).topPairs.map (fun p => p.percentage)
      = [54, 29, 18] ∧
    (generateVolumeMetrics 5000 1000000).topPairs.map (fun p => p.percentage)
      = [50, 30, 20] ∧
    generateVolumeMetrics (-5000) 1000000 ≠ generateVolumeMetrics 5000 1000000 := by
  have h1 : (generateVolumeMetrics (-5000) 1000000).topPairs.map (fun p => p.percentage)
      = [54, 29, 18] := by
    rw [topPairs_of_fraction (-5000) 1000000 (-32983) (by decide)]
    simp only [mathRound]
    norm_num
  have h2 : (generateVolumeMetrics 5000 1000000).topPairs.map (fun p => p.percentage)
      = [50, 30, 20] := by
    rw [topPairs_of_fraction 5000 1000000 131577 (by decide)]
    simp only [mathRound]
    norm_num
  refine ⟨by decide, h1, h2, ?_⟩
  intro heq
  rw [heq, h2] at h1
  exact absurd h1 (by decide)

/-- C30 (amended). The hourly volumes of `generateIntradayData` and the result of
`generateVolumeMetrics` depend on the time stamp only through the JavaScript remainder
`timestamp % 10000`: two time stamps with the same remainder, in particular two non-negative
time stamps congruent modulo `10000`, give identical hourly volume values and identical
metrics for the same volume; every multiple of `10000` has remainder `0`. -/
theorem drilldown_depends_on_remainder {K : Type} [LinearOrderedField K] (sin : ℤ → K)
    (startOfDay : ℤ → ℤ) (timestamp1 timestamp2 : ℤ) (totalVolume : K) (volume : ℚ)
    (h : timestamp1.tmod 10000 = timestamp2.tmod 10000) :
    (generateIntradayData sin startOfDay timestamp1 totalVolume).map (fun p => p.volume) =
      (generateIntradayData sin startOfDay timestamp2 totalVolume).map (fun p => p.volume) ∧
    generateVolumeMetrics timestamp1 volume = generateVolumeMetrics timestamp2 volume ∧
    (∀ a b : ℤ, 0 ≤ a → 0 ≤ b → a % 10000 = b % 10000 → a.tmod 10000 = b.tmod 10000) ∧
    (∀ k : ℤ, (10000 * k).tmod 10000 = 0) := by
  refine ⟨?_, ?_, ?_, ?_⟩
  · rw [generateIntradayData_volumes, generateIntradayData_volumes, h]
  · simp only [generateVolumeMetrics, h]
  · intro a b ha hb hab
    rw [Int.tmod_eq_emod ha (by norm_num), Int.tmod_eq_emod hb (by norm_num), hab]
  · intro k
    exact Int.mul_tmod_right 10000 k

/-- Witness for C30 (amended): two weekly bucket keys, both multiples of `10000`. -/
theorem drilldown_depends_on_remainder_witness :
    (generateIntradayData (fun _ => (0 : ℚ)) (fun t => t) 1700000000000 1000000).map
        (fun p => p.volume) =
      (generateIntradayData (fun _ => (0 : ℚ)) (fun t => t) 1700604800000 1000000).map
        (fun p => p.volume) ∧
    generateVolumeMetrics 1700000000000 1000000 = generateVolumeMetrics 1700604800000 1000000 ∧
    (∀ a b : ℤ, 0 ≤ a → 0 ≤ b → a % 10000 = b % 10000 → a.tmod 10000 = b.tmod 10000) ∧
    (∀ k : ℤ, (10000 * k).tmod 10000 = 0) :=
  drilldown_depends_on_remainder (fun _ => (0 : ℚ)) (fun t => t) 1700000000000 1700604800000
    1000000 1000000 (by decide)

/-! ## What the drill-down functions depend on -/

theorem generateIntradayData_hours {K : Type} [LinearOrderedField K] (sin : ℤ → K)
    (startOfDay : ℤ → ℤ) (timestamp : ℤ) (totalVolume : K) :
    (generateIntradayData sin startOfDay timestamp totalVolume).map (fun p => p.hour) =
      List.range 24 := by
  simp only [generateIntradayData, intraday_foldl, List.nil_append, List.map_map]
  exact List.map_id _

theorem generateIntradayData_timestamps {K : Type} [LinearOrderedField K] (sin : ℤ → K)
    (startOfDay : ℤ → ℤ) (timestamp : ℤ) (totalVolume : K) :
    (generateIntradayData sin startOfDay timestamp totalVolume).map (fun p => p.timestamp) =
      (List.range 24).map fun (hour : ℕ) => startOfDay timestamp + (hour : ℤ) * 3600000 := by
  simp only [generateIntradayData, intraday_foldl, List.nil_append, List.map_map]
  rfl

theorem startOfDayAt_utc : startOfDayAt 0 1700000000000 = 1699920000000 := by
  simp only [startOfDayAt, msPerDay]
  norm_num

theorem startOfDayAt_plus_one : startOfDayAt 3600000 1700000000000 = 1699916400000 := by
  simp only [startOfDayAt, msPerDay]
  norm_num

/-- C21 (counterexample). Two calls of `generateIntradayData` with equal arguments
`(1700000000000, 1000000)` on two hosts, one in the zone UTC and one in the zone UTC+1, return
different results: the local midnight read through `startOfDay` is `1699920000000` on the
first and `1699916400000` on the second, and the hourly time stamps are counted from it. -/
theorem generateIntradayData_depends_on_time_zone :
    startOfDayAt 0 1700000000000 = 1699920000000 ∧
    startOfDayAt 3600000 1700000000000 = 1699916400000 ∧
    (∀ sin : ℤ → ℚ,
      (generateIntradayData sin (startOfDayAt 0) 1700000000000 1000000).map
          (fun p => p.timestamp) =
        (List.range 24).map (fun (hour : ℕ) => 1699920000000 + (hour : ℤ) * 3600000) ∧
      (generateIntradayData sin (startOfDayAt 3600000) 1700000000000 1000000).map
          (fun p => p.timestamp) =
        (List.range 24).map (fun (hour : ℕ) => 1699916400000 + (hour : ℤ) * 3600000) ∧
      generateIntradayData sin (startOfDayAt 0) 1700000000000 1000000 ≠
        generateIntradayData sin (startOfDayAt 3600000) 1700000000000 1000000) := by
  refine ⟨startOfDayAt_utc, startOfDayAt_plus_one, ?_⟩
  intro sin
  have h0 := generateIntradayData_timestamps sin (startOfDayAt 0) 1700000000000 1000000
  have h1 := generateIntradayData_timestamps sin (startOfDayAt 3600000) 1700000000000 1000000
  rw [startOfDayAt_utc] at h0
  rw [startOfDayAt_plus_one] at h1
  refine ⟨h0, h1, ?_⟩
  intro heq
  have hts := congrArg (fun l => (l.map (fun p => p.timestamp)).head?) heq
  simp only [h0, h1] at hts
  revert hts
  decide

/-- C21 (amended). The drill-down functions read no random source, no clock and no mutable
state; `generateIntradayData` reads the time zone of the host through `startOfDay`. For equal
arguments its hours and its volumes are the same on every host, its time stamps are the local
midnight of the host plus the hour, and the host enters the result through that midnight
only. `generateSegmentDetail` and `generateVolumeMetrics` compute from their arguments alone;
`generateSegmentDetail("Top 10 wallets", 28, false)` is the object with `numWallets = 25210`,
`avgHolding = 11106.7` and `topAssets` percentages `776` and `514`. -/
theorem drilldown_deterministic {K : Type} [LinearOrderedField K] (sin : ℤ → K)
    (startOfDay1 startOfDay2 : ℤ → ℤ) (timestamp : ℤ) (totalVolume : K) :
    ((generateIntradayData sin startOfDay1 timestamp totalVolume).map (fun p => p.hour) =
        (generateIntradayData sin startOfDay2 timestamp totalVolume).map (fun p => p.hour) ∧
      (generateIntradayData sin startOfDay1 timestamp totalVolume).map (fun p => p.volume) =
        (generateIntradayData sin startOfDay2 timestamp totalVolume).map (fun p => p.volume) ∧
      (generateIntradayData sin startOfDay1 timestamp totalVolume).map (fun p => p.timestamp) =
        (List.range 24).map
          (fun (hour : ℕ) => startOfDay1 timestamp + (hour : ℤ) * 3600000)) ∧
    generateIntradayData sin startOfDay1 timestamp totalVolume =
      generateIntradayData sin (fun _ => startOfDay1 timestamp) timestamp totalVolume ∧
    generateSegmentDetail "Top 10 wallets" 28 false =
      SegmentDetail.wallet
        { numWallets := 25210
          totalHoldings := 280000000
          avgHolding := some (1110670 / 100)
          activity := none
          holdingPeriod := "2530 days"
          topAssets :=
            [ { asset := "Ethereum", percentage := 776 },
              { asset := "Stablecoins", percentage := 514 } ] } := by
  refine ⟨⟨?_, ?_, ?_⟩, ?_, generateSegmentDetail_top10⟩
  · rw [generateIntradayData_hours, generateIntradayData_hours]
  · rw [generateIntradayData_volumes, generateIntradayData_volumes]
  · exact generateIntradayData_timestamps sin startOfDay1 timestamp totalVolume
  · simp only [generateIntradayData]

end Dashboard
